import Mathlib

/-!
iitp-auth: a shallow embedding of the core of the OTP gateway.

The development follows these source files:

* `src/utils/rateLimiter.js`       (the in-memory rate limiter),
* `src/utils/otpService.js`        (OTP generation, the OTP token codec, the assertion),
* `src/utils/emailParser.js`       (the identity parser),
* `src/pages/api/verify-otp.js`    (the handler that verifies an OTP and issues the assertion),
* `src/utils/emailService.js`      (`sendOTPEmail`, around the mail transport),
* `src/pages/api/send-otp.js`      (the handler that rate-limits, mints and sends an OTP),
* `src/pages/api/extract-info.js`  (the `data` object of its response),
* `src/INTEGRATION_EXAMPLES.js`    (`verifyAuthToken`, the consumer-side validation).

Conventions of the embedding.

* A JavaScript string is a Lean `String`; its characters are read through `String.toList`.
* `Date.now()` is an explicit argument: every call of `Date.now()` in the source is one
  natural-number argument (milliseconds) of the embedded function, in source order.
* `Math.random()` is an explicit rational argument (every double is a rational), and the
  arithmetic of `generateOTP` is double arithmetic: each operation returns the double
  nearest to its exact result (`roundDouble`).
* The built-in `String.prototype.toLowerCase`, the two libraries `jsonwebtoken` and
  `bcryptjs` and the mail transport are not code of the repository; they are arguments of
  the embedded functions.
* The module-level `Map` of the rate limiter is threaded through as explicit state.  No
  function that touches it has an `await`, so a call runs to completion before another
  starts, and concurrent calls are calls served in some order.
* Theorems that need it assume `toLowerCase` idempotent, or ASCII lower-casing on ASCII
  strings, as the built-in is; the concrete instances use `asciiLower`, which is the
  built-in on ASCII strings.
-/

set_option autoImplicit false

namespace IitpAuth

/-! ## rateLimiter.js -/

/-- The object stored per key: `{ count, expiresAt, firstRequestAt }`. -/
structure RateLimitEntry where
  count : Nat
  expiresAt : Nat
  firstRequestAt : Nat
  deriving DecidableEq, Repr

/-- The `rateLimitStore`: a JavaScript `Map` from strings to entries, as the partial function
it denotes.  `store key` is `Map.prototype.get` (`none` is `undefined`).  The program reads
the map through `has`, `get`, `set`, `delete` and one iteration whose effect does not depend
on the order of the entries. -/
abbrev RateLimitStore := String → Option RateLimitEntry

/-- `new Map()`. -/
def emptyStore : RateLimitStore := fun _ => none

/-- `Map.prototype.has`. -/
def storeHas (store : RateLimitStore) (key : String) : Bool :=
  (store key).isSome

/-- `Map.prototype.set`. -/
def storeSet (store : RateLimitStore) (key : String) (v : RateLimitEntry) : RateLimitStore :=
  fun k => if k = key then some v else store k

/-- `Map.prototype.delete`. -/
def storeDelete (store : RateLimitStore) (key : String) : RateLimitStore :=
  fun k => if k = key then none else store k

/-- `const RATE_LIMIT_WINDOW = 60 * 1000`. -/
def RATE_LIMIT_WINDOW : Nat := 60 * 1000

/-- `const MAX_REQUESTS_PER_WINDOW = 1`. -/
def MAX_REQUESTS_PER_WINDOW : Nat := 1

/-- `cleanupExpiredEntries()`, with its reading `now` of the clock: every entry with
`now > data.expiresAt` is deleted. -/
def cleanupExpiredEntries (store : RateLimitStore) (now : Nat) : RateLimitStore :=
  fun key =>
    match store key with
    | some data => if now > data.expiresAt then none else some data
    | none => none

/-- The double written `0.1` in the source, as the rational it denotes. -/
def sweepThreshold : ℚ := 3602879701896397 / 36028797018963968

/-- `Math.ceil(x / 1000)` for an integer `x`. -/
def ceilDiv1000 (x : Int) : Int := -((-x) / 1000)

/-- The object `checkRateLimit` returns; `retryAfter` and `message` are present only in the
denial. -/
structure RateLimitResult where
  allowed : Bool
  remaining : Int
  resetAt : Nat
  retryAfter : Option Int
  message : Option String
  deriving DecidableEq, Repr

/-- `checkRateLimit(identifier)`.

Arguments besides the identifier: the store before the call, the value `rnd` returned by
`Math.random()`, the clock reading `sweepNow` taken inside `cleanupExpiredEntries` (used only
when the sweep runs) and the clock reading `now` of the function itself.  The result is
paired with the store after the call. -/
def checkRateLimit (toLowerCase : String → String) (store : RateLimitStore)
    (rnd : ℚ) (sweepNow now : Nat) (identifier : String) :
    RateLimitResult × RateLimitStore :=
  let store := if rnd < sweepThreshold then cleanupExpiredEntries store sweepNow else store
  let key := toLowerCase identifier
  match store key with
  | some data =>
    if now > data.expiresAt then
      (⟨true, (MAX_REQUESTS_PER_WINDOW : Int) - 1, now + RATE_LIMIT_WINDOW, none, none⟩,
        storeSet store key ⟨1, now + RATE_LIMIT_WINDOW, now⟩)
    else if data.count ≥ MAX_REQUESTS_PER_WINDOW then
      let timeRemaining := ceilDiv1000 ((data.expiresAt : Int) - (now : Int))
      (⟨false, 0, data.expiresAt, some timeRemaining,
          some ("Too many requests. Please try again in " ++ toString timeRemaining
            ++ " seconds.")⟩,
        store)
    else
      let data := { data with count := data.count + 1 }
      (⟨true, (MAX_REQUESTS_PER_WINDOW : Int) - (data.count : Int), data.expiresAt, none, none⟩,
        storeSet store key data)
  | none =>
    (⟨true, (MAX_REQUESTS_PER_WINDOW : Int) - 1, now + RATE_LIMIT_WINDOW, none, none⟩,
      storeSet store key ⟨1, now + RATE_LIMIT_WINDOW, now⟩)

/-- The store a call of `checkRateLimit` works on, after the optional sweep. -/
def sweptStore (store : RateLimitStore) (rnd : ℚ) (sweepNow : Nat) : RateLimitStore :=
  if rnd < sweepThreshold then cleanupExpiredEntries store sweepNow else store

/-! ## otpService.js -/

/-- The JavaScript values that occur as claims of a token: `undefined`, `null`, booleans,
integral numbers and strings. -/
inductive JsVal where
  | undefined
  | null
  | bool (b : Bool)
  | num (n : Int)
  | str (s : String)
  deriving DecidableEq, Repr

/-- A plain object: its own properties in creation order. -/
abbrev JsObj := List (String × JsVal)

/-- Property read `o.key` (`undefined` when the property is absent). -/
def objGet : JsObj → String → JsVal
  | [], _ => .undefined
  | (k, v) :: rest, key => if k = key then v else objGet rest key

/-- A thrown `Error`: the two fields the source inspects. -/
structure JsError where
  name : String
  message : String
  deriving DecidableEq, Repr

/-- What the program takes from outside the repository besides `toLowerCase`: the two
libraries and two conversions of the JavaScript engine.

* `bcryptHash data rounds salt` is `bcrypt.hash(data, rounds)` when the library draws `salt`.
* `bcryptCompare data hash` is `bcrypt.compare(data, hash)`; it can reject.
* `jwtSign payload secret expiresIn clock` is `jwt.sign(payload, secret, { expiresIn })`
  when the library reads `clock`.
* `jwtSignError payload secret expiresIn` is the exception that
  `jwt.sign(payload, secret, { expiresIn })` throws instead of returning a token, `none` when
  it returns one.  The library validates the registered claims of the payload: it throws
  for a payload that has `exp` when `expiresIn` is given, and for an `iat`, `exp` or `nbf`
  that is not a number.  The payload of `createOTPToken` has none of these properties, so
  only `createVerificationToken`, whose payload spreads the caller's `userData`, consults
  it.
* `jwtVerify token secret clock` is `jwt.verify(token, secret)` when the library reads
  `clock`; an `error` is the exception it throws, and the decoded payload is an object.
* `typeErrorMessage v` is the message of the `TypeError` raised by `v.toLowerCase()` for a
  `v` that is not a string.
* `stringToNumber` is the engine's conversion of a string to a number (`none` is `NaN`). -/
structure Libs where
  bcryptHash : String → Nat → String → String
  bcryptCompare : String → JsVal → Except JsError Bool
  jwtSign : JsObj → String → String → Nat → String
  jwtSignError : JsObj → String → String → Option JsError
  jwtVerify : String → String → Nat → Except JsError JsObj
  typeErrorMessage : JsVal → String
  stringToNumber : String → Option Int

/-- Rounding of a rational to the nearest integer, ties to the even one. -/
def roundHalfEven (q : ℚ) : ℤ :=
  let f := ⌊q⌋
  let d := q - f
  if d < 1 / 2 then f
  else if 1 / 2 < d then f + 1
  else if f % 2 = 0 then f else f + 1

/-- The double (IEEE 754 binary64) nearest to a real, ties to even: what every arithmetic
operation on numbers returns for the exact result `x`.  A double is kept as the rational it
denotes.  The spacing of the doubles around `x` is `2 ^ g`, with `g` the exponent of `x` less
52, and `-1074` in the subnormal range.  Overflow is left out: the embedding is that of
the engine for `|x| < 2 ^ 1024`. -/
def roundDouble (x : ℚ) : ℚ :=
  if x = 0 then 0
  else
    let g : ℤ := max (Int.log 2 |x| - 52) (-1074)
    roundHalfEven (x / (2 : ℚ) ^ g) * (2 : ℚ) ^ g

/-- A rational is a double when rounding leaves it unchanged. -/
def isDouble (x : ℚ) : Bool :=
  decide (roundDouble x = x)

/-- `generateOTP()`, with `r` the double that `Math.random()` returns: the product and the
sum are rounded to doubles, `Math.floor` of a double is exact, and `toString` of an
integer below `10 ^ 21` is its decimal notation. -/
def generateOTP (r : ℚ) : String :=
  toString ⌊roundDouble (100000 + roundDouble (r * 900000))⌋

/-- `const OTP_EXPIRY_MINUTES = 5`. -/
def OTP_EXPIRY_MINUTES : Nat := 5

/-- The test `!JWT_SECRET` on `process.env.JWT_SECRET`, which is `undefined` (`none`) or a
string: `none` when the test succeeds, the secret otherwise. -/
def configuredSecret (JWT_SECRET : Option String) : Option String :=
  match JWT_SECRET with
  | none => none
  | some s => if s = "" then none else some s

/-- The `payload` object built in `createOTPToken`; `createdNow` and `expiresNow` are the two
readings of `Date.now()`. -/
def otpPayload (toLowerCase : String → String) (L : Libs) (email otp salt : String)
    (createdNow expiresNow : Nat) : JsObj :=
  [("email", .str (toLowerCase email)),
   ("hashedOTP", .str (L.bcryptHash otp 10 salt)),
   ("createdAt", .num createdNow),
   ("expiresAt", .num ((expiresNow : Int) + ((OTP_EXPIRY_MINUTES * 60 * 1000 : Nat) : Int)))]

/-- `createOTPToken(email, otp)`; an `error` is the exception thrown. -/
def createOTPToken (toLowerCase : String → String) (L : Libs) (JWT_SECRET : Option String)
    (email otp salt : String) (createdNow expiresNow signNow : Nat) : Except JsError String :=
  match configuredSecret JWT_SECRET with
  | none => .error ⟨"Error", "JWT_SECRET is not configured"⟩
  | some secret =>
    let payload := otpPayload toLowerCase L email otp salt createdNow expiresNow
    .ok (L.jwtSign payload secret (toString OTP_EXPIRY_MINUTES ++ "m") signNow)

/-- The object `verifyOTPToken` resolves to: `{ valid: true, email, message }` or
`{ valid: false, error }`. -/
inductive VerifyResult where
  | valid (email : JsVal) (message : String)
  | invalid (error : String)
  deriving DecidableEq, Repr

/-- The engine's `ToNumber` on the values of `JsVal` (`none` is `NaN`). -/
def toNumber (L : Libs) : JsVal → Option Int
  | .undefined => none
  | .null => some 0
  | .bool b => some (if b then 1 else 0)
  | .num n => some n
  | .str s => L.stringToNumber s

/-- The comparison `now > v` for a number `now`. -/
def numberGreater (L : Libs) (now : Nat) (v : JsVal) : Bool :=
  match toNumber L v with
  | some n => decide (n < (now : Int))
  | none => false

/-- The body of the `try` block of `verifyOTPToken`; an `error` is an exception reaching the
`catch`. -/
def verifyOTPTokenTry (toLowerCase : String → String) (L : Libs) (secret token otp
    email : String) (jwtNow now : Nat) : Except JsError VerifyResult :=
  match L.jwtVerify token secret jwtNow with
  | .error e => .error e
  | .ok decoded =>
    match objGet decoded "email" with
    | .str decodedEmail =>
      if toLowerCase decodedEmail ≠ toLowerCase email then
        .ok (.invalid "Email does not match")
      else if numberGreater L now (objGet decoded "expiresAt") then
        .ok (.invalid "OTP has expired")
      else
        match L.bcryptCompare otp (objGet decoded "hashedOTP") with
        | .error e => .error e
        | .ok isMatch =>
          if !isMatch then .ok (.invalid "Invalid OTP")
          else .ok (.valid (.str decodedEmail) "OTP verified successfully")
    | v => .error ⟨"TypeError", L.typeErrorMessage v⟩

/-- The `catch` clause of `verifyOTPToken`. -/
def verifyOTPTokenCatch (error : JsError) : VerifyResult :=
  if error.name = "TokenExpiredError" then .invalid "OTP has expired"
  else if error.name = "JsonWebTokenError" then .invalid "Invalid token"
  else .invalid ("Verification failed: " ++ error.message)

/-- `verifyOTPToken(token, otp, email)`; `jwtNow` is the clock reading inside `jwt.verify`
and `now` the `Date.now()` of the explicit expiry check. -/
def verifyOTPToken (toLowerCase : String → String) (L : Libs) (JWT_SECRET : Option String)
    (token otp email : String) (jwtNow now : Nat) : VerifyResult :=
  match configuredSecret JWT_SECRET with
  | none => .invalid "JWT_SECRET is not configured"
  | some secret =>
    match verifyOTPTokenTry toLowerCase L secret token otp email jwtNow now with
    | .ok r => r
    | .error e => verifyOTPTokenCatch e

/-- The assumption on `jsonwebtoken` under which tokens are discussed: `jwt.verify`, reading
the clock at `verifyNow`, accepts the token that `jwt.sign` made of `payload` at `signNow`
under the same secret, and every claim of the payload reads back unchanged. -/
def JwtRecovers (L : Libs) (payload : JsObj) (secret expiresIn : String)
    (signNow verifyNow : Nat) : Prop :=
  ∃ decoded, L.jwtVerify (L.jwtSign payload secret expiresIn signNow) secret verifyNow
      = .ok decoded ∧
    ∀ kv ∈ payload, objGet decoded kv.1 = kv.2

/-- The rule of `jsonwebtoken` for the expiry claim, as an assumption on the library:
`jwt.sign` with an `expiresIn` worth `seconds` stamps `exp = floor(signNow / 1000) + seconds`,
and `jwt.verify` throws a `TokenExpiredError` once `floor(verifyNow / 1000) >= exp`; so a
token that `jwt.verify` accepts at `verifyNow` has not reached its `exp`. -/
def JwtHonoursExpiry (L : Libs) (payload : JsObj) (secret expiresIn : String)
    (seconds signNow verifyNow : Nat) : Prop :=
  ∀ decoded, L.jwtVerify (L.jwtSign payload secret expiresIn signNow) secret verifyNow
      = .ok decoded → verifyNow / 1000 < signNow / 1000 + seconds

/-- Property write `o.key = v` on a plain object: an existing property keeps its place, a new
one goes last. -/
def objSet : JsObj → String → JsVal → JsObj
  | [], key, v => [(key, v)]
  | (k, v0) :: rest, key, v =>
    if k = key then (k, v) :: rest else (k, v0) :: objSet rest key v

/-- The `payload` object built in `createVerificationToken`,
`{ ...userData, verifiedAt: Date.now(), iss: 'iitp-auth-gateway' }`. -/
def assertionPayload (userData : JsObj) (verifiedNow : Nat) : JsObj :=
  objSet (objSet userData "verifiedAt" (.num verifiedNow)) "iss" (.str "iitp-auth-gateway")

/-- `createVerificationToken(userData)`; an `error` is the exception thrown, by the function
itself for a missing secret or by `jwt.sign` for a payload the library refuses. -/
def createVerificationToken (L : Libs) (JWT_SECRET : Option String) (userData : JsObj)
    (verifiedNow signNow : Nat) : Except JsError String :=
  match configuredSecret JWT_SECRET with
  | none => .error ⟨"Error", "JWT_SECRET is not configured"⟩
  | some secret =>
    let payload := assertionPayload userData verifiedNow
    match L.jwtSignError payload secret "1h" with
    | some error => .error error
    | none => .ok (L.jwtSign payload secret "1h" signNow)

/-- The object `verifyVerificationToken` returns: `{ valid: true, data }` or
`{ valid: false, error }`. -/
inductive VerificationResult where
  | valid (data : JsObj)
  | invalid (error : String)
  deriving DecidableEq, Repr

/-- `verifyVerificationToken(token)`; `jwtNow` is the clock reading inside `jwt.verify`. -/
def verifyVerificationToken (L : Libs) (JWT_SECRET : Option String) (token : String)
    (jwtNow : Nat) : VerificationResult :=
  match configuredSecret JWT_SECRET with
  | none => .invalid "JWT_SECRET is not configured"
  | some secret =>
    match L.jwtVerify token secret jwtNow with
    | .ok decoded => .valid decoded
    | .error e => .invalid e.message

/-! ## INTEGRATION_EXAMPLES.js -/

/-- The engine's `ToBoolean` on the values of `JsVal`. -/
def truthy : JsVal → Bool
  | .undefined => false
  | .null => false
  | .bool b => b
  | .num n => decide (n ≠ 0)
  | .str s => decide (s ≠ "")

/-- The object `verifyAuthToken` returns: `{ valid: true, user }` or
`{ valid: false, error }`. -/
inductive AuthResult where
  | valid (user : JsObj)
  | invalid (error : String)
  deriving DecidableEq, Repr

/-- `verifyAuthToken(token, jwtSecret)` of example 4: the consumer-side validation of an
assertion. -/
def verifyAuthToken (L : Libs) (token jwtSecret : String) (jwtNow : Nat) : AuthResult :=
  match L.jwtVerify token jwtSecret jwtNow with
  | .error e => .invalid e.message
  | .ok decoded =>
    if objGet decoded "iss" ≠ .str "iitp-auth-gateway" then
      .invalid "Invalid token issuer"
    else if !truthy (objGet decoded "verified") then
      .invalid "User not verified"
    else
      .valid [("email", objGet decoded "email"),
        ("name", objGet decoded "name"),
        ("rollNumber", objGet decoded "rollNumber"),
        ("branch", objGet decoded "branch"),
        ("degree", objGet decoded "degree"),
        ("admissionYear", objGet decoded "admissionYear")]

/-! ## emailParser.js

The two regular expressions of the file have the shape `/^ p₁ p₂ … pₙ $/i`, every `pᵢ` a
character class (or a single character) under a quantifier.  They are embedded as syntax
(`Regex`) and run by a backtracking matcher (`matchPieces`).

A Lean `Char` is a Unicode scalar value where JavaScript has UTF-16 code units.  All class
members of the two patterns are ASCII, no pattern has a wildcard, and a character outside
ASCII matches no member under either reading, so acceptance is the same. -/

/-- A member of a character class. -/
inductive ClassItem where
  /-- A single character (`\.` is the character `.`). -/
  | char (c : Char)
  /-- A range `lo-hi`. -/
  | range (lo hi : Char)
  /-- The escape `\d`. -/
  | digit
  deriving DecidableEq, Repr

/-- A quantifier: `{n}` (no quantifier is `{1}`) or `{n,}` (`+` is `{1,}`, `*` is `{0,}`). -/
inductive Quant where
  | exactly (n : Nat)
  | atLeast (n : Nat)
  deriving DecidableEq, Repr

/-- A quantified character class. -/
structure Piece where
  cls : List ClassItem
  q : Quant
  deriving DecidableEq, Repr

/-- The pattern `/^ pieces $/`, with flag `i` when `ignoreCase`. -/
structure Regex where
  pieces : List Piece
  ignoreCase : Bool
  deriving DecidableEq, Repr

/-- The code points a class member stands for. -/
def ClassItem.members : ClassItem → List Nat
  | .char c => [c.toNat]
  | .range lo hi => List.range' lo.toNat (hi.toNat + 1 - lo.toNat)
  | .digit => List.range' 48 10

/-- ECMAScript `Canonicalize` (no `u` flag) on code points: with flag `i` a character is
replaced by its upper case, except that a character outside ASCII is never sent into ASCII.
On ASCII this is upper-casing of `a`-`z`; outside ASCII the embedding leaves the character
alone, which decides every comparison with an ASCII class member the same way. -/
def canonicalize (ignoreCase : Bool) (n : Nat) : Nat :=
  if ignoreCase && decide (97 ≤ n) && decide (n ≤ 122) then n - 32 else n

/-- The character-set matcher: `c` matches when some member of the class has the same
canonical form. -/
def classTest (ignoreCase : Bool) (cls : List ClassItem) (c : Char) : Bool :=
  cls.any (fun item =>
    item.members.any (fun a => canonicalize ignoreCase a == canonicalize ignoreCase c.toNat))

/-- Zero or more characters satisfying `p` (longest first), then the continuation `k`. -/
def matchMany (p : Char → Bool) (k : List Char → Bool) : List Char → Bool
  | [] => k []
  | c :: t => (p c && matchMany p k t) || k (c :: t)

/-- Exactly `n` characters satisfying `p`, then the continuation `k`. -/
def matchN (p : Char → Bool) (k : List Char → Bool) : Nat → List Char → Bool
  | 0, s => k s
  | _ + 1, [] => false
  | n + 1, c :: t => p c && matchN p k n t

/-- The matcher for a sequence of pieces followed by `$` (end of input). -/
def matchPieces (ignoreCase : Bool) : List Piece → List Char → Bool
  | [], s => s.isEmpty
  | piece :: rest, s =>
    match piece.q with
    | .exactly n => matchN (classTest ignoreCase piece.cls) (matchPieces ignoreCase rest) n s
    | .atLeast n =>
      matchN (classTest ignoreCase piece.cls)
        (matchMany (classTest ignoreCase piece.cls) (matchPieces ignoreCase rest)) n s

/-- `RegExp.prototype.test` for an anchored pattern: the match starts at `^`, the start of
the input. -/
def Regex.test (r : Regex) (s : String) : Bool :=
  matchPieces r.ignoreCase r.pieces s.toList

/-- A single character as a piece. -/
def lit (c : Char) : Piece := ⟨[.char c], .exactly 1⟩

/-- `/^[a-zA-Z0-9._-]+@iitp\.ac\.in$/i`. -/
def emailRegex : Regex :=
  ⟨[⟨[.range 'a' 'z', .range 'A' 'Z', .range '0' '9', .char '.', .char '_', .char '-'],
      .atLeast 1⟩,
    lit '@', lit 'i', lit 'i', lit 't', lit 'p', lit '.', lit 'a', lit 'c', lit '.',
    lit 'i', lit 'n'], true⟩

/-- `/^\d{4}[a-z]{2}\d*$/i`. -/
def rollNumberRegex : Regex :=
  ⟨[⟨[.digit], .exactly 4⟩, ⟨[.range 'a' 'z'], .exactly 2⟩, ⟨[.digit], .atLeast 0⟩], true⟩

/-- `isValidIITPEmail(email)`. -/
def isValidIITPEmail (email : String) : Bool :=
  emailRegex.test email

/-- `String.prototype.split(sep)` for a one-character separator. -/
def splitOn (sep : Char) : List Char → List (List Char)
  | [] => [[]]
  | c :: t =>
    if c = sep then [] :: splitOn sep t
    else
      match splitOn sep t with
      | [] => [[c]]
      | seg :: segs => (c :: seg) :: segs

/-- `Array.prototype.join(sep)` on strings, for a one-character separator. -/
def joinWith (sep : Char) : List (List Char) → List Char
  | [] => []
  | [seg] => seg
  | seg :: segs => seg ++ sep :: joinWith sep segs

/-- `String.prototype.substring(a, b)` for `a ≤ b`. -/
def substring (s : List Char) (a b : Nat) : List Char :=
  (s.take b).drop a

/-- The characters `parseInt` skips at the start: white space and line terminators. -/
def isJsWhiteSpace (c : Char) : Bool :=
  decide (c.toNat ∈ [9, 10, 11, 12, 13, 32, 160, 5760, 8232, 8233, 8239, 8287, 12288, 65279])
    || (decide (8192 ≤ c.toNat) && decide (c.toNat ≤ 8202))

/-- The value of a character as a digit in the given radix. -/
def digitValue (radix : Nat) (c : Char) : Option Nat :=
  let n := c.toNat
  let v : Option Nat :=
    if 48 ≤ n ∧ n ≤ 57 then some (n - 48)
    else if 97 ≤ n ∧ n ≤ 122 then some (n - 87)
    else if 65 ≤ n ∧ n ≤ 90 then some (n - 55)
    else none
  v.bind (fun d => if d < radix then some d else none)

/-- The longest prefix of digits of the radix, as values. -/
def leadingDigits (radix : Nat) : List Char → List Nat
  | [] => []
  | c :: t =>
    match digitValue radix c with
    | some d => d :: leadingDigits radix t
    | none => []

/-- `parseInt(s)` with no radix argument (`none` is `NaN`): leading white space is skipped,
then a sign, then `0x`/`0X` selects radix 16, then the longest prefix of digits is read.
The result is exact while it is below `2 ^ 53`. -/
def parseInt (s : List Char) : Option Int :=
  let s := s.dropWhile isJsWhiteSpace
  let signed : Int × List Char :=
    match s with
    | '-' :: t => (-1, t)
    | '+' :: t => (1, t)
    | _ => (1, s)
  let based : Nat × List Char :=
    match signed.2 with
    | '0' :: 'x' :: t => (16, t)
    | '0' :: 'X' :: t => (16, t)
    | _ => (10, signed.2)
  match leadingDigits based.1 based.2 with
  | [] => none
  | ds => some (signed.1 * ((ds.foldl (fun acc d => acc * based.1 + d) 0 : Nat) : Int))

/-- `const BRANCH_CODES = { ... }`. -/
def BRANCH_CODES : List (String × String) :=
  [("cs", "Computer Science"),
   ("mc", "Mathematics & Computing"),
   ("ee", "Electrical Engineering"),
   ("ec", "Electronics and Communication Engineering"),
   ("me", "Mechanical Engineering"),
   ("ce", "Civil Engineering"),
   ("ch", "Chemical Engineering"),
   ("mm", "Metallurgical and Materials Engineering"),
   ("ai", "Artificial Intelligence"),
   ("ds", "Data Science")]

/-- `const DEGREE_CODES = { ... }`. -/
def DEGREE_CODES : List (String × String) :=
  [("01", "B.Tech"),
   ("02", "B.Tech + M.Tech (Dual Degree)"),
   ("03", "M.Tech"),
   ("04", "M.Sc"),
   ("05", "MBA"),
   ("06", "PhD")]

/-- The expression `TABLE[code] || fallback` on one of the two tables: all their values are
non-empty strings, and no property inherited from `Object.prototype` has a two-character
name, the only length a code has where the source evaluates the expression. -/
def lookupOr (table : List (String × String)) (code fallback : String) : String :=
  match table.lookup code with
  | some label => label
  | none => fallback

/-- The fields of the object returned on success (`admissionYear` is `none` for `NaN`). -/
structure StudentInfo where
  email : String
  name : String
  rollNumber : String
  admissionYear : Option Int
  degree : String
  degreeCode : String
  branch : String
  branchCode : String
  serialNumber : String
  deriving DecidableEq, Repr

/-- The object `extractStudentInfo` returns: `{ valid: true, ...fields }` or
`{ valid: false, error }`. -/
inductive ParseResult where
  | valid (info : StudentInfo)
  | invalid (error : String)
  deriving DecidableEq, Repr

/-- `extractStudentInfo(email)`.  No statement of the `try` block throws for a string
argument, so the `catch` clause has no counterpart. -/
def extractStudentInfo (toLowerCase : String → String) (email : String) : ParseResult :=
  if !isValidIITPEmail email then
    .invalid "Invalid IIT Patna email format"
  else
    let localPart : List Char := (splitOn '@' email.toList).headD []
    let parts : List (List Char) := splitOn '_' localPart
    if parts.length < 2 then
      .invalid "Email format does not match expected pattern (name_rollnumber)"
    else
      let name : List Char := joinWith '_' parts.dropLast
      let rollNumber : List Char := parts.getLastD []
      if !rollNumberRegex.test (String.mk rollNumber) then
        .invalid "Roll number format is invalid. Expected format: YYDDBBXX (e.g., 2301mc40)"
      else
        let year := substring rollNumber 0 2
        let degreeCode := String.mk (substring rollNumber 2 4)
        let branchCode := toLowerCase (String.mk (substring rollNumber 4 6))
        let serialNumber := String.mk (rollNumber.drop 6)
        let admissionYear := (parseInt year).map (fun y => 2000 + y)
        let branch := lookupOr BRANCH_CODES branchCode ("Unknown Branch (" ++ branchCode ++ ")")
        let degree := lookupOr DEGREE_CODES degreeCode ("Unknown Degree (" ++ degreeCode ++ ")")
        .valid
          { email := toLowerCase email
            name := String.mk name
            rollNumber := String.mk rollNumber
            admissionYear := admissionYear
            degree := degree
            degreeCode := degreeCode
            branch := branch
            branchCode := branchCode
            serialNumber := if serialNumber = "" then "N/A" else serialNumber }

/-- ASCII lower-casing of a string: what `toLowerCase` does on an ASCII string. -/
def asciiLower (s : String) : String :=
  String.mk (s.toList.map Char.toLower)

/-! ## pages/api/verify-otp.js -/

/-- The request as the handler reads it: the method and the four fields of the JSON body,
each a string or absent (`none` is `undefined`). -/
structure VerifyOtpRequest where
  method : String
  email : Option String
  otp : Option String
  token : Option String
  redirect_uri : Option String
  deriving DecidableEq, Repr

/-- The response: `res.status(status).json({ success: false, error })`, or status 200 with
`{ success: true, message, verificationToken, userData, redirect_uri }`. -/
inductive VerifyOtpResponse where
  | failure (status : Nat) (error : String)
  | success (message : String) (verificationToken : String) (userData : JsObj)
      (redirect_uri : JsVal)
  deriving DecidableEq, Repr

/-- The test `!x` on a body field: absent or the empty string. -/
def fieldMissing (x : Option String) : Bool :=
  match x with
  | none => true
  | some s => decide (s = "")

/-- `String.prototype.trim`. -/
def jsTrim (s : String) : String :=
  String.mk ((s.toList.dropWhile isJsWhiteSpace).reverse.dropWhile isJsWhiteSpace).reverse

/-- `/^\d{6}$/`. -/
def otpFormatRegex : Regex :=
  ⟨[⟨[.digit], .exactly 6⟩], false⟩

/-- The `userData` object of the handler.  An `admissionYear` of `NaN` is written `null`, as
JSON writes it. -/
def userDataOf (studentInfo : StudentInfo) : JsObj :=
  [("email", .str studentInfo.email),
   ("name", .str studentInfo.name),
   ("rollNumber", .str studentInfo.rollNumber),
   ("admissionYear", match studentInfo.admissionYear with
      | some y => .num y
      | none => .null),
   ("degree", .str studentInfo.degree),
   ("degreeCode", .str studentInfo.degreeCode),
   ("branch", .str studentInfo.branch),
   ("branchCode", .str studentInfo.branchCode),
   ("verified", .bool true)]

/-- The `handler` of `/api/verify-otp`.  `jwtNow` and `now` are the clock readings of
`verifyOTPToken`, `verifiedNow` and `signNow` those of `createVerificationToken`. -/
def verifyOtpHandler (toLowerCase : String → String) (L : Libs) (JWT_SECRET : Option String)
    (req : VerifyOtpRequest) (jwtNow now verifiedNow signNow : Nat) : VerifyOtpResponse :=
  if req.method ≠ "POST" then
    .failure 405 "Method not allowed"
  else if fieldMissing req.email || fieldMissing req.otp || fieldMissing req.token then
    .failure 400 "Email, OTP, and token are required"
  else
    let email := req.email.getD ""
    let otp := req.otp.getD ""
    let token := req.token.getD ""
    let trimmedEmail := toLowerCase (jsTrim email)
    if !isValidIITPEmail trimmedEmail then
      .failure 400 "Invalid IIT Patna email address"
    else if !otpFormatRegex.test otp then
      .failure 400 "OTP must be a 6-digit number"
    else
      match verifyOTPToken toLowerCase L JWT_SECRET token otp trimmedEmail jwtNow now with
      | .invalid error =>
        .failure 401 (if error = "" then "OTP verification failed" else error)
      | .valid _ _ =>
        match extractStudentInfo toLowerCase trimmedEmail with
        | .invalid error =>
          .failure 400 ("Failed to extract student information: " ++ error)
        | .valid studentInfo =>
          let userData := userDataOf studentInfo
          match createVerificationToken L JWT_SECRET userData verifiedNow signNow with
          | .error e => .failure 500 ("Internal server error: " ++ e.message)
          | .ok verificationToken =>
            .success "OTP verified successfully" verificationToken userData
              (match req.redirect_uri with
                | some uri => if uri = "" then .null else .str uri
                | none => .null)

/-! ## pages/api/extract-info.js -/

/-- The `data` object of the success response of the `/api/extract-info` handler, built from
the `studentInfo` that `extractStudentInfo` returned.  An `admissionYear` of `NaN` is written
`null`, as JSON writes it. -/
def extractInfoData (studentInfo : StudentInfo) : JsObj :=
  [("email", .str studentInfo.email),
   ("name", .str studentInfo.name),
   ("rollNumber", .str studentInfo.rollNumber),
   ("admissionYear", match studentInfo.admissionYear with
      | some y => .num y
      | none => .null),
   ("degree", .str studentInfo.degree),
   ("degreeCode", .str studentInfo.degreeCode),
   ("branch", .str studentInfo.branch),
   ("branchCode", .str studentInfo.branchCode),
   ("serialNumber", .str studentInfo.serialNumber)]

/-! ## The words of the specification about addresses

Executable readings of the specification's descriptions, to be compared with what the
regular expressions and the splitting code of `emailParser.js` compute. -/

/-- A character of `A-Z`, `a-z`, `0-9`, `.`, `_`, `-`. -/
def isLocalPartChar (c : Char) : Bool :=
  c.isAlphanum || c == '.' || c == '_' || c == '-'

/-- The local part of an address: what precedes its first `@`. -/
def localPartOf (email : String) : List Char :=
  email.toList.takeWhile (fun c => c != '@')

/-- The segment after the last occurrence of `sep` (everything, when there is none). -/
def afterLast (sep : Char) (l : List Char) : List Char :=
  (l.reverse.takeWhile (fun c => c != sep)).reverse

/-- Everything before the last occurrence of `sep`. -/
def beforeLast (sep : Char) (l : List Char) : List Char :=
  ((l.reverse.dropWhile (fun c => c != sep)).drop 1).reverse

/-- The code grammar: 4 decimal digits, then 2 letters (`A-Z` or `a-z`), then zero or more
decimal digits and nothing else. -/
def isRollCode (seg : List Char) : Bool :=
  decide (6 ≤ seg.length) && (seg.take 4).all Char.isDigit
    && ((seg.drop 4).take 2).all Char.isAlpha && (seg.drop 6).all Char.isDigit

/-- The number a string of decimal digits writes. -/
def decimalValue (digits : List Char) : Nat :=
  digits.foldl (fun acc c => acc * 10 + (c.toNat - 48)) 0

/-- The object `extractStudentInfo` returns on success, from the `name` and `rollNumber` it
has split off. -/
def studentInfoFrom (toLowerCase : String → String) (email : String)
    (name rollNumber : List Char) : StudentInfo :=
  { email := toLowerCase email
    name := String.mk name
    rollNumber := String.mk rollNumber
    admissionYear := (parseInt (substring rollNumber 0 2)).map (fun y => 2000 + y)
    degree := lookupOr DEGREE_CODES (String.mk (substring rollNumber 2 4))
      ("Unknown Degree (" ++ String.mk (substring rollNumber 2 4) ++ ")")
    degreeCode := String.mk (substring rollNumber 2 4)
    branch := lookupOr BRANCH_CODES (toLowerCase (String.mk (substring rollNumber 4 6)))
      ("Unknown Branch (" ++ toLowerCase (String.mk (substring rollNumber 4 6)) ++ ")")
    branchCode := toLowerCase (String.mk (substring rollNumber 4 6))
    serialNumber :=
      if String.mk (rollNumber.drop 6) = "" then "N/A" else String.mk (rollNumber.drop 6) }

/-! ## A small instance of the libraries

`toyLibs` is an instance of `Libs` without cryptography.  It serves to instantiate the
theorems at concrete inputs: a token is the secret, the expiry in seconds and the claims,
separated by `|`; a hash is the salt, `$` and the data. -/

/-- A claim value as text: a tag character, then the value. -/
def toyEncodeVal : JsVal → String
  | .undefined => "u"
  | .null => "n"
  | .bool b => if b then "b1" else "b0"
  | .num n => "i" ++ toString n
  | .str s => "s" ++ s

/-- The inverse of `toyEncodeVal`. -/
def toyDecodeVal : List Char → JsVal
  | 'n' :: _ => .null
  | 'b' :: '1' :: _ => .bool true
  | 'b' :: _ => .bool false
  | 'i' :: ds => match parseInt ds with
    | some n => .num n
    | none => .undefined
  | 's' :: cs => .str (String.mk cs)
  | _ => .undefined

/-- The claims as text: `key=value` items separated by `|`. -/
def toyEncodeObj : JsObj → String
  | [] => ""
  | (k, v) :: rest => "|" ++ k ++ "=" ++ toyEncodeVal v ++ toyEncodeObj rest

/-- One `key=value` item back to a property. -/
def toyDecodeProp (item : List Char) : String × JsVal :=
  match splitOn '=' item with
  | [] => ("", .undefined)
  | k :: v => (String.mk k, toyDecodeVal (joinWith '=' v))

/-- The number of seconds written `5m` or `1h`. -/
def toyDuration (expiresIn : String) : Nat :=
  match expiresIn.toList.reverse with
  | 'm' :: ds => 60 * ((parseInt ds.reverse).getD 0).toNat
  | 'h' :: ds => 3600 * ((parseInt ds.reverse).getD 0).toNat
  | _ => 0

/-- The toy `jwt.sign`: the expiry claim is `floor(clock / 1000)` plus the duration. -/
def toyJwtSign (payload : JsObj) (secret expiresIn : String) (clock : Nat) : String :=
  secret ++ "|" ++ toString (clock / 1000 + toyDuration expiresIn) ++ toyEncodeObj payload

/-- The toy `jwt.verify`: a token under another secret is a `JsonWebTokenError`, a token
whose expiry claim has passed is a `TokenExpiredError`. -/
def toyJwtVerify (token secret : String) (clock : Nat) : Except JsError JsObj :=
  match splitOn '|' token.toList with
  | s :: e :: props =>
    if String.mk s ≠ secret then .error ⟨"JsonWebTokenError", "invalid signature"⟩
    else
      match parseInt e with
      | some exp =>
        if (clock / 1000 : Int) ≥ exp then .error ⟨"TokenExpiredError", "jwt expired"⟩
        else .ok (props.map toyDecodeProp ++ [("exp", .num exp)])
      | none => .error ⟨"JsonWebTokenError", "jwt malformed"⟩
  | _ => .error ⟨"JsonWebTokenError", "jwt malformed"⟩

/-- The toy `bcrypt.compare`. -/
def toyBcryptCompare (data : String) (hash : JsVal) : Except JsError Bool :=
  match hash with
  | .str h => .ok (decide (joinWith '$' ((splitOn '$' h.toList).drop 1) = data.toList))
  | _ => .error ⟨"Error", "Illegal arguments"⟩

/-- The values the toy `jwt.sign` takes for a registered claim: numbers. -/
def toyIsNumber : JsVal → Bool
  | .num _ => true
  | _ => false

/-- The toy validation of `jwt.sign`: a property `iat`, `exp` or `nbf` of the payload that is
not a number is refused, and so is a payload that has `exp` when `expiresIn` is given (it
always is in this program). -/
def toyJwtSignError (payload : JsObj) (_secret _expiresIn : String) : Option JsError :=
  match payload.find?
      (fun kv => (kv.1 == "iat" || kv.1 == "exp" || kv.1 == "nbf") && !toyIsNumber kv.2) with
  | some kv => some ⟨"Error", "\"" ++ kv.1 ++ "\" should be a number of seconds"⟩
  | none =>
    if objGet payload "exp" ≠ .undefined then
      some ⟨"Error",
        "Bad \"options.expiresIn\" option the payload already has an \"exp\" property."⟩
    else none

/-- The toy libraries. -/
def toyLibs : Libs where
  bcryptHash := fun data _ salt => salt ++ "$" ++ data
  bcryptCompare := toyBcryptCompare
  jwtSign := toyJwtSign
  jwtSignError := toyJwtSignError
  jwtVerify := toyJwtVerify
  typeErrorMessage := fun _ => "not a string"
  stringToNumber := fun s => parseInt s.toList

/-- The OTP token the toy libraries mint for `anish_2301mc40@iitp.ac.in` and OTP `123456` at
time 1700000000000. -/
def sampleOtpToken : String :=
  toyJwtSign (otpPayload asciiLower toyLibs "anish_2301mc40@iitp.ac.in" "123456" "salt"
    1700000000000 1700000000000) "s3cret" "5m" 1700000000000

/-- A verify-otp request presenting `sampleOtpToken` with its OTP; the email is written with
surrounding blanks and upper-case letters. -/
def sampleRequest : VerifyOtpRequest :=
  { method := "POST"
    email := some " Anish_2301mc40@IITP.ac.in "
    otp := some "123456"
    token := some sampleOtpToken
    redirect_uri := some "https://client.example/callback" }

/-- The `userData` of the response to `sampleRequest`. -/
def sampleUserData : JsObj :=
  [("email", .str "anish_2301mc40@iitp.ac.in"),
   ("name", .str "anish"),
   ("rollNumber", .str "2301mc40"),
   ("admissionYear", .num 2023),
   ("degree", .str "B.Tech"),
   ("degreeCode", .str "01"),
   ("branch", .str "Mathematics & Computing"),
   ("branchCode", .str "mc"),
   ("verified", .bool true)]

/-! ## Sequences of calls of the rate limiter -/

/-- One call of `checkRateLimit`, with what the call reads from its environment: the value
`rnd` of `Math.random()`, the clock reading `sweepNow` of a sweep, the clock reading `now`
of the function, and the identifier passed. -/
structure RateLimitCall where
  rnd : ℚ
  sweepNow : Nat
  now : Nat
  identifier : String

/-- Calls of `checkRateLimit` served one after the other on the module's store (the function
has no `await`, so a call runs to completion before the next starts): the results in order
and the store after the last call. -/
def checkRateLimitSeq (toLowerCase : String → String) :
    RateLimitStore → List RateLimitCall → List RateLimitResult × RateLimitStore
  | store, [] => ([], store)
  | store, c :: cs =>
    let out := checkRateLimit toLowerCase store c.rnd c.sweepNow c.now c.identifier
    let rest := checkRateLimitSeq toLowerCase out.2 cs
    (out.1 :: rest.1, rest.2)

/-- The clock does not run backwards along a sequence of calls: every reading is at least
`t`, the sweep of a call reads the clock no later than the call itself, and a call reads it
no earlier than the call before. -/
def clockOrdered : Nat → List RateLimitCall → Bool
  | _, [] => true
  | t, c :: cs => decide (t ≤ c.sweepNow) && decide (c.sweepNow ≤ c.now) && clockOrdered c.now cs

/-- A call without its draw of `Math.random()`. -/
def RateLimitCall.request (c : RateLimitCall) : Nat × Nat × String :=
  (c.sweepNow, c.now, c.identifier)

/-! ## utils/emailService.js and pages/api/send-otp.js -/

/-- The object `sendOTPEmail` resolves to: `{ success: true, messageId, message }`. -/
structure SendResult where
  success : Bool
  messageId : String
  message : String
  deriving DecidableEq, Repr

/-- `sendOTPEmail(toEmail, otp)`.  The mail transport (`nodemailer`) is not code of the
repository: `transport toEmail otp` is the outcome of the `try` block up to the reply of
`transporter.sendMail`, the `messageId` of the reply or the exception thrown.  The `catch`
clause throws a new `Error` with the message prefixed. -/
def sendOTPEmail (transport : String → String → Except JsError String)
    (toEmail otp : String) : Except JsError SendResult :=
  match transport toEmail otp with
  | .ok messageId => .ok ⟨true, messageId, "OTP sent successfully"⟩
  | .error error => .error ⟨"Error", "Failed to send OTP email: " ++ error.message⟩

/-- The request as the send-otp handler reads it: the method and the two fields of the JSON
body, each a string or absent. -/
structure SendOtpRequest where
  method : String
  email : Option String
  redirect_uri : Option String
  deriving DecidableEq, Repr

/-- The response of the send-otp handler: `{ success: false, error }` with its status,
the status 429 answer `{ success: false, error, retryAfter }`, or status 200 with
`{ success: true, message, token, expiresIn, email, redirect_uri }`. -/
inductive SendOtpResponse where
  | failure (status : Nat) (error : String)
  | rateLimited (error : Option String) (retryAfter : Option Int)
  | success (message : String) (token : String) (expiresIn : Nat) (email : String)
      (redirect_uri : JsVal)
  deriving DecidableEq, Repr

/-- The `handler` of `/api/send-otp`, paired with the rate-limit store after the request.
`rnd`, `sweepNow` and `rateNow` are what `checkRateLimit` reads, `r` is the draw of
`generateOTP`, `salt` and the three clock readings are those of `createOTPToken`.  The two
`console` calls write to the log only. -/
def sendOtpHandler (toLowerCase : String → String) (L : Libs) (JWT_SECRET : Option String)
    (transport : String → String → Except JsError String) (store : RateLimitStore)
    (req : SendOtpRequest) (rnd : ℚ) (sweepNow rateNow : Nat) (r : ℚ) (salt : String)
    (createdNow expiresNow signNow : Nat) : SendOtpResponse × RateLimitStore :=
  if req.method ≠ "POST" then
    (.failure 405 "Method not allowed", store)
  else if fieldMissing req.email then
    (.failure 400 "Email is required", store)
  else
    let email := req.email.getD ""
    let trimmedEmail := toLowerCase (jsTrim email)
    if !isValidIITPEmail trimmedEmail then
      (.failure 400 "Only @iitp.ac.in email addresses are allowed", store)
    else
      let rateLimit := checkRateLimit toLowerCase store rnd sweepNow rateNow trimmedEmail
      let rateLimitResult := rateLimit.1
      let store := rateLimit.2
      if !rateLimitResult.allowed then
        (.rateLimited rateLimitResult.message rateLimitResult.retryAfter, store)
      else
        let otp := generateOTP r
        match createOTPToken toLowerCase L JWT_SECRET trimmedEmail otp salt createdNow
            expiresNow signNow with
        | .error error => (.failure 500 ("Internal server error: " ++ error.message), store)
        | .ok token =>
          match sendOTPEmail transport trimmedEmail otp with
          | .error _ =>
            (.failure 500 "Failed to send OTP email. Please check your email configuration.",
              store)
          | .ok _ =>
            (.success "OTP sent successfully to your email" token (OTP_EXPIRY_MINUTES * 60)
              trimmedEmail
              (match req.redirect_uri with
                | some uri => if uri = "" then .null else .str uri
                | none => .null),
              store)

/-- A transport that is down: every send throws. -/
def failingTransport : String → String → Except JsError String :=
  fun _ _ => .error ⟨"Error", "connect ECONNREFUSED 127.0.0.1:587"⟩

/-- A send-otp request for `anish_2301mc40@iitp.ac.in`. -/
def sampleSendRequest : SendOtpRequest :=
  { method := "POST"
    email := some " Anish_2301mc40@IITP.ac.in "
    redirect_uri := none }

/-! ## Facts about characters -/

theorem char_toNat_ofNat (n : Nat) (h : n < 55296) : (Char.ofNat n).toNat = n := by
  have hv : n.isValidChar := Or.inl h
  simp only [Char.ofNat, hv, Char.ofNatAux, Char.toNat, dite_true]
  rfl

theorem char_toLower_toNat (c : Char) :
    c.toLower.toNat = if 65 ≤ c.toNat ∧ c.toNat ≤ 90 then c.toNat + 32 else c.toNat := by
  unfold Char.toLower
  by_cases h : c.toNat ≥ 65 ∧ c.toNat ≤ 90
  · simp only [h, and_self, if_true]
    exact char_toNat_ofNat _ (by omega)
  · simp only [h, if_false]

theorem char_eq_of_toNat_eq (a b : Char) (h : a.toNat = b.toNat) : a = b := by
  rw [← Char.ofNat_toNat a, ← Char.ofNat_toNat b, h]

theorem char_toLower_idem (c : Char) : c.toLower.toLower = c.toLower := by
  apply char_eq_of_toNat_eq
  rw [char_toLower_toNat c.toLower, char_toLower_toNat c]
  split_ifs <;> omega

theorem asciiLower_idem (s : String) : asciiLower (asciiLower s) = asciiLower s := by
  have hc : Char.toLower ∘ Char.toLower = Char.toLower := by
    funext c; exact char_toLower_idem c
  simp [asciiLower, hc]

/-! ## Facts about the store -/

theorem storeSet_same (store : RateLimitStore) (key : String) (v : RateLimitEntry) :
    storeSet store key v key = some v := by
  simp [storeSet]

theorem storeSet_other (store : RateLimitStore) (key k : String) (v : RateLimitEntry)
    (h : k ≠ key) : storeSet store key v k = store k := by
  simp [storeSet, h]

theorem cleanup_none (store : RateLimitStore) (now : Nat) (key : String)
    (h : store key = none) : cleanupExpiredEntries store now key = none := by
  simp [cleanupExpiredEntries, h]

theorem cleanup_live (store : RateLimitStore) (now : Nat) (key : String)
    (data : RateLimitEntry) (h : store key = some data) (hlive : ¬ now > data.expiresAt) :
    cleanupExpiredEntries store now key = some data := by
  simp [cleanupExpiredEntries, h, hlive]

theorem cleanup_expired (store : RateLimitStore) (now : Nat) (key : String)
    (data : RateLimitEntry) (h : store key = some data) (hdead : now > data.expiresAt) :
    cleanupExpiredEntries store now key = none := by
  simp [cleanupExpiredEntries, h, hdead]

theorem sweptStore_none (store : RateLimitStore) (rnd : ℚ) (sweepNow : Nat) (key : String)
    (h : store key = none) : sweptStore store rnd sweepNow key = none := by
  unfold sweptStore
  split
  · exact cleanup_none store sweepNow key h
  · exact h

/-- After the optional sweep a key holds its old entry or nothing, and it holds the old entry
whenever that entry is not expired at the time of the sweep. -/
theorem sweptStore_some (store : RateLimitStore) (rnd : ℚ) (sweepNow : Nat) (key : String)
    (data : RateLimitEntry) (h : store key = some data) :
    (sweptStore store rnd sweepNow key = some data ∨
      (sweptStore store rnd sweepNow key = none ∧ sweepNow > data.expiresAt)) := by
  unfold sweptStore
  split
  · by_cases hd : sweepNow > data.expiresAt
    · exact Or.inr ⟨cleanup_expired store sweepNow key data h hd, hd⟩
    · exact Or.inl (cleanup_live store sweepNow key data h hd)
  · exact Or.inl h

/-- The three outcomes of `checkRateLimit` on the swept store. -/
theorem checkRateLimit_fresh (toLowerCase : String → String) (store : RateLimitStore)
    (rnd : ℚ) (sweepNow now : Nat) (identifier : String)
    (h : sweptStore store rnd sweepNow (toLowerCase identifier) = none) :
    checkRateLimit toLowerCase store rnd sweepNow now identifier =
      (⟨true, 0, now + 60000, none, none⟩,
        storeSet (sweptStore store rnd sweepNow) (toLowerCase identifier)
          ⟨1, now + 60000, now⟩) := by
  unfold sweptStore at h
  simp only [checkRateLimit, h, sweptStore]
  simp [MAX_REQUESTS_PER_WINDOW, RATE_LIMIT_WINDOW]

theorem checkRateLimit_expired (toLowerCase : String → String) (store : RateLimitStore)
    (rnd : ℚ) (sweepNow now : Nat) (identifier : String) (data : RateLimitEntry)
    (h : sweptStore store rnd sweepNow (toLowerCase identifier) = some data)
    (hdead : now > data.expiresAt) :
    checkRateLimit toLowerCase store rnd sweepNow now identifier =
      (⟨true, 0, now + 60000, none, none⟩,
        storeSet (sweptStore store rnd sweepNow) (toLowerCase identifier)
          ⟨1, now + 60000, now⟩) := by
  unfold sweptStore at h
  simp only [checkRateLimit, h, sweptStore]
  simp [MAX_REQUESTS_PER_WINDOW, RATE_LIMIT_WINDOW, hdead]

theorem checkRateLimit_denied (toLowerCase : String → String) (store : RateLimitStore)
    (rnd : ℚ) (sweepNow now : Nat) (identifier : String) (data : RateLimitEntry)
    (h : sweptStore store rnd sweepNow (toLowerCase identifier) = some data)
    (hlive : ¬ now > data.expiresAt) (hcount : data.count ≥ 1) :
    checkRateLimit toLowerCase store rnd sweepNow now identifier =
      (⟨false, 0, data.expiresAt, some (ceilDiv1000 ((data.expiresAt : Int) - (now : Int))),
          some ("Too many requests. Please try again in "
            ++ toString (ceilDiv1000 ((data.expiresAt : Int) - (now : Int))) ++ " seconds.")⟩,
        sweptStore store rnd sweepNow) := by
  unfold sweptStore at h
  simp only [checkRateLimit, h, sweptStore]
  simp [MAX_REQUESTS_PER_WINDOW, hlive, hcount]

theorem checkRateLimit_increment (toLowerCase : String → String) (store : RateLimitStore)
    (rnd : ℚ) (sweepNow now : Nat) (identifier : String) (data : RateLimitEntry)
    (h : sweptStore store rnd sweepNow (toLowerCase identifier) = some data)
    (hlive : ¬ now > data.expiresAt) (hcount : ¬ data.count ≥ 1) :
    checkRateLimit toLowerCase store rnd sweepNow now identifier =
      (⟨true, 1 - ((data.count + 1 : Nat) : Int), data.expiresAt, none, none⟩,
        storeSet (sweptStore store rnd sweepNow) (toLowerCase identifier)
          { data with count := data.count + 1 }) := by
  unfold sweptStore at h
  simp only [checkRateLimit, h, sweptStore]
  simp [MAX_REQUESTS_PER_WINDOW, hlive, hcount]


theorem ceilDiv1000_eq_ceil (x : Int) : ceilDiv1000 x = ⌈(x : ℚ) / 1000⌉ := by
  unfold ceilDiv1000
  have h := Rat.floor_intCast_div_natCast (-x) 1000
  have h2 : ⌈(x : ℚ) / 1000⌉ = -⌊((-x : Int) : ℚ) / ((1000 : Nat) : ℚ)⌋ := by
    have h3 : (x : ℚ) / 1000 = -(((-x : Int) : ℚ) / ((1000 : Nat) : ℚ)) := by
      push_cast; ring
    rw [h3, Int.ceil_neg]
  rw [h2, h]
  norm_num

theorem ceilDiv1000_nonneg (x : Int) (h : 0 ≤ x) : 0 ≤ ceilDiv1000 x := by
  unfold ceilDiv1000; omega

theorem ceilDiv1000_pos_iff (x : Int) : 0 < ceilDiv1000 x ↔ 0 < x := by
  unfold ceilDiv1000; omega

theorem ceilDiv1000_le (x : Int) (h : x ≤ 60000) : ceilDiv1000 x ≤ 60 := by
  unfold ceilDiv1000; omega

/-- After any call the key of the call holds a live entry that has used up the capacity. -/
theorem checkRateLimit_post (toLowerCase : String → String) (store : RateLimitStore)
    (rnd : ℚ) (sweepNow now : Nat) (identifier : String) :
    ∃ data, (checkRateLimit toLowerCase store rnd sweepNow now identifier).2
        (toLowerCase identifier) = some data ∧ now ≤ data.expiresAt ∧ 1 ≤ data.count := by
  cases h : sweptStore store rnd sweepNow (toLowerCase identifier) with
  | none =>
    rw [checkRateLimit_fresh _ _ _ _ _ _ h]
    exact ⟨_, storeSet_same _ _ _, by simp, by simp⟩
  | some data =>
    by_cases hd : now > data.expiresAt
    · rw [checkRateLimit_expired _ _ _ _ _ _ data h hd]
      exact ⟨_, storeSet_same _ _ _, by simp, by simp⟩
    · by_cases hc : data.count ≥ 1
      · rw [checkRateLimit_denied _ _ _ _ _ _ data h hd hc]
        exact ⟨data, h, by omega, hc⟩
      · rw [checkRateLimit_increment _ _ _ _ _ _ data h hd hc]
        exact ⟨_, storeSet_same _ _ _, by simp; omega, by simp⟩

/-- A call finding a live entry with the capacity used up, the sweep reading the clock no
later than the entry's expiry, is denied and leaves that entry in place. -/
theorem checkRateLimit_live_denied (toLowerCase : String → String) (store : RateLimitStore)
    (rnd : ℚ) (sweepNow now : Nat) (identifier : String) (data : RateLimitEntry)
    (h : store (toLowerCase identifier) = some data) (hsweep : sweepNow ≤ data.expiresAt)
    (hlive : now ≤ data.expiresAt) (hcount : 1 ≤ data.count) :
    (checkRateLimit toLowerCase store rnd sweepNow now identifier).1 =
      ⟨false, 0, data.expiresAt, some (ceilDiv1000 ((data.expiresAt : Int) - (now : Int))),
        some ("Too many requests. Please try again in "
          ++ toString (ceilDiv1000 ((data.expiresAt : Int) - (now : Int))) ++ " seconds.")⟩ ∧
    (checkRateLimit toLowerCase store rnd sweepNow now identifier).2
      (toLowerCase identifier) = some data := by
  have hs : sweptStore store rnd sweepNow (toLowerCase identifier) = some data := by
    rcases sweptStore_some store rnd sweepNow _ data h with h1 | ⟨_, h2⟩
    · exact h1
    · omega
  rw [checkRateLimit_denied _ _ _ _ _ _ data hs (by omega) hcount]
  exact ⟨rfl, hs⟩

/-! ## The rate limiter: first call, second call, expiry, retryAfter, key normalization -/

/-- C4. Starting from a table with no entry for the lower-cased identifier, `checkRateLimit`
at time `t1` returns `allowed: true`, `remaining: 0`, `resetAt: t1 + 60000` and stores
`{count: 1, expiresAt: t1 + 60000, firstRequestAt: t1}`; a second call for the same
identifier at the same time `t1` returns `allowed: false`, `remaining: 0`,
`resetAt: t1 + 60000` (and `retryAfter: 60`).  This holds whether or not either call sweeps;
the sweep of the second call reads the clock no later than the call itself. -/
theorem checkRateLimit_first_and_second (toLowerCase : String → String)
    (store : RateLimitStore) (rnd1 rnd2 : ℚ) (sweepNow1 sweepNow2 t1 : Nat)
    (identifier : String)
    (hfresh : store (toLowerCase identifier) = none) (hsweep : sweepNow2 ≤ t1) :
    (checkRateLimit toLowerCase store rnd1 sweepNow1 t1 identifier).1 =
        ⟨true, 0, t1 + 60000, none, none⟩ ∧
    (checkRateLimit toLowerCase store rnd1 sweepNow1 t1 identifier).2
        (toLowerCase identifier) = some ⟨1, t1 + 60000, t1⟩ ∧
    (checkRateLimit toLowerCase
        (checkRateLimit toLowerCase store rnd1 sweepNow1 t1 identifier).2
        rnd2 sweepNow2 t1 identifier).1 =
        ⟨false, 0, t1 + 60000, some 60,
          some "Too many requests. Please try again in 60 seconds."⟩ := by
  have hs := sweptStore_none store rnd1 sweepNow1 _ hfresh
  have h1 := checkRateLimit_fresh toLowerCase store rnd1 sweepNow1 t1 identifier hs
  have hstored : (checkRateLimit toLowerCase store rnd1 sweepNow1 t1 identifier).2
      (toLowerCase identifier) = some ⟨1, t1 + 60000, t1⟩ := by
    rw [h1]; exact storeSet_same _ _ _
  refine ⟨by rw [h1], hstored, ?_⟩
  have h2 := (checkRateLimit_live_denied toLowerCase _ rnd2 sweepNow2 t1 identifier
    ⟨1, t1 + 60000, t1⟩ hstored (by simp; omega) (by simp) (by simp)).1
  have hceil : ceilDiv1000 (((t1 + 60000 : Nat) : Int) - (t1 : Int)) = 60 := by
    unfold ceilDiv1000; omega
  rw [h2]
  simp only [hceil]
  rfl

theorem checkRateLimit_first_and_second_witness :
    (checkRateLimit asciiLower emptyStore 0 0 1000 "A@iitp.ac.in").1 =
        ⟨true, 0, 61000, none, none⟩ ∧
    (checkRateLimit asciiLower emptyStore 0 0 1000 "A@iitp.ac.in").2
        (asciiLower "A@iitp.ac.in") = some ⟨1, 61000, 1000⟩ ∧
    (checkRateLimit asciiLower
        (checkRateLimit asciiLower emptyStore 0 0 1000 "A@iitp.ac.in").2
        0 1000 1000 "A@iitp.ac.in").1 =
        ⟨false, 0, 61000, some 60,
          some "Too many requests. Please try again in 60 seconds."⟩ :=
  checkRateLimit_first_and_second asciiLower emptyStore 0 0 0 1000 1000 "A@iitp.ac.in"
    rfl (Nat.le_refl 1000)

/-- C5. If the table holds an entry for the key with `expiresAt = e`, then `checkRateLimit`
for that key at any time `t > e` returns `allowed: true` with `resetAt = t + 60000` and
replaces the entry by `{count: 1, expiresAt: t + 60000, firstRequestAt: t}`, whether or not
the call sweeps and whatever the sweep reads from the clock. -/
theorem checkRateLimit_after_window (toLowerCase : String → String)
    (store : RateLimitStore) (rnd : ℚ) (sweepNow t : Nat) (identifier : String)
    (data : RateLimitEntry)
    (hentry : store (toLowerCase identifier) = some data) (helapsed : t > data.expiresAt) :
    (checkRateLimit toLowerCase store rnd sweepNow t identifier).1 =
        ⟨true, 0, t + 60000, none, none⟩ ∧
    (checkRateLimit toLowerCase store rnd sweepNow t identifier).2
        (toLowerCase identifier) = some ⟨1, t + 60000, t⟩ := by
  rcases sweptStore_some store rnd sweepNow _ data hentry with hs | ⟨hs, _⟩
  · rw [checkRateLimit_expired _ _ _ _ _ _ data hs helapsed]
    exact ⟨rfl, storeSet_same _ _ _⟩
  · rw [checkRateLimit_fresh _ _ _ _ _ _ hs]
    exact ⟨rfl, storeSet_same _ _ _⟩

theorem checkRateLimit_after_window_witness :
    (checkRateLimit asciiLower (storeSet emptyStore "a@iitp.ac.in" ⟨1, 61000, 1000⟩)
        0 61001 61001 "A@iitp.ac.in").1 = ⟨true, 0, 121001, none, none⟩ ∧
    (checkRateLimit asciiLower (storeSet emptyStore "a@iitp.ac.in" ⟨1, 61000, 1000⟩)
        0 61001 61001 "A@iitp.ac.in").2 (asciiLower "A@iitp.ac.in") =
        some ⟨1, 121001, 61001⟩ :=
  checkRateLimit_after_window asciiLower (storeSet emptyStore "a@iitp.ac.in" ⟨1, 61000, 1000⟩)
    0 61001 61001 "A@iitp.ac.in" ⟨1, 61000, 1000⟩ (by decide) (by decide)

theorem sweptStore_eq_some (store : RateLimitStore) (rnd : ℚ) (sweepNow : Nat) (key : String)
    (data : RateLimitEntry) (h : sweptStore store rnd sweepNow key = some data) :
    store key = some data := by
  cases hk : store key with
  | none => rw [sweptStore_none store rnd sweepNow key hk] at h; cases h
  | some d =>
    rcases sweptStore_some store rnd sweepNow key d hk with h1 | ⟨h1, _⟩
    · rw [h1] at h; exact h
    · rw [h1] at h; cases h

/-- The store after a call is the swept store, with at most the key of the call rewritten. -/
theorem checkRateLimit_store (toLowerCase : String → String) (store : RateLimitStore)
    (rnd : ℚ) (sweepNow now : Nat) (identifier : String) :
    (checkRateLimit toLowerCase store rnd sweepNow now identifier).2 =
        sweptStore store rnd sweepNow ∨
    ∃ v, (checkRateLimit toLowerCase store rnd sweepNow now identifier).2 =
        storeSet (sweptStore store rnd sweepNow) (toLowerCase identifier) v := by
  cases h : sweptStore store rnd sweepNow (toLowerCase identifier) with
  | none => exact Or.inr ⟨_, by rw [checkRateLimit_fresh _ _ _ _ _ _ h]⟩
  | some data =>
    by_cases hd : now > data.expiresAt
    · exact Or.inr ⟨_, by rw [checkRateLimit_expired _ _ _ _ _ _ data h hd]⟩
    · by_cases hc : data.count ≥ 1
      · exact Or.inl (by rw [checkRateLimit_denied _ _ _ _ _ _ data h hd hc])
      · exact Or.inr ⟨_, by rw [checkRateLimit_increment _ _ _ _ _ _ data h hd hc]⟩

/-- A call that finds no entry for its key grants and stores a fresh entry. -/
theorem checkRateLimit_post_fresh (toLowerCase : String → String) (store : RateLimitStore)
    (rnd : ℚ) (sweepNow now : Nat) (identifier : String)
    (hfresh : store (toLowerCase identifier) = none) :
    (checkRateLimit toLowerCase store rnd sweepNow now identifier).1 =
        ⟨true, 0, now + 60000, none, none⟩ ∧
    (checkRateLimit toLowerCase store rnd sweepNow now identifier).2
        (toLowerCase identifier) = some ⟨1, now + 60000, now⟩ := by
  rw [checkRateLimit_fresh _ _ _ _ _ _ (sweptStore_none store rnd sweepNow _ hfresh)]
  exact ⟨rfl, storeSet_same _ _ _⟩

/-- A denial comes from a live entry of the store, and carries the ceiling of the
remaining time. -/
theorem checkRateLimit_denied_inv (toLowerCase : String → String) (store : RateLimitStore)
    (rnd : ℚ) (sweepNow now : Nat) (identifier : String)
    (hdenied : (checkRateLimit toLowerCase store rnd sweepNow now identifier).1.allowed
      = false) :
    ∃ data, store (toLowerCase identifier) = some data ∧ now ≤ data.expiresAt ∧
      (checkRateLimit toLowerCase store rnd sweepNow now identifier).1.resetAt
        = data.expiresAt ∧
      (checkRateLimit toLowerCase store rnd sweepNow now identifier).1.retryAfter
        = some (ceilDiv1000 ((data.expiresAt : Int) - (now : Int))) := by
  cases h : sweptStore store rnd sweepNow (toLowerCase identifier) with
  | none => rw [checkRateLimit_fresh _ _ _ _ _ _ h] at hdenied; cases hdenied
  | some data =>
    by_cases hd : now > data.expiresAt
    · rw [checkRateLimit_expired _ _ _ _ _ _ data h hd] at hdenied; cases hdenied
    · by_cases hc : data.count ≥ 1
      · rw [checkRateLimit_denied _ _ _ _ _ _ data h hd hc]
        exact ⟨data, sweptStore_eq_some _ _ _ _ _ h, by omega, rfl, rfl⟩
      · rw [checkRateLimit_increment _ _ _ _ _ _ data h hd hc] at hdenied; cases hdenied

/-- C6, the claim as stated fails: a first request at time 1000 opens a window that expires
at 61000; a second request at time 61000 exactly is still denied (`now > expiresAt` is
false) and carries `retryAfter: 0`, which is not `> 0`. -/
theorem checkRateLimit_retryAfter_zero :
    (checkRateLimit asciiLower
        (checkRateLimit asciiLower emptyStore (1 / 2) 1000 1000 "a@iitp.ac.in").2
        (1 / 2) 61000 61000 "a@iitp.ac.in").1 =
      ⟨false, 0, 61000, some 0, some "Too many requests. Please try again in 0 seconds."⟩ := by
  have h1 := (checkRateLimit_post_fresh asciiLower emptyStore (1 / 2) 1000 1000
    "a@iitp.ac.in" rfl).2
  have h2 := (checkRateLimit_live_denied asciiLower _ (1 / 2) 61000 61000 "a@iitp.ac.in"
    ⟨1, 61000, 1000⟩ h1 (by decide) (by decide) (by decide)).1
  rw [h2]
  decide

/-- C6, amended. Whenever `checkRateLimit` returns `allowed: false`, the result carries
`retryAfter = ceil((resetAt - now) / 1000)`, which is `≥ 0`, is `> 0` exactly when
`now < resetAt`, and is at most 60 when the entry that caused the denial has a window of at
most 60000 ms from its `firstRequestAt` and the clock has not run backwards since then. -/
theorem checkRateLimit_retryAfter (toLowerCase : String → String) (store : RateLimitStore)
    (rnd : ℚ) (sweepNow now : Nat) (identifier : String)
    (hdenied : (checkRateLimit toLowerCase store rnd sweepNow now identifier).1.allowed
      = false) :
    ∃ (r : Int) (data : RateLimitEntry),
      store (toLowerCase identifier) = some data ∧
      (checkRateLimit toLowerCase store rnd sweepNow now identifier).1.resetAt
        = data.expiresAt ∧
      (checkRateLimit toLowerCase store rnd sweepNow now identifier).1.retryAfter = some r ∧
      r = ⌈(((data.expiresAt : Int) - (now : Int) : Int) : ℚ) / 1000⌉ ∧
      0 ≤ r ∧
      (0 < r ↔ now < data.expiresAt) ∧
      (data.expiresAt ≤ data.firstRequestAt + RATE_LIMIT_WINDOW →
        data.firstRequestAt ≤ now → r ≤ 60) := by
  obtain ⟨data, hstore, hlive, hreset, hretry⟩ :=
    checkRateLimit_denied_inv toLowerCase store rnd sweepNow now identifier hdenied
  refine ⟨_, data, hstore, hreset, hretry, ceilDiv1000_eq_ceil _, ?_, ?_, ?_⟩
  · exact ceilDiv1000_nonneg _ (by omega)
  · rw [ceilDiv1000_pos_iff]; omega
  · intro hw hf
    apply ceilDiv1000_le
    unfold RATE_LIMIT_WINDOW at hw
    omega

theorem checkRateLimit_retryAfter_witness :
    ∃ (r : Int) (data : RateLimitEntry),
      storeSet emptyStore "a@iitp.ac.in" ⟨1, 61000, 1000⟩ (asciiLower "A@iitp.ac.in")
        = some data ∧
      (checkRateLimit asciiLower (storeSet emptyStore "a@iitp.ac.in" ⟨1, 61000, 1000⟩)
        0 2500 2500 "A@iitp.ac.in").1.resetAt = data.expiresAt ∧
      (checkRateLimit asciiLower (storeSet emptyStore "a@iitp.ac.in" ⟨1, 61000, 1000⟩)
        0 2500 2500 "A@iitp.ac.in").1.retryAfter = some r ∧
      r = ⌈(((data.expiresAt : Int) - ((2500 : Nat) : Int) : Int) : ℚ) / 1000⌉ ∧
      0 ≤ r ∧
      (0 < r ↔ 2500 < data.expiresAt) ∧
      (data.expiresAt ≤ data.firstRequestAt + RATE_LIMIT_WINDOW →
        data.firstRequestAt ≤ 2500 → r ≤ 60) :=
  checkRateLimit_retryAfter asciiLower (storeSet emptyStore "a@iitp.ac.in" ⟨1, 61000, 1000⟩)
    0 2500 2500 "A@iitp.ac.in"
    (congrArg RateLimitResult.allowed
      (checkRateLimit_live_denied asciiLower
        (storeSet emptyStore "a@iitp.ac.in" ⟨1, 61000, 1000⟩) 0 2500 2500 "A@iitp.ac.in"
        ⟨1, 61000, 1000⟩ (by decide) (by decide) (by decide) (by decide)).1)

/-- C7. Key normalization.  For identifiers `a` and `b` with equal lower-cased forms:
(1) `checkRateLimit` returns the same result and the same table for `a` as for `b`;
(2) if every key of the table is lower-case (fixed by `toLowerCase`), so is every key of the
table after the call; (3) `checkRateLimit(a)` followed at the same time by
`checkRateLimit(b)` denies `b`.  `toLowerCase` is taken to be idempotent, and the sweep of
the second call reads the clock no later than the call itself. -/
theorem checkRateLimit_key_normalization (toLowerCase : String → String)
    (hidem : ∀ s, toLowerCase (toLowerCase s) = toLowerCase s)
    (store : RateLimitStore) (rnd rnd2 : ℚ) (sweepNow sweepNow2 now : Nat) (a b : String)
    (hab : toLowerCase a = toLowerCase b) (hsweep : sweepNow2 ≤ now) :
    checkRateLimit toLowerCase store rnd sweepNow now a
      = checkRateLimit toLowerCase store rnd sweepNow now b ∧
    ((∀ k, store k ≠ none → toLowerCase k = k) →
      ∀ k, (checkRateLimit toLowerCase store rnd sweepNow now a).2 k ≠ none →
        toLowerCase k = k) ∧
    (checkRateLimit toLowerCase (checkRateLimit toLowerCase store rnd sweepNow now a).2
      rnd2 sweepNow2 now b).1.allowed = false := by
  refine ⟨by simp only [checkRateLimit, hab], ?_, ?_⟩
  · intro hkeys k hk
    have hswept : sweptStore store rnd sweepNow k ≠ none → toLowerCase k = k := by
      intro hne
      apply hkeys
      cases hsk : sweptStore store rnd sweepNow k with
      | none => exact absurd hsk hne
      | some d => rw [sweptStore_eq_some _ _ _ _ _ hsk]; simp
    rcases checkRateLimit_store toLowerCase store rnd sweepNow now a with h | ⟨v, h⟩
    · rw [h] at hk; exact hswept hk
    · rw [h] at hk
      by_cases hka : k = toLowerCase a
      · rw [hka]; exact hidem a
      · rw [storeSet_other _ _ _ _ hka] at hk; exact hswept hk
  · obtain ⟨data, hdata, hlive, hcount⟩ :=
      checkRateLimit_post toLowerCase store rnd sweepNow now a
    rw [hab] at hdata
    rw [(checkRateLimit_live_denied toLowerCase _ rnd2 sweepNow2 now b data hdata
      (by omega) hlive hcount).1]

theorem checkRateLimit_key_normalization_witness :
    checkRateLimit asciiLower emptyStore 0 0 1000 "Anish@IITP.ac.in"
      = checkRateLimit asciiLower emptyStore 0 0 1000 "anish@iitp.AC.IN" ∧
    ((∀ k, emptyStore k ≠ none → asciiLower k = k) →
      ∀ k, (checkRateLimit asciiLower emptyStore 0 0 1000 "Anish@IITP.ac.in").2 k ≠ none →
        asciiLower k = k) ∧
    (checkRateLimit asciiLower
      (checkRateLimit asciiLower emptyStore 0 0 1000 "Anish@IITP.ac.in").2
      0 1000 1000 "anish@iitp.AC.IN").1.allowed = false :=
  checkRateLimit_key_normalization asciiLower asciiLower_idem emptyStore 0 0 0 1000 1000
    "Anish@IITP.ac.in" "anish@iitp.AC.IN" (by decide) (Nat.le_refl 1000)


/-! ## The OTP token codec: round trip, email binding, OTP mismatch -/

theorem configuredSecret_some (secret : String) (h : secret ≠ "") :
    configuredSecret (some secret) = some secret := by
  simp [configuredSecret, h]

theorem expiresIn_text : toString OTP_EXPIRY_MINUTES ++ "m" = "5m" := by
  rfl

theorem createOTPToken_configured (toLowerCase : String → String) (L : Libs)
    (secret email otp salt : String) (createdNow expiresNow signNow : Nat)
    (hsecret : secret ≠ "") :
    createOTPToken toLowerCase L (some secret) email otp salt createdNow expiresNow signNow
      = .ok (L.jwtSign (otpPayload toLowerCase L email otp salt createdNow expiresNow)
          secret "5m" signNow) := by
  simp only [createOTPToken, configuredSecret_some secret hsecret, expiresIn_text]

/-- What `verifyOTPToken` computes on a token minted by `createOTPToken`, when `jwt.verify`
recovers the payload: the email test, then the `expiresAt` test, then the OTP test. -/
theorem verifyOTPToken_minted (toLowerCase : String → String) (L : Libs)
    (secret email otp salt otp2 email2 : String)
    (createdNow expiresNow signNow jwtNow now : Nat)
    (hsecret : secret ≠ "")
    (hjwt : JwtRecovers L (otpPayload toLowerCase L email otp salt createdNow expiresNow)
      secret "5m" signNow jwtNow) :
    verifyOTPToken toLowerCase L (some secret)
        (L.jwtSign (otpPayload toLowerCase L email otp salt createdNow expiresNow)
          secret "5m" signNow) otp2 email2 jwtNow now =
      if toLowerCase (toLowerCase email) ≠ toLowerCase email2 then
        .invalid "Email does not match"
      else if expiresNow + 300000 < now then
        .invalid "OTP has expired"
      else
        match L.bcryptCompare otp2 (.str (L.bcryptHash otp 10 salt)) with
        | .error e => verifyOTPTokenCatch e
        | .ok isMatch =>
          if isMatch then .valid (.str (toLowerCase email)) "OTP verified successfully"
          else .invalid "Invalid OTP" := by
  obtain ⟨decoded, hverify, hclaims⟩ := hjwt
  have hemail : objGet decoded "email" = .str (toLowerCase email) :=
    hclaims ("email", _) (by simp [otpPayload])
  have hhash : objGet decoded "hashedOTP" = .str (L.bcryptHash otp 10 salt) :=
    hclaims ("hashedOTP", _) (by simp [otpPayload])
  have hexp : objGet decoded "expiresAt"
      = .num ((expiresNow : Int) + ((OTP_EXPIRY_MINUTES * 60 * 1000 : Nat) : Int)) :=
    hclaims ("expiresAt", _) (by simp [otpPayload])
  have hgt : numberGreater L now
      (.num ((expiresNow : Int) + ((OTP_EXPIRY_MINUTES * 60 * 1000 : Nat) : Int)))
      = decide (expiresNow + 300000 < now) := by
    simp only [numberGreater, toNumber, OTP_EXPIRY_MINUTES]
    apply Bool.decide_congr
    omega
  simp only [verifyOTPToken, configuredSecret_some secret hsecret, verifyOTPTokenTry, hverify,
    hemail, hhash, hexp, hgt]
  by_cases h1 : toLowerCase (toLowerCase email) ≠ toLowerCase email2
  · rw [if_pos h1, if_pos h1]
  · rw [if_neg h1, if_neg h1]
    by_cases h2 : expiresNow + 300000 < now
    · simp only [h2, decide_True, if_true]
    · simp only [h2, decide_False, if_false]
      cases hc : L.bcryptCompare otp2 (.str (L.bcryptHash otp 10 salt)) with
      | error e => rfl
      | ok isMatch => cases isMatch <;> rfl

/-- The toy libraries recover the payload of the token used in the concrete instances. -/
theorem toyLibs_recovers :
    JwtRecovers toyLibs
      (otpPayload asciiLower toyLibs "Anish_2301mc40@iitp.ac.in" "123456" "salt"
        1700000000000 1700000000001)
      "s3cret" "5m" 1700000000002 1700000200000 :=
  ⟨[("email", .str "anish_2301mc40@iitp.ac.in"), ("hashedOTP", .str "salt$123456"),
      ("createdAt", .num 1700000000000), ("expiresAt", .num 1700000300001),
      ("exp", .num 1700000300)], rfl, by decide⟩

/-- C1. OTP round trip.  With a configured secret, the token minted by
`createOTPToken(email, otp)` verifies: `verifyOTPToken(token, otp, email2)` returns
`valid: true` with `email` the lower-cased issuing email, for every `email2` equal to `email`
ignoring letter case, at every time `now` not after the payload's `expiresAt`
(`expiresNow + 300000`), taking `jwt.verify` to recover the signed payload and
`bcrypt.compare(otp, bcrypt.hash(otp))` to be true.  `toLowerCase` is taken idempotent. -/
theorem otp_round_trip (toLowerCase : String → String) (L : Libs)
    (secret email otp salt email2 : String)
    (createdNow expiresNow signNow jwtNow now : Nat)
    (hsecret : secret ≠ "")
    (hidem : ∀ s, toLowerCase (toLowerCase s) = toLowerCase s)
    (hjwt : JwtRecovers L (otpPayload toLowerCase L email otp salt createdNow expiresNow)
      secret "5m" signNow jwtNow)
    (hbcrypt : L.bcryptCompare otp (.str (L.bcryptHash otp 10 salt)) = .ok true)
    (hcase : toLowerCase email2 = toLowerCase email)
    (hwindow : now ≤ expiresNow + 300000) :
    ∃ token,
      createOTPToken toLowerCase L (some secret) email otp salt createdNow expiresNow signNow
        = .ok token ∧
      verifyOTPToken toLowerCase L (some secret) token otp email2 jwtNow now
        = .valid (.str (toLowerCase email)) "OTP verified successfully" := by
  refine ⟨_, createOTPToken_configured toLowerCase L secret email otp salt createdNow
    expiresNow signNow hsecret, ?_⟩
  rw [verifyOTPToken_minted toLowerCase L secret email otp salt otp email2 createdNow
    expiresNow signNow jwtNow now hsecret hjwt, hbcrypt]
  have h1 : ¬ toLowerCase (toLowerCase email) ≠ toLowerCase email2 := by
    rw [hidem, hcase]; simp
  have h2 : ¬ expiresNow + 300000 < now := by omega
  rw [if_neg h1, if_neg h2]
  rfl

theorem otp_round_trip_witness :
    ∃ token,
      createOTPToken asciiLower toyLibs (some "s3cret") "Anish_2301mc40@iitp.ac.in" "123456"
        "salt" 1700000000000 1700000000001 1700000000002 = .ok token ∧
      verifyOTPToken asciiLower toyLibs (some "s3cret") token "123456"
        "anish_2301MC40@IITP.ac.in" 1700000200000 1700000300001
        = .valid (.str (asciiLower "Anish_2301mc40@iitp.ac.in"))
            "OTP verified successfully" :=
  otp_round_trip asciiLower toyLibs "s3cret" "Anish_2301mc40@iitp.ac.in" "123456" "salt"
    "anish_2301MC40@IITP.ac.in" 1700000000000 1700000000001 1700000000002 1700000200000
    1700000300001 (by decide) asciiLower_idem toyLibs_recovers rfl (by decide) (by decide)

/-- C2. Email binding.  For an unexpired token minted by `createOTPToken(email, otp)`
(`jwt.verify` recovers the signed payload), `verifyOTPToken(token, otp, other)` returns
`valid: false` with error `Email does not match` for every `other` whose lower-cased form
differs from the lower-cased issuing email, the supplied OTP being the correct one (and for
any other OTP as well).  `toLowerCase` is taken idempotent. -/
theorem otp_email_binding (toLowerCase : String → String) (L : Libs)
    (secret email otp salt other otp2 : String)
    (createdNow expiresNow signNow jwtNow now : Nat)
    (hsecret : secret ≠ "")
    (hidem : ∀ s, toLowerCase (toLowerCase s) = toLowerCase s)
    (hjwt : JwtRecovers L (otpPayload toLowerCase L email otp salt createdNow expiresNow)
      secret "5m" signNow jwtNow)
    (hother : toLowerCase other ≠ toLowerCase email) :
    ∃ token,
      createOTPToken toLowerCase L (some secret) email otp salt createdNow expiresNow signNow
        = .ok token ∧
      verifyOTPToken toLowerCase L (some secret) token otp other jwtNow now
        = .invalid "Email does not match" ∧
      verifyOTPToken toLowerCase L (some secret) token otp2 other jwtNow now
        = .invalid "Email does not match" := by
  have h1 : toLowerCase (toLowerCase email) ≠ toLowerCase other := by
    rw [hidem]; exact fun h => hother h.symm
  refine ⟨_, createOTPToken_configured toLowerCase L secret email otp salt createdNow
    expiresNow signNow hsecret, ?_, ?_⟩
  · rw [verifyOTPToken_minted toLowerCase L secret email otp salt otp other createdNow
      expiresNow signNow jwtNow now hsecret hjwt, if_pos h1]
  · rw [verifyOTPToken_minted toLowerCase L secret email otp salt otp2 other createdNow
      expiresNow signNow jwtNow now hsecret hjwt, if_pos h1]

theorem otp_email_binding_witness :
    ∃ token,
      createOTPToken asciiLower toyLibs (some "s3cret") "Anish_2301mc40@iitp.ac.in" "123456"
        "salt" 1700000000000 1700000000001 1700000000002 = .ok token ∧
      verifyOTPToken asciiLower toyLibs (some "s3cret") token "123456"
        "bob_2301cs01@iitp.ac.in" 1700000200000 1700000200000
        = .invalid "Email does not match" ∧
      verifyOTPToken asciiLower toyLibs (some "s3cret") token "654321"
        "bob_2301cs01@iitp.ac.in" 1700000200000 1700000200000
        = .invalid "Email does not match" :=
  otp_email_binding asciiLower toyLibs "s3cret" "Anish_2301mc40@iitp.ac.in" "123456" "salt"
    "bob_2301cs01@iitp.ac.in" "654321" 1700000000000 1700000000001 1700000000002
    1700000200000 1700000200000 (by decide) asciiLower_idem toyLibs_recovers (by decide)

/-- C3. OTP mismatch.  For an unexpired token minted by `createOTPToken(email, otp)`
(`jwt.verify` recovers the signed payload, `now` is not after `expiresAt`) and a supplied
email that matches, `verifyOTPToken(token, otp2, email2)` returns `valid: false` with error
`Invalid OTP` for every `otp2` different from `otp`, taking `bcrypt.compare(otp2,
bcrypt.hash(otp))` to be false for such `otp2`; and for no supplied email and no time of
the expiry check does it return `valid: true` for such an `otp2`. -/
theorem otp_mismatch (toLowerCase : String → String) (L : Libs)
    (secret email otp salt email2 otp2 : String)
    (createdNow expiresNow signNow jwtNow now : Nat)
    (hsecret : secret ≠ "")
    (hidem : ∀ s, toLowerCase (toLowerCase s) = toLowerCase s)
    (hjwt : JwtRecovers L (otpPayload toLowerCase L email otp salt createdNow expiresNow)
      secret "5m" signNow jwtNow)
    (hne : otp2 ≠ otp)
    (hbcrypt : otp2 ≠ otp → L.bcryptCompare otp2 (.str (L.bcryptHash otp 10 salt)) = .ok false)
    (hcase : toLowerCase email2 = toLowerCase email)
    (hwindow : now ≤ expiresNow + 300000) :
    ∃ token,
      createOTPToken toLowerCase L (some secret) email otp salt createdNow expiresNow signNow
        = .ok token ∧
      verifyOTPToken toLowerCase L (some secret) token otp2 email2 jwtNow now
        = .invalid "Invalid OTP" ∧
      ∀ (email3 : String) (now3 : Nat) (e : JsVal) (m : String),
        verifyOTPToken toLowerCase L (some secret) token otp2 email3 jwtNow now3
          ≠ .valid e m := by
  refine ⟨_, createOTPToken_configured toLowerCase L secret email otp salt createdNow
    expiresNow signNow hsecret, ?_, ?_⟩
  · rw [verifyOTPToken_minted toLowerCase L secret email otp salt otp2 email2 createdNow
      expiresNow signNow jwtNow now hsecret hjwt, hbcrypt hne]
    have h1 : ¬ toLowerCase (toLowerCase email) ≠ toLowerCase email2 := by
      rw [hidem, hcase]; simp
    have h2 : ¬ expiresNow + 300000 < now := by omega
    rw [if_neg h1, if_neg h2]
    rfl
  · intro email3 now3 e m
    rw [verifyOTPToken_minted toLowerCase L secret email otp salt otp2 email3 createdNow
      expiresNow signNow jwtNow now3 hsecret hjwt, hbcrypt hne]
    split_ifs <;> simp

theorem otp_mismatch_witness :
    ∃ token,
      createOTPToken asciiLower toyLibs (some "s3cret") "Anish_2301mc40@iitp.ac.in" "123456"
        "salt" 1700000000000 1700000000001 1700000000002 = .ok token ∧
      verifyOTPToken asciiLower toyLibs (some "s3cret") token "123457"
        "anish_2301MC40@IITP.ac.in" 1700000200000 1700000200000 = .invalid "Invalid OTP" ∧
      ∀ (email3 : String) (now3 : Nat) (e : JsVal) (m : String),
        verifyOTPToken asciiLower toyLibs (some "s3cret") token "123457" email3
          1700000200000 now3 ≠ .valid e m :=
  otp_mismatch asciiLower toyLibs "s3cret" "Anish_2301mc40@iitp.ac.in" "123456" "salt"
    "anish_2301MC40@IITP.ac.in" "123457" 1700000000000 1700000000001 1700000000002
    1700000200000 1700000200000 (by decide) asciiLower_idem toyLibs_recovers (by decide)
    (fun _ => rfl) (by decide) (by decide)

/-! ## The matcher -/

theorem matchMany_iff (p : Char → Bool) (k : List Char → Bool) (s : List Char) :
    matchMany p k s = true ↔
      ∃ a b, s = a ++ b ∧ (∀ c ∈ a, p c = true) ∧ k b = true := by
  induction s with
  | nil =>
    simp only [matchMany]
    constructor
    · intro h; exact ⟨[], [], rfl, by simp, h⟩
    · rintro ⟨a, b, hab, _, hk⟩
      have hb : b = [] := (List.append_eq_nil.mp hab.symm).2
      rw [hb] at hk; exact hk
  | cons c t ih =>
    simp only [matchMany, Bool.or_eq_true, Bool.and_eq_true]
    constructor
    · rintro (⟨hp, hm⟩ | hk)
      · obtain ⟨a, b, hab, ha, hk⟩ := ih.mp hm
        refine ⟨c :: a, b, by rw [hab]; rfl, ?_, hk⟩
        intro x hx
        rcases List.mem_cons.mp hx with h | h
        · rw [h]; exact hp
        · exact ha x h
      · exact ⟨[], c :: t, rfl, by simp, hk⟩
    · rintro ⟨a, b, hab, ha, hk⟩
      cases a with
      | nil => right; rw [List.nil_append] at hab; rw [hab]; exact hk
      | cons x a' =>
        left
        rw [List.cons_append] at hab
        obtain ⟨hx, ht⟩ := List.cons.inj hab
        refine ⟨by rw [hx]; exact ha x (List.mem_cons_self _ _), ih.mpr ⟨a', b, ht, ?_, hk⟩⟩
        intro y hy
        exact ha y (List.mem_cons_of_mem _ hy)

theorem matchN_iff (p : Char → Bool) (k : List Char → Bool) (n : Nat) (s : List Char) :
    matchN p k n s = true ↔
      ∃ a b, s = a ++ b ∧ a.length = n ∧ (∀ c ∈ a, p c = true) ∧ k b = true := by
  induction n generalizing s with
  | zero =>
    simp only [matchN]
    constructor
    · intro h; exact ⟨[], s, rfl, rfl, by simp, h⟩
    · rintro ⟨a, b, hab, hlen, _, hk⟩
      have ha : a = [] := List.length_eq_zero.mp hlen
      rw [ha, List.nil_append] at hab
      rw [hab]; exact hk
  | succ n ih =>
    cases s with
    | nil =>
      simp only [matchN]
      constructor
      · intro h; cases h
      · rintro ⟨a, b, hab, hlen, _, _⟩
        have ha : a = [] := (List.append_eq_nil.mp hab.symm).1
        rw [ha] at hlen; cases hlen
    | cons c t =>
      simp only [matchN, Bool.and_eq_true]
      constructor
      · rintro ⟨hp, hm⟩
        obtain ⟨a, b, hab, hlen, ha, hk⟩ := (ih t).mp hm
        refine ⟨c :: a, b, by rw [hab]; rfl, by simp [hlen], ?_, hk⟩
        intro x hx
        rcases List.mem_cons.mp hx with h | h
        · rw [h]; exact hp
        · exact ha x h
      · rintro ⟨a, b, hab, hlen, ha, hk⟩
        cases a with
        | nil => cases hlen
        | cons x a' =>
          rw [List.cons_append] at hab
          obtain ⟨hx, ht⟩ := List.cons.inj hab
          refine ⟨by rw [hx]; exact ha x (List.mem_cons_self _ _),
            (ih t).mpr ⟨a', b, ht, by simpa using hlen, ?_, hk⟩⟩
          intro y hy
          exact ha y (List.mem_cons_of_mem _ hy)

theorem canonicalize_true (n : Nat) :
    canonicalize true n = if 97 ≤ n ∧ n ≤ 122 then n - 32 else n := by
  unfold canonicalize
  by_cases h : 97 ≤ n ∧ n ≤ 122
  · simp [h]
  · rw [if_neg h]
    have : (true && decide (97 ≤ n) && decide (n ≤ 122)) = false := by
      simpa using h
    rw [this]
    rfl

theorem char_isDigit_iff (c : Char) : c.isDigit = true ↔ 48 ≤ c.toNat ∧ c.toNat ≤ 57 := by
  simp only [Char.isDigit, Char.toNat, Bool.and_eq_true, decide_eq_true_eq, ge_iff_le]
  rw [UInt32.le_def, UInt32.le_def, BitVec.le_def, BitVec.le_def]
  rfl

theorem char_isUpper_iff (c : Char) : c.isUpper = true ↔ 65 ≤ c.toNat ∧ c.toNat ≤ 90 := by
  simp only [Char.isUpper, Char.toNat, Bool.and_eq_true, decide_eq_true_eq, ge_iff_le]
  rw [UInt32.le_def, UInt32.le_def, BitVec.le_def, BitVec.le_def]
  rfl

theorem char_isLower_iff (c : Char) : c.isLower = true ↔ 97 ≤ c.toNat ∧ c.toNat ≤ 122 := by
  simp only [Char.isLower, Char.toNat, Bool.and_eq_true, decide_eq_true_eq, ge_iff_le]
  rw [UInt32.le_def, UInt32.le_def, BitVec.le_def, BitVec.le_def]
  rfl

/-- A range of a class, under flag `i`, as an interval condition on the code point. -/
theorem range_any_iff (lo len n : Nat) :
    (List.range' lo len).any (fun a => canonicalize true a == canonicalize true n) = true ↔
      ∃ a, lo ≤ a ∧ a < lo + len ∧ canonicalize true a = canonicalize true n := by
  simp only [List.any_eq_true, List.mem_range', beq_iff_eq]
  constructor
  · rintro ⟨a, ⟨i, hi, rfl⟩, h⟩
    exact ⟨lo + 1 * i, by omega, by omega, h⟩
  · rintro ⟨a, h1, h2, h⟩
    exact ⟨a, ⟨a - lo, by omega, by omega⟩, h⟩

theorem classTest_digit (c : Char) : classTest true [.digit] c = true ↔ c.isDigit = true := by
  rw [char_isDigit_iff]
  simp only [classTest, List.any_cons, List.any_nil, Bool.or_false, ClassItem.members]
  rw [range_any_iff]
  simp only [canonicalize_true]
  constructor
  · rintro ⟨a, h1, h2, h⟩
    split_ifs at h <;> omega
  · intro h
    exact ⟨c.toNat, by omega, by omega, rfl⟩

theorem classTest_letter (c : Char) :
    classTest true [.range 'a' 'z'] c = true ↔ c.isAlpha = true := by
  simp only [Char.isAlpha, Bool.or_eq_true, char_isUpper_iff, char_isLower_iff]
  simp only [classTest, List.any_cons, List.any_nil, Bool.or_false, ClassItem.members]
  have hlo : ('a' : Char).toNat = 97 := rfl
  have hhi : ('z' : Char).toNat = 122 := rfl
  rw [hlo, hhi, range_any_iff]
  simp only [canonicalize_true]
  constructor
  · rintro ⟨a, h1, h2, h⟩
    split_ifs at h <;> omega
  · rintro (h | h)
    · refine ⟨c.toNat + 32, by omega, by omega, ?_⟩
      rw [if_pos (by omega), if_neg (by omega)]
      omega
    · exact ⟨c.toNat, by omega, by omega, rfl⟩

theorem char_eq_iff_toNat (c x : Char) : c = x ↔ c.toNat = x.toNat :=
  ⟨fun h => by rw [h], char_eq_of_toNat_eq c x⟩

theorem isLocalPartChar_iff (c : Char) :
    isLocalPartChar c = true ↔
      ((65 ≤ c.toNat ∧ c.toNat ≤ 90) ∨ (97 ≤ c.toNat ∧ c.toNat ≤ 122)) ∨
        (48 ≤ c.toNat ∧ c.toNat ≤ 57) ∨ c.toNat = 46 ∨ c.toNat = 95 ∨ c.toNat = 45 := by
  have h1 : ('.' : Char).toNat = 46 := rfl
  have h2 : ('_' : Char).toNat = 95 := rfl
  have h3 : ('-' : Char).toNat = 45 := rfl
  simp only [isLocalPartChar, Char.isAlphanum, Char.isAlpha, Bool.or_eq_true, beq_iff_eq,
    char_isUpper_iff, char_isLower_iff, char_isDigit_iff, char_eq_iff_toNat, h1, h2, h3]
  tauto

/-- The class `[a-zA-Z0-9._-]` under flag `i` holds exactly the characters the
specification lists. -/
theorem classTest_local (c : Char) :
    classTest true [.range 'a' 'z', .range 'A' 'Z', .range '0' '9', .char '.', .char '_',
      .char '-'] c = true ↔ isLocalPartChar c = true := by
  rw [isLocalPartChar_iff]
  have e1 : ('a' : Char).toNat = 97 := rfl
  have e2 : ('z' : Char).toNat = 122 := rfl
  have e3 : ('A' : Char).toNat = 65 := rfl
  have e4 : ('Z' : Char).toNat = 90 := rfl
  have e5 : ('0' : Char).toNat = 48 := rfl
  have e6 : ('9' : Char).toNat = 57 := rfl
  have e7 : ('.' : Char).toNat = 46 := rfl
  have e8 : ('_' : Char).toNat = 95 := rfl
  have e9 : ('-' : Char).toNat = 45 := rfl
  simp only [classTest, List.any_cons, List.any_nil, Bool.or_false, ClassItem.members,
    Bool.or_eq_true, e1, e2, e3, e4, e5, e6, e7, e8, e9, beq_iff_eq]
  rw [range_any_iff, range_any_iff, range_any_iff]
  simp only [canonicalize_true]
  constructor
  · rintro (⟨a, h1, h2, h⟩ | ⟨a, h1, h2, h⟩ | ⟨a, h1, h2, h⟩ | h | h | h) <;>
      split_ifs at h <;> omega
  · rintro ((h | h) | h | h | h | h)
    · exact Or.inr (Or.inl ⟨c.toNat, by omega, by omega, rfl⟩)
    · exact Or.inl ⟨c.toNat, by omega, by omega, rfl⟩
    · exact Or.inr (Or.inr (Or.inl ⟨c.toNat, by omega, by omega, rfl⟩))
    · refine Or.inr (Or.inr (Or.inr (Or.inl ?_)))
      rw [h]
    · refine Or.inr (Or.inr (Or.inr (Or.inr (Or.inl ?_))))
      rw [h]
    · refine Or.inr (Or.inr (Or.inr (Or.inr (Or.inr ?_))))
      rw [h]

/-- A single pattern character that is not an upper-case letter matches, under flag `i`,
exactly the characters whose ASCII lower case it is. -/
theorem classTest_char (x c : Char) (hx : ¬ (65 ≤ x.toNat ∧ x.toNat ≤ 90)) :
    classTest true [.char x] c = true ↔ c.toLower = x := by
  rw [char_eq_iff_toNat, char_toLower_toNat]
  simp only [classTest, List.any_cons, List.any_nil, Bool.or_false, ClassItem.members,
    beq_iff_eq, canonicalize_true]
  constructor
  · intro h; split_ifs at h ⊢ <;> omega
  · intro h; split_ifs at h ⊢ <;> omega

theorem matchPieces_lit (x : Char) (rest : List Piece) (s : List Char) :
    matchPieces true (lit x :: rest) s = true ↔
      ∃ c t, s = c :: t ∧ classTest true [.char x] c = true
        ∧ matchPieces true rest t = true := by
  simp only [matchPieces, lit]
  rw [matchN_iff]
  constructor
  · rintro ⟨a, b, hab, hlen, ha, hk⟩
    obtain ⟨c, hc⟩ := List.length_eq_one.mp hlen
    rw [hc] at hab ha
    exact ⟨c, b, hab, ha c (List.mem_singleton_self c), hk⟩
  · rintro ⟨c, t, hs, hc, hk⟩
    refine ⟨[c], t, hs, rfl, ?_, hk⟩
    intro y hy
    rw [List.mem_singleton.mp hy]; exact hc

/-- A run of literal pattern characters, none an upper-case letter, followed by `$`,
matches exactly the strings whose ASCII lower case is the run. -/
theorem matchPieces_lits (xs : List Char) (hxs : ∀ x ∈ xs, ¬ (65 ≤ x.toNat ∧ x.toNat ≤ 90))
    (d : List Char) :
    matchPieces true (xs.map lit) d = true ↔ d.map Char.toLower = xs := by
  induction xs generalizing d with
  | nil =>
    cases d <;> simp [matchPieces]
  | cons x xs ih =>
    rw [List.map_cons, matchPieces_lit]
    have hx := hxs x (List.mem_cons_self _ _)
    have hrest : ∀ y ∈ xs, ¬ (65 ≤ y.toNat ∧ y.toNat ≤ 90) :=
      fun y hy => hxs y (List.mem_cons_of_mem _ hy)
    constructor
    · rintro ⟨c, t, hs, hc, hk⟩
      rw [hs, List.map_cons, (classTest_char x c hx).mp hc, (ih hrest t).mp hk]
    · intro h
      cases d with
      | nil => simp at h
      | cons c t =>
        rw [List.map_cons] at h
        obtain ⟨h1, h2⟩ := List.cons.inj h
        exact ⟨c, t, rfl, (classTest_char x c hx).mpr h1, (ih hrest t).mpr h2⟩

/-- What `isValidIITPEmail` accepts: a non-empty run of local-part characters followed by
`@iitp.ac.in` in any letter case. -/
theorem isValidIITPEmail_iff (s : String) :
    isValidIITPEmail s = true ↔
      ∃ localPart domain : List Char, s.toList = localPart ++ domain ∧ localPart ≠ [] ∧
        (∀ c ∈ localPart, isLocalPartChar c = true) ∧
        domain.map Char.toLower = "@iitp.ac.in".toList := by
  have hpieces : emailRegex.pieces =
      ⟨[.range 'a' 'z', .range 'A' 'Z', .range '0' '9', .char '.', .char '_', .char '-'],
        .atLeast 1⟩ :: ("@iitp.ac.in".toList.map lit) := rfl
  have hic : emailRegex.ignoreCase = true := rfl
  have hlits : ∀ x ∈ "@iitp.ac.in".toList, ¬ (65 ≤ x.toNat ∧ x.toNat ≤ 90) := by decide
  simp only [isValidIITPEmail, Regex.test, hpieces, hic, matchPieces]
  rw [matchN_iff]
  constructor
  · rintro ⟨a, b, hab, hlen, ha, hk⟩
    obtain ⟨a2, d, hb, ha2, hd⟩ := (matchMany_iff _ _ _).mp hk
    refine ⟨a ++ a2, d, by rw [hab, hb, List.append_assoc], ?_, ?_,
      (matchPieces_lits _ hlits d).mp hd⟩
    · intro h
      rw [(List.append_eq_nil.mp h).1] at hlen
      cases hlen
    · intro c hc
      rcases List.mem_append.mp hc with h | h
      · exact (classTest_local c).mp (ha c h)
      · exact (classTest_local c).mp (ha2 c h)
  · rintro ⟨lp, d, hs, hne, hlp, hd⟩
    cases lp with
    | nil => exact absurd rfl hne
    | cons c lp' =>
      refine ⟨[c], lp' ++ d, by rw [hs]; rfl, rfl, ?_, ?_⟩
      · intro y hy
        rw [List.mem_singleton.mp hy]
        exact (classTest_local c).mpr (hlp c (List.mem_cons_self _ _))
      · exact (matchMany_iff _ _ _).mpr ⟨lp', d, rfl,
          fun y hy => (classTest_local y).mpr (hlp y (List.mem_cons_of_mem _ hy)),
          (matchPieces_lits _ hlits d).mpr hd⟩

/-! ## Splitting -/

theorem splitOn_ne_nil (sep : Char) (l : List Char) : splitOn sep l ≠ [] := by
  cases l with
  | nil => simp [splitOn]
  | cons c t =>
    unfold splitOn
    split_ifs
    · simp
    · cases splitOn sep t <;> simp

/-- The first segment of a split is what precedes the first separator. -/
theorem splitOn_head (sep : Char) (l : List Char) :
    (splitOn sep l).headD [] = l.takeWhile (fun c => c != sep) := by
  induction l with
  | nil => rfl
  | cons c t ih =>
    unfold splitOn
    by_cases h : c = sep
    · simp [h]
    · rw [if_neg h]
      have hc : (c != sep) = true := by simpa using h
      rw [List.takeWhile_cons, hc, if_pos rfl, ← ih]
      cases hs : splitOn sep t with
      | nil => exact absurd hs (splitOn_ne_nil sep t)
      | cons seg segs => rfl

/-- A split has one segment more than there are separators. -/
theorem splitOn_length (sep : Char) (l : List Char) :
    (splitOn sep l).length = l.count sep + 1 := by
  induction l with
  | nil => rfl
  | cons c t ih =>
    unfold splitOn
    by_cases h : c = sep
    · simp [h, ih]
    · rw [if_neg h]
      have hc : (c == sep) = false := by simpa using h
      rw [List.count_cons, hc]
      simp only [Bool.false_eq_true, if_false, Nat.add_zero]
      rw [← ih]
      cases hs : splitOn sep t with
      | nil => exact absurd hs (splitOn_ne_nil sep t)
      | cons seg segs => simp

/-- Joining the segments of a split with the separator gives the string back. -/
theorem joinWith_splitOn (sep : Char) (l : List Char) : joinWith sep (splitOn sep l) = l := by
  induction l with
  | nil => rfl
  | cons c t ih =>
    unfold splitOn
    by_cases h : c = sep
    · rw [if_pos h]
      cases hs : splitOn sep t with
      | nil => exact absurd hs (splitOn_ne_nil sep t)
      | cons seg segs =>
        rw [hs] at ih
        simp only [joinWith, List.nil_append, ih, h]
    · rw [if_neg h]
      cases hs : splitOn sep t with
      | nil => exact absurd hs (splitOn_ne_nil sep t)
      | cons seg segs =>
        rw [hs] at ih
        cases segs with
        | nil =>
          simp only [joinWith] at ih ⊢
          rw [ih]
        | cons seg2 segs2 =>
          simp only [joinWith] at ih ⊢
          rw [List.cons_append, ih]

/-- No segment of a split holds the separator. -/
theorem splitOn_no_sep (sep : Char) (l : List Char) :
    ∀ seg ∈ splitOn sep l, sep ∉ seg := by
  induction l with
  | nil =>
    intro seg hseg
    simp only [splitOn, List.mem_singleton] at hseg
    rw [hseg]; simp
  | cons c t ih =>
    intro seg hseg
    unfold splitOn at hseg
    by_cases h : c = sep
    · rw [if_pos h] at hseg
      rcases List.mem_cons.mp hseg with h1 | h1
      · rw [h1]; simp
      · exact ih seg h1
    · rw [if_neg h] at hseg
      cases hs : splitOn sep t with
      | nil => exact absurd hs (splitOn_ne_nil sep t)
      | cons seg0 segs =>
        rw [hs] at hseg ih
        rcases List.mem_cons.mp hseg with h1 | h1
        · rw [h1]
          intro hmem
          rcases List.mem_cons.mp hmem with h2 | h2
          · exact h h2.symm
          · exact ih seg0 (List.mem_cons_self _ _) h2
        · exact ih seg (List.mem_cons_of_mem _ h1)

/-- With at least two segments, the joined segments are the joined segments but the last,
the separator, and the last segment. -/
theorem joinWith_dropLast (sep : Char) (parts : List (List Char)) (h : 2 ≤ parts.length) :
    joinWith sep parts = joinWith sep parts.dropLast ++ sep :: parts.getLastD [] := by
  induction parts with
  | nil => simp at h
  | cons a rest ih =>
    cases rest with
    | nil => simp at h
    | cons b rest2 =>
      cases rest2 with
      | nil => simp [joinWith, List.dropLast]
      | cons c rest3 =>
        have ih2 := ih (by simp)
        have hd : (a :: b :: c :: rest3).dropLast = a :: (b :: c :: rest3).dropLast := rfl
        have hd2 : (b :: c :: rest3).dropLast = b :: (c :: rest3).dropLast := rfl
        have hj : ∀ (x y : List Char) (ys : List (List Char)),
            joinWith sep (x :: y :: ys) = x ++ sep :: joinWith sep (y :: ys) :=
          fun _ _ _ => rfl
        rw [hd, hj a b (c :: rest3), ih2, hd2, hj a b (c :: rest3).dropLast]
        simp only [List.getLastD_cons, List.append_assoc, List.cons_append]

theorem getLastD_mem_cons (rest : List (List Char)) (d : List Char) :
    rest.getLastD d ∈ d :: rest := by
  induction rest generalizing d with
  | nil => simp
  | cons x r ih =>
    rw [List.getLastD_cons]
    exact List.mem_cons_of_mem _ (ih x)

theorem getLastD_mem (parts : List (List Char)) (h : parts ≠ []) :
    parts.getLastD [] ∈ parts := by
  cases parts with
  | nil => exact absurd rfl h
  | cons a rest =>
    rw [List.getLastD_cons]
    exact getLastD_mem_cons rest a

theorem takeWhile_append_sep (sep : Char) (a b : List Char) (ha : sep ∉ a) :
    (a ++ sep :: b).takeWhile (fun c => c != sep) = a := by
  induction a with
  | nil => simp
  | cons x a ih =>
    have hx : (x != sep) = true := by
      simp only [bne_iff_ne, ne_eq]
      intro h; exact ha (by rw [h]; exact List.mem_cons_self _ _)
    rw [List.cons_append, List.takeWhile_cons, hx, if_pos rfl,
      ih (fun h => ha (List.mem_cons_of_mem _ h))]

theorem dropWhile_append_sep (sep : Char) (a b : List Char) (ha : sep ∉ a) :
    (a ++ sep :: b).dropWhile (fun c => c != sep) = sep :: b := by
  induction a with
  | nil => simp
  | cons x a ih =>
    have hx : (x != sep) = true := by
      simp only [bne_iff_ne, ne_eq]
      intro h; exact ha (by rw [h]; exact List.mem_cons_self _ _)
    rw [List.cons_append, List.dropWhile_cons, hx, if_pos rfl,
      ih (fun h => ha (List.mem_cons_of_mem _ h))]

/-- The segment after the last separator of `pre ++ sep :: seg`, when `seg` has none. -/
theorem afterLast_append (sep : Char) (pre seg : List Char) (hseg : sep ∉ seg) :
    afterLast sep (pre ++ sep :: seg) = seg := by
  unfold afterLast
  rw [List.reverse_append, List.reverse_cons, List.append_assoc, List.singleton_append,
    takeWhile_append_sep sep _ _ (by simpa using hseg), List.reverse_reverse]

theorem beforeLast_append (sep : Char) (pre seg : List Char) (hseg : sep ∉ seg) :
    beforeLast sep (pre ++ sep :: seg) = pre := by
  unfold beforeLast
  rw [List.reverse_append, List.reverse_cons, List.append_assoc, List.singleton_append,
    dropWhile_append_sep sep _ _ (by simpa using hseg)]
  simp

/-- The parts of a local part with an underscore: the code's `name` and `rollNumber` are
what precedes and what follows the last underscore. -/
theorem splitOn_last (sep : Char) (l : List Char) (h : 2 ≤ (splitOn sep l).length) :
    (splitOn sep l).getLastD [] = afterLast sep l ∧
    joinWith sep (splitOn sep l).dropLast = beforeLast sep l ∧
    l = joinWith sep (splitOn sep l).dropLast ++ sep :: (splitOn sep l).getLastD [] := by
  have hjoin := joinWith_dropLast sep (splitOn sep l) h
  rw [joinWith_splitOn] at hjoin
  have hno : sep ∉ (splitOn sep l).getLastD [] :=
    splitOn_no_sep sep l _ (getLastD_mem _ (splitOn_ne_nil sep l))
  refine ⟨?_, ?_, hjoin⟩
  · conv_rhs => rw [hjoin]
    exact (afterLast_append sep _ _ hno).symm
  · conv_rhs => rw [hjoin]
    exact (beforeLast_append sep _ _ hno).symm

/-! ## The identity parser -/

/-- The roll-number pattern accepts exactly the code grammar. -/
theorem rollNumberRegex_test (seg : List Char) :
    rollNumberRegex.test (String.mk seg) = isRollCode seg := by
  have hmany : ∀ s : List Char,
      matchMany (classTest true [.digit]) (fun x => x.isEmpty) s = s.all Char.isDigit := by
    intro s
    induction s with
    | nil => rfl
    | cons c t ih =>
      have hd : classTest true [.digit] c = c.isDigit := by
        rw [Bool.eq_iff_iff]; exact classTest_digit c
      simp only [matchMany, ih, hd, List.all_cons, List.isEmpty_cons, Bool.or_false]
  rw [Bool.eq_iff_iff]
  simp only [Regex.test, rollNumberRegex, matchPieces, String.toList, isRollCode,
    Bool.and_eq_true, decide_eq_true_eq, List.all_eq_true]
  rw [matchN_iff]
  constructor
  · rintro ⟨a, b, hab, hlen, ha, hk⟩
    obtain ⟨a2, b2, hb, hlen2, ha2, hk2⟩ := (matchN_iff _ _ _ _).mp hk
    simp only [matchN] at hk2
    rw [hmany, List.all_eq_true] at hk2
    subst hb
    subst hab
    have ht : (a ++ (a2 ++ b2)).take 4 = a := by
      rw [← hlen]; exact List.take_left _ _
    have hdr : (a ++ (a2 ++ b2)).drop 4 = a2 ++ b2 := by
      rw [← hlen]; exact List.drop_left _ _
    have hdr6 : (a ++ (a2 ++ b2)).drop 6 = b2 := by
      have : (a ++ (a2 ++ b2)).drop 6 = ((a ++ (a2 ++ b2)).drop 4).drop 2 := by
        rw [List.drop_drop]
      rw [this, hdr, ← hlen2]; exact List.drop_left _ _
    have ht2 : (a2 ++ b2).take 2 = a2 := by
      rw [← hlen2]; exact List.take_left _ _
    refine ⟨⟨⟨?_, ?_⟩, ?_⟩, ?_⟩
    · simp only [List.length_append]; omega
    · rw [ht]; intro c hc; exact (classTest_digit c).mp (ha c hc)
    · rw [hdr, ht2]; intro c hc; exact (classTest_letter c).mp (ha2 c hc)
    · rw [hdr6]; exact hk2
  · rintro ⟨⟨⟨hlen, hd⟩, hl⟩, hr⟩
    refine ⟨seg.take 4, seg.drop 4, (List.take_append_drop 4 seg).symm, ?_, ?_, ?_⟩
    · rw [List.length_take]; omega
    · intro c hc; exact (classTest_digit c).mpr (hd c hc)
    · rw [matchN_iff]
      refine ⟨(seg.drop 4).take 2, (seg.drop 4).drop 2,
        (List.take_append_drop 2 _).symm, ?_, ?_, ?_⟩
      · rw [List.length_take, List.length_drop]; omega
      · intro c hc; exact (classTest_letter c).mpr (hl c hc)
      · simp only [matchN]
        rw [hmany, List.drop_drop, List.all_eq_true]
        exact hr

/-- The four outcomes of `extractStudentInfo`, in the specification's words: the domain
check, the underscore check, the code grammar, and the object built from what precedes and
what follows the last underscore of the local part. -/
theorem extractStudentInfo_eq (toLowerCase : String → String) (email : String) :
    extractStudentInfo toLowerCase email =
      if isValidIITPEmail email = false then
        .invalid "Invalid IIT Patna email format"
      else if '_' ∉ localPartOf email then
        .invalid "Email format does not match expected pattern (name_rollnumber)"
      else if isRollCode (afterLast '_' (localPartOf email)) = false then
        .invalid "Roll number format is invalid. Expected format: YYDDBBXX (e.g., 2301mc40)"
      else
        .valid (studentInfoFrom toLowerCase email (beforeLast '_' (localPartOf email))
          (afterLast '_' (localPartOf email))) := by
  unfold extractStudentInfo
  by_cases hv : isValidIITPEmail email = false
  · simp only [hv, Bool.not_false, if_true]
  · rw [if_neg hv]
    have hv2 : isValidIITPEmail email = true := by simpa using hv
    simp only [hv2, Bool.not_true, Bool.false_eq_true, if_false]
    have hlp : (splitOn '@' email.toList).headD [] = localPartOf email :=
      splitOn_head '@' email.toList
    rw [hlp]
    have hlen := splitOn_length '_' (localPartOf email)
    by_cases hu : '_' ∉ localPartOf email
    · rw [if_pos hu]
      have hc : (localPartOf email).count '_' = 0 := List.count_eq_zero.mpr hu
      rw [if_pos (by omega)]
    · rw [if_neg hu]
      have hc : 0 < (localPartOf email).count '_' := by
        rw [List.count_pos_iff]; simpa using hu
      have h2 : 2 ≤ (splitOn '_' (localPartOf email)).length := by omega
      rw [if_neg (by omega)]
      obtain ⟨hroll, hname, _⟩ := splitOn_last '_' (localPartOf email) h2
      rw [hroll, hname, rollNumberRegex_test]
      by_cases hr : isRollCode (afterLast '_' (localPartOf email)) = false
      · simp only [hr, Bool.not_false, if_true]
      · rw [if_neg hr]
        have hr2 : isRollCode (afterLast '_' (localPartOf email)) = true := by simpa using hr
        simp only [hr2, Bool.not_true, Bool.false_eq_true, if_false]
        rfl

theorem domain_codes (d : List Char) (hd : d.map Char.toLower = "@iitp.ac.in".toList)
    (c : Char) (hc : c ∈ d) :
    c.toLower.toNat ∈ [64, 105, 116, 112, 46, 97, 99, 110] := by
  have h1 : c.toLower ∈ "@iitp.ac.in".toList := by
    rw [← hd]; exact List.mem_map_of_mem _ hc
  have h2 := List.mem_map_of_mem Char.toNat h1
  have h3 : "@iitp.ac.in".toList.map Char.toNat
      = [64, 105, 105, 116, 112, 46, 97, 99, 46, 105, 110] := rfl
  rw [h3] at h2
  simp only [List.mem_cons, List.mem_singleton, List.not_mem_nil, or_false] at h2 ⊢
  omega

theorem isWhitespace_iff (c : Char) :
    c.isWhitespace = true ↔ c.toNat = 32 ∨ c.toNat = 9 ∨ c.toNat = 13 ∨ c.toNat = 10 := by
  have h1 : (' ' : Char).toNat = 32 := rfl
  have h2 : ('\t' : Char).toNat = 9 := rfl
  have h3 : ('\r' : Char).toNat = 13 := rfl
  have h4 : ('\n' : Char).toNat = 10 := rfl
  simp only [Char.isWhitespace, Bool.or_eq_true, decide_eq_true_eq, char_eq_iff_toNat,
    h1, h2, h3, h4]
  tauto

theorem count_at_domain (d : List Char) (hd : d.map Char.toLower = "@iitp.ac.in".toList) :
    d.count '@' = 1 := by
  have hfun : ((fun c : Char => c == '@') ∘ Char.toLower) = (fun c : Char => c == '@') := by
    funext c
    have e : ('@' : Char).toNat = 64 := rfl
    simp only [Function.comp]
    rw [Bool.eq_iff_iff]
    simp only [beq_iff_eq, char_eq_iff_toNat, char_toLower_toNat, e]
    constructor
    · intro h; split_ifs at h <;> omega
    · intro h; split_ifs <;> omega
  have h1 : ("@iitp.ac.in".toList).count '@' = 1 := by decide
  rw [← hd] at h1
  unfold List.count at h1 ⊢
  rw [List.countP_map] at h1
  have hbeq : ∀ l : List Char, List.countP (fun x => x == '@') l
      = List.countP ((fun c : Char => c == '@') ∘ Char.toLower) l := by
    intro l; rw [hfun]
  rw [hbeq]
  exact h1

/-- C8. Domain check.  `isValidIITPEmail(s)` is true exactly when the whole string is a
non-empty run of characters from `A-Z`, `a-z`, `0-9`, `.`, `_`, `-` followed by
`@iitp.ac.in` compared case-insensitively.  Hence an accepted string has exactly one `@` and
no white-space character, and an address on a subdomain, on a longer domain, with an empty
local part, with a second `@`, or with leading or trailing white space or newline is
rejected. -/
theorem isValidIITPEmail_spec :
    (∀ s : String, isValidIITPEmail s = true ↔
      ∃ localPart domain : List Char, s.toList = localPart ++ domain ∧ localPart ≠ [] ∧
        (∀ c ∈ localPart, isLocalPartChar c = true) ∧
        domain.map Char.toLower = "@iitp.ac.in".toList) ∧
    (∀ s : String, isValidIITPEmail s = true → s.toList.count '@' = 1) ∧
    (∀ s : String, isValidIITPEmail s = true → ∀ c ∈ s.toList, c.isWhitespace = false) ∧
    isValidIITPEmail "anish_2301mc40@IITP.ac.in" = true ∧
    isValidIITPEmail "x@mail.iitp.ac.in" = false ∧
    isValidIITPEmail "x@iitp.ac.in.evil.com" = false ∧
    isValidIITPEmail "@iitp.ac.in" = false ∧
    isValidIITPEmail "x@y@iitp.ac.in" = false ∧
    isValidIITPEmail " x@iitp.ac.in" = false ∧
    isValidIITPEmail "x@iitp.ac.in " = false ∧
    isValidIITPEmail "\nx@iitp.ac.in" = false ∧
    isValidIITPEmail "x@iitp.ac.in\n" = false := by
  refine ⟨isValidIITPEmail_iff, ?_, ?_, by decide, by decide, by decide, by decide, by decide,
    by decide, by decide, by decide, by decide⟩
  · intro s hs
    obtain ⟨lp, d, hsplit, _, hlp, hd⟩ := (isValidIITPEmail_iff s).mp hs
    have h0 : lp.count '@' = 0 := by
      rw [List.count_eq_zero]
      intro hmem
      have := hlp '@' hmem
      revert this
      decide
    rw [hsplit, List.count_append, h0, count_at_domain d hd]
  · intro s hs c hc
    obtain ⟨lp, d, hsplit, _, hlp, hd⟩ := (isValidIITPEmail_iff s).mp hs
    rw [hsplit] at hc
    rw [Bool.eq_false_iff]
    intro hw
    rw [isWhitespace_iff] at hw
    rcases List.mem_append.mp hc with h | h
    · have := (isLocalPartChar_iff c).mp (hlp c h)
      omega
    · have := domain_codes d hd c h
      rw [char_toLower_toNat] at this
      simp only [List.mem_cons, List.mem_singleton, List.not_mem_nil, or_false] at this
      split_ifs at this <;> omega

/-- C9. Malformed local part.  `extractStudentInfo` returns `valid: false` with the error
`Email format does not match expected pattern (name_rollnumber)` exactly for the emails that
`isValidIITPEmail` accepts and whose local part contains no underscore; `bad@iitp.ac.in` is
one of them. -/
theorem extractStudentInfo_malformed_local_part (toLowerCase : String → String) :
    (∀ email : String,
      extractStudentInfo toLowerCase email
          = .invalid "Email format does not match expected pattern (name_rollnumber)" ↔
        (isValidIITPEmail email = true ∧ '_' ∉ localPartOf email)) ∧
    extractStudentInfo toLowerCase "bad@iitp.ac.in"
      = .invalid "Email format does not match expected pattern (name_rollnumber)" := by
  have hiff : ∀ email : String,
      extractStudentInfo toLowerCase email
          = .invalid "Email format does not match expected pattern (name_rollnumber)" ↔
        (isValidIITPEmail email = true ∧ '_' ∉ localPartOf email) := by
    intro email
    rw [extractStudentInfo_eq]
    by_cases hv : isValidIITPEmail email = false
    · rw [if_pos hv]
      constructor
      · intro h
        have h2 := ParseResult.invalid.inj h
        exact absurd h2 (by decide)
      · rintro ⟨h, _⟩; rw [hv] at h; cases h
    · rw [if_neg hv]
      have hv2 : isValidIITPEmail email = true := by simpa using hv
      by_cases hu : '_' ∉ localPartOf email
      · rw [if_pos hu]
        exact ⟨fun _ => ⟨hv2, hu⟩, fun _ => rfl⟩
      · rw [if_neg hu]
        constructor
        · intro h
          exfalso
          split_ifs at h
          · have h2 := ParseResult.invalid.inj h
            exact absurd h2 (by decide)
        · rintro ⟨_, h⟩; exact absurd h hu
  exact ⟨hiff, (hiff "bad@iitp.ac.in").mpr ⟨by decide, by decide⟩⟩

/-- C10. Code grammar.  For every email accepted by `isValidIITPEmail` whose local part
contains at least one underscore, `extractStudentInfo` returns `valid: true` exactly when
the segment after the last underscore is 4 decimal digits, then 2 letters (`A-Z` or `a-z`),
then zero or more decimal digits and nothing else; otherwise it returns `valid: false` with
the error `Roll number format is invalid. Expected format: YYDDBBXX (e.g., 2301mc40)`. -/
theorem extractStudentInfo_code_grammar (toLowerCase : String → String) (email : String)
    (hvalid : isValidIITPEmail email = true) (hunder : '_' ∈ localPartOf email) :
    ((∃ info, extractStudentInfo toLowerCase email = .valid info) ↔
      isRollCode (afterLast '_' (localPartOf email)) = true) ∧
    (isRollCode (afterLast '_' (localPartOf email)) = false →
      extractStudentInfo toLowerCase email = .invalid
        "Roll number format is invalid. Expected format: YYDDBBXX (e.g., 2301mc40)") := by
  rw [extractStudentInfo_eq, if_neg (by simp [hvalid]), if_neg (by simpa using hunder)]
  by_cases hr : isRollCode (afterLast '_' (localPartOf email)) = false
  · rw [if_pos hr]
    refine ⟨⟨?_, ?_⟩, fun _ => rfl⟩
    · rintro ⟨info, h⟩; cases h
    · intro h; rw [hr] at h; cases h
  · rw [if_neg hr]
    have hr2 : isRollCode (afterLast '_' (localPartOf email)) = true := by simpa using hr
    exact ⟨⟨fun _ => hr2, fun _ => ⟨_, rfl⟩⟩, fun h => absurd h hr⟩

theorem extractStudentInfo_code_grammar_witness :
    ((∃ info, extractStudentInfo asciiLower "anish_2301mc40@iitp.ac.in" = .valid info) ↔
      isRollCode (afterLast '_' (localPartOf "anish_2301mc40@iitp.ac.in")) = true) ∧
    (isRollCode (afterLast '_' (localPartOf "anish_2301mc40@iitp.ac.in")) = false →
      extractStudentInfo asciiLower "anish_2301mc40@iitp.ac.in" = .invalid
        "Roll number format is invalid. Expected format: YYDDBBXX (e.g., 2301mc40)") :=
  extractStudentInfo_code_grammar asciiLower "anish_2301mc40@iitp.ac.in" (by decide)
    (by decide)

/-! ## The fields of an accepted address -/

/-- An accepted address passed the three checks, and the object returned is built from what
precedes and what follows the last underscore of its local part. -/
theorem extractStudentInfo_valid_inv (toLowerCase : String → String) (email : String)
    (info : StudentInfo) (h : extractStudentInfo toLowerCase email = .valid info) :
    isValidIITPEmail email = true ∧ '_' ∈ localPartOf email ∧
    isRollCode (afterLast '_' (localPartOf email)) = true ∧
    info = studentInfoFrom toLowerCase email (beforeLast '_' (localPartOf email))
      (afterLast '_' (localPartOf email)) := by
  rw [extractStudentInfo_eq] at h
  by_cases hv : isValidIITPEmail email = false
  · rw [if_pos hv] at h; cases h
  · rw [if_neg hv] at h
    by_cases hu : '_' ∉ localPartOf email
    · rw [if_pos hu] at h; cases h
    · rw [if_neg hu] at h
      by_cases hr : isRollCode (afterLast '_' (localPartOf email)) = false
      · rw [if_pos hr] at h; cases h
      · rw [if_neg hr] at h
        exact ⟨by simpa using hv, by simpa using hu, by simpa using hr,
          (ParseResult.valid.inj h).symm⟩

/-- The shape of a string of the code grammar. -/
theorem isRollCode_shape (seg : List Char) (h : isRollCode seg = true) :
    ∃ c1 c2 c3 c4 l1 l2 rest, seg = c1 :: c2 :: c3 :: c4 :: l1 :: l2 :: rest ∧
      c1.isDigit = true ∧ c2.isDigit = true ∧ c3.isDigit = true ∧ c4.isDigit = true ∧
      l1.isAlpha = true ∧ l2.isAlpha = true ∧ ∀ c ∈ rest, c.isDigit = true := by
  rcases seg with _ | ⟨c1, _ | ⟨c2, _ | ⟨c3, _ | ⟨c4, _ | ⟨l1, _ | ⟨l2, rest⟩⟩⟩⟩⟩⟩ <;>
    simp [isRollCode] at h
  obtain ⟨⟨⟨h1, h2, h3, h4⟩, h5, h6⟩, h7⟩ := h
  exact ⟨c1, c2, c3, c4, l1, l2, rest, rfl, h1, h2, h3, h4, h5, h6, h7⟩

theorem digit_cases (c : Char) (h : c.isDigit = true) :
    c = '0' ∨ c = '1' ∨ c = '2' ∨ c = '3' ∨ c = '4' ∨ c = '5' ∨ c = '6' ∨ c = '7' ∨
      c = '8' ∨ c = '9' := by
  rw [char_isDigit_iff] at h
  obtain ⟨h1, h2⟩ := h
  have e0 : ('0' : Char).toNat = 48 := rfl
  have e1 : ('1' : Char).toNat = 49 := rfl
  have e2 : ('2' : Char).toNat = 50 := rfl
  have e3 : ('3' : Char).toNat = 51 := rfl
  have e4 : ('4' : Char).toNat = 52 := rfl
  have e5 : ('5' : Char).toNat = 53 := rfl
  have e6 : ('6' : Char).toNat = 54 := rfl
  have e7 : ('7' : Char).toNat = 55 := rfl
  have e8 : ('8' : Char).toNat = 56 := rfl
  have e9 : ('9' : Char).toNat = 57 := rfl
  simp only [char_eq_iff_toNat, e0, e1, e2, e3, e4, e5, e6, e7, e8, e9]
  omega

/-- `parseInt` reads a string of two decimal digits as the number it writes. -/
theorem parseInt_two_digits (c1 c2 : Char) (h1 : c1.isDigit = true) (h2 : c2.isDigit = true) :
    parseInt [c1, c2] = some ((decimalValue [c1, c2] : Nat) : Int) := by
  rcases digit_cases c1 h1 with h | h | h | h | h | h | h | h | h | h <;>
    rcases digit_cases c2 h2 with g | g | g | g | g | g | g | g | g | g <;>
    subst h <;> subst g <;> rfl

theorem decimalValue_two_digits (c1 c2 : Char) (h1 : c1.isDigit = true)
    (h2 : c2.isDigit = true) : decimalValue [c1, c2] ≤ 99 := by
  rw [char_isDigit_iff] at h1 h2
  simp only [decimalValue, List.foldl]
  omega

/-- A list holding the separator splits at its last occurrence. -/
theorem split_at_last (sep : Char) (l : List Char) (h : sep ∈ l) :
    l = beforeLast sep l ++ sep :: afterLast sep l ∧ sep ∉ afterLast sep l := by
  have hc : 0 < l.count sep := List.count_pos_iff.mpr h
  have hlen := splitOn_length sep l
  have h2 : 2 ≤ (splitOn sep l).length := by omega
  obtain ⟨hroll, hname, hjoin⟩ := splitOn_last sep l h2
  rw [hroll, hname] at hjoin
  refine ⟨hjoin, ?_⟩
  rw [← hroll]
  exact splitOn_no_sep sep l _ (getLastD_mem _ (splitOn_ne_nil sep l))

/-- C11. Admission year.  For every email that `extractStudentInfo` accepts, the first two
characters of `rollNumber` are decimal digits and `admissionYear` is 2000 plus the number
they write, an integer from 2000 to 2099; it is 2023 for `anish_2301mc40@iitp.ac.in` and 2008
for a roll number starting `08`. -/
theorem extractStudentInfo_admissionYear (toLowerCase : String → String) :
    (∀ (email : String) (info : StudentInfo),
      extractStudentInfo toLowerCase email = .valid info →
        (info.rollNumber.toList.take 2).length = 2 ∧
        (∀ c ∈ info.rollNumber.toList.take 2, c.isDigit = true) ∧
        info.admissionYear
          = some ((2000 + decimalValue (info.rollNumber.toList.take 2) : Nat) : Int) ∧
        2000 ≤ 2000 + decimalValue (info.rollNumber.toList.take 2) ∧
        2000 + decimalValue (info.rollNumber.toList.take 2) ≤ 2099) ∧
    (∃ info, extractStudentInfo toLowerCase "anish_2301mc40@iitp.ac.in" = .valid info ∧
      info.rollNumber = "2301mc40" ∧ info.admissionYear = some 2023) ∧
    (∃ info, extractStudentInfo toLowerCase "x_0801cs1@iitp.ac.in" = .valid info ∧
      info.rollNumber = "0801cs1" ∧ info.admissionYear = some 2008) := by
  refine ⟨?_, ?_, ?_⟩
  · intro email info h
    obtain ⟨_, _, hr, hinfo⟩ := extractStudentInfo_valid_inv toLowerCase email info h
    obtain ⟨c1, c2, c3, c4, l1, l2, rest, hseg, h1, h2, _⟩ := isRollCode_shape _ hr
    rw [hinfo, hseg]
    simp only [studentInfoFrom, String.toList, substring, List.take, List.drop]
    refine ⟨rfl, ?_, ?_, by omega, ?_⟩
    · intro c hc
      rcases List.mem_cons.mp hc with h | h
      · rw [h]; exact h1
      · rw [List.mem_singleton.mp h]; exact h2
    · rw [parseInt_two_digits c1 c2 h1 h2]
      simp only [Option.map_some', Option.some.injEq]
      push_cast
      rfl
    · have := decimalValue_two_digits c1 c2 h1 h2
      omega
  · rw [extractStudentInfo_eq, if_neg (by decide), if_neg (by decide), if_neg (by decide)]
    exact ⟨_, rfl, rfl, rfl⟩
  · rw [extractStudentInfo_eq, if_neg (by decide), if_neg (by decide), if_neg (by decide)]
    exact ⟨_, rfl, rfl, rfl⟩

/-- C14. Name and code split.  For every email that `extractStudentInfo` accepts,
`rollNumber` is the segment of the local part after its last underscore, `name` is
everything before that underscore, and `name + '_' + rollNumber` is the local part of the
input character for character (so the letter case of the input is kept); `name` is `anish`
for `anish_2301mc40@iitp.ac.in` and `a_b` for `a_b_2301mc40@iitp.ac.in`. -/
theorem extractStudentInfo_name_and_code (toLowerCase : String → String) :
    (∀ (email : String) (info : StudentInfo),
      extractStudentInfo toLowerCase email = .valid info →
        info.rollNumber.toList = afterLast '_' (localPartOf email) ∧
        info.name.toList = beforeLast '_' (localPartOf email) ∧
        '_' ∉ info.rollNumber.toList ∧
        info.name.toList ++ '_' :: info.rollNumber.toList = localPartOf email) ∧
    (∃ info, extractStudentInfo toLowerCase "anish_2301mc40@iitp.ac.in" = .valid info ∧
      info.name = "anish" ∧ info.rollNumber = "2301mc40") ∧
    (∃ info, extractStudentInfo toLowerCase "a_b_2301mc40@iitp.ac.in" = .valid info ∧
      info.name = "a_b" ∧ info.rollNumber = "2301mc40") ∧
    (∃ info, extractStudentInfo toLowerCase "Anish_K_2301MC40@IITP.ac.in" = .valid info ∧
      info.name = "Anish_K" ∧ info.rollNumber = "2301MC40") := by
  refine ⟨?_, ?_, ?_, ?_⟩
  · intro email info h
    obtain ⟨_, hu, _, hinfo⟩ := extractStudentInfo_valid_inv toLowerCase email info h
    obtain ⟨hsplit, hno⟩ := split_at_last '_' (localPartOf email) hu
    rw [hinfo]
    exact ⟨rfl, rfl, hno, hsplit.symm⟩
  · rw [extractStudentInfo_eq, if_neg (by decide), if_neg (by decide), if_neg (by decide)]
    exact ⟨_, rfl, rfl, rfl⟩
  · rw [extractStudentInfo_eq, if_neg (by decide), if_neg (by decide), if_neg (by decide)]
    exact ⟨_, rfl, rfl, rfl⟩
  · rw [extractStudentInfo_eq, if_neg (by decide), if_neg (by decide), if_neg (by decide)]
    exact ⟨_, rfl, rfl, rfl⟩

/-- C15. Serial number.  For every email that `extractStudentInfo` accepts, `serialNumber`
is the sentinel `N/A` exactly when `rollNumber` has six characters, and otherwise it is the
non-empty run of decimal digits after the sixth character of `rollNumber` (`40` for
`2301mc40`). -/
theorem extractStudentInfo_serialNumber (toLowerCase : String → String) :
    (∀ (email : String) (info : StudentInfo),
      extractStudentInfo toLowerCase email = .valid info →
        (info.serialNumber = "N/A" ↔ info.rollNumber.toList.length = 6) ∧
        (info.rollNumber.toList.length ≠ 6 →
          info.serialNumber.toList = info.rollNumber.toList.drop 6 ∧
          info.serialNumber.toList ≠ [] ∧
          ∀ c ∈ info.serialNumber.toList, c.isDigit = true)) ∧
    (∃ info, extractStudentInfo toLowerCase "anish_2301mc40@iitp.ac.in" = .valid info ∧
      info.rollNumber = "2301mc40" ∧ info.serialNumber = "40") ∧
    (∃ info, extractStudentInfo toLowerCase "anish_2301mc@iitp.ac.in" = .valid info ∧
      info.rollNumber = "2301mc" ∧ info.serialNumber = "N/A") := by
  refine ⟨?_, ?_, ?_⟩
  · intro email info h
    obtain ⟨_, _, hr, hinfo⟩ := extractStudentInfo_valid_inv toLowerCase email info h
    obtain ⟨c1, c2, c3, c4, l1, l2, rest, hseg, _, _, _, _, _, _, hrest⟩ :=
      isRollCode_shape _ hr
    rw [hinfo, hseg]
    simp only [studentInfoFrom, String.toList, List.drop, List.length_cons]
    have hmk : ∀ l : List Char, String.mk l = "" ↔ l = [] := by
      intro l
      constructor
      · intro hl; exact congrArg String.data hl
      · intro hl; rw [hl]
    cases rest with
    | nil =>
      rw [if_pos rfl]
      exact ⟨⟨fun _ => rfl, fun _ => rfl⟩, fun hne => absurd rfl hne⟩
    | cons d ds =>
      rw [if_neg (by rw [hmk]; simp)]
      refine ⟨⟨?_, ?_⟩, fun _ => ⟨rfl, by simp, hrest⟩⟩
      · intro hna
        have hdata : d :: ds = ['N', '/', 'A'] := congrArg String.data hna
        have hd : d = 'N' := (List.cons.inj hdata).1
        have := hrest d (List.mem_cons_self _ _)
        rw [hd] at this
        exact absurd this (by decide)
      · intro hlen
        simp only [List.length_cons] at hlen
        omega
  · rw [extractStudentInfo_eq, if_neg (by decide), if_neg (by decide), if_neg (by decide)]
    exact ⟨_, rfl, rfl, rfl⟩
  · rw [extractStudentInfo_eq, if_neg (by decide), if_neg (by decide), if_neg (by decide)]
    exact ⟨_, rfl, rfl, rfl⟩

/-! ## The two code tables -/

theorem lookupOr_absent (table : List (String × String)) (code fallback : String)
    (h : ∀ label, (code, label) ∉ table) : lookupOr table code fallback = fallback := by
  have hnone : table.lookup code = none := by
    induction table with
    | nil => rfl
    | cons kv rest ih =>
      obtain ⟨k, v⟩ := kv
      have hk : code ≠ k := by
        intro hck
        exact h v (by rw [hck]; exact List.mem_cons_self _ _)
      have hbeq : (code == k) = false := by simpa using hk
      rw [List.lookup_cons, hbeq]
      exact ih (fun label hmem => h label (List.mem_cons_of_mem _ hmem))
  simp only [lookupOr, hnone]

theorem lookupOr_present (table : List (String × String)) (code label fallback : String)
    (hkeys : (table.map Prod.fst).Nodup) (h : (code, label) ∈ table) :
    lookupOr table code fallback = label := by
  have hsome : table.lookup code = some label := by
    induction table with
    | nil => simp at h
    | cons kv rest ih =>
      obtain ⟨k, v⟩ := kv
      rw [List.map_cons, List.nodup_cons] at hkeys
      rcases List.mem_cons.mp h with heq | hmem
      · obtain ⟨h1, h2⟩ := Prod.mk.inj heq
        rw [List.lookup_cons, h1, h2]
        simp
      · have hk : code ≠ k := by
          intro hck
          have hin : code ∈ rest.map Prod.fst := List.mem_map_of_mem Prod.fst hmem
          rw [hck] at hin
          exact hkeys.1 hin
        have hbeq : (code == k) = false := by simpa using hk
        rw [List.lookup_cons, hbeq]
        exact ih hkeys.2 hmem
  simp only [lookupOr, hsome]

/-- C12. Degree lookup.  For every email that `extractStudentInfo` accepts, `degreeCode` is
the third and fourth characters of `rollNumber`; `degree` is the label of the table when
`degreeCode` is one of its 6 codes and `Unknown Degree (<degreeCode>)` for every other code.
Acceptance never consults the table: every address that passes the domain check, has an
underscore in its local part and a code of the code grammar is accepted. -/
theorem extractStudentInfo_degree (toLowerCase : String → String) :
    DEGREE_CODES = [("01", "B.Tech"), ("02", "B.Tech + M.Tech (Dual Degree)"),
      ("03", "M.Tech"), ("04", "M.Sc"), ("05", "MBA"), ("06", "PhD")] ∧
    (∀ (email : String) (info : StudentInfo),
      extractStudentInfo toLowerCase email = .valid info →
        info.degreeCode.toList = (info.rollNumber.toList.drop 2).take 2 ∧
        (∀ label, (info.degreeCode, label) ∈ DEGREE_CODES → info.degree = label) ∧
        ((∀ label, (info.degreeCode, label) ∉ DEGREE_CODES) →
          info.degree = "Unknown Degree (" ++ info.degreeCode ++ ")")) ∧
    (∀ email : String, isValidIITPEmail email = true → '_' ∈ localPartOf email →
      isRollCode (afterLast '_' (localPartOf email)) = true →
      ∃ info, extractStudentInfo toLowerCase email = .valid info) ∧
    (∃ info, extractStudentInfo toLowerCase "anish_2301mc40@iitp.ac.in" = .valid info ∧
      info.degreeCode = "01" ∧ info.degree = "B.Tech") ∧
    (∃ info, extractStudentInfo toLowerCase "anish_2399mc40@iitp.ac.in" = .valid info ∧
      info.degreeCode = "99" ∧ info.degree = "Unknown Degree (99)") := by
  refine ⟨rfl, ?_, ?_, ?_, ?_⟩
  · intro email info h
    obtain ⟨_, _, hr, hinfo⟩ := extractStudentInfo_valid_inv toLowerCase email info h
    obtain ⟨c1, c2, c3, c4, l1, l2, rest, hseg, _⟩ := isRollCode_shape _ hr
    rw [hinfo, hseg]
    simp only [studentInfoFrom, String.toList, substring, List.take, List.drop]
    refine ⟨trivial, ?_, ?_⟩
    · intro label hmem
      exact lookupOr_present _ _ _ _ (by decide) hmem
    · intro habs
      exact lookupOr_absent _ _ _ habs
  · intro email hv hu hr
    rw [extractStudentInfo_eq, if_neg (by simp [hv]), if_neg (by simpa using hu),
      if_neg (by simp [hr])]
    exact ⟨_, rfl⟩
  · rw [extractStudentInfo_eq, if_neg (by decide), if_neg (by decide), if_neg (by decide)]
    exact ⟨_, rfl, rfl, rfl⟩
  · rw [extractStudentInfo_eq, if_neg (by decide), if_neg (by decide), if_neg (by decide)]
    exact ⟨_, rfl, rfl, rfl⟩

theorem isAlpha_ascii (c : Char) (h : c.isAlpha = true) : c.toNat < 128 := by
  simp only [Char.isAlpha, Bool.or_eq_true, char_isUpper_iff, char_isLower_iff] at h
  omega

/-- The branch code of an accepted address, for a `toLowerCase` that is ASCII lower-casing on
ASCII strings. -/
theorem branchCode_of_shape (toLowerCase : String → String)
    (hascii : ∀ s : String, (∀ c ∈ s.toList, c.toNat < 128) → toLowerCase s = asciiLower s)
    (l1 l2 : Char) (h1 : l1.isAlpha = true) (h2 : l2.isAlpha = true) :
    toLowerCase (String.mk [l1, l2]) = String.mk [l1.toLower, l2.toLower] := by
  rw [hascii]
  · rfl
  · intro c hc
    simp only [String.toList, List.mem_cons, List.mem_singleton, List.not_mem_nil,
      or_false] at hc
    rcases hc with h | h
    · rw [h]; exact isAlpha_ascii l1 h1
    · rw [h]; exact isAlpha_ascii l2 h2

/-- C13. Branch lookup.  For every email that `extractStudentInfo` accepts, `branchCode` is
the fifth and sixth characters of `rollNumber` lower-cased, and `branch` is the label of the
10-entry table for that code, or `Unknown Branch (<branchCode>)` when the code is not in the
table.  Two accepted emails whose branch codes differ only in letter case get the same
`branchCode` and `branch`; `x_2301MC40@iitp.ac.in` and `x_2301mc40@iitp.ac.in` both give
`Mathematics & Computing`.  `toLowerCase` is taken to be ASCII lower-casing on ASCII
strings, as the built-in is. -/
theorem extractStudentInfo_branch (toLowerCase : String → String)
    (hascii : ∀ s : String, (∀ c ∈ s.toList, c.toNat < 128) → toLowerCase s = asciiLower s) :
    BRANCH_CODES.length = 10 ∧
    (∀ (email : String) (info : StudentInfo),
      extractStudentInfo toLowerCase email = .valid info →
        info.branchCode = toLowerCase (String.mk ((info.rollNumber.toList.drop 4).take 2)) ∧
        info.branchCode.toList
          = ((info.rollNumber.toList.drop 4).take 2).map Char.toLower ∧
        (∀ label, (info.branchCode, label) ∈ BRANCH_CODES → info.branch = label) ∧
        ((∀ label, (info.branchCode, label) ∉ BRANCH_CODES) →
          info.branch = "Unknown Branch (" ++ info.branchCode ++ ")")) ∧
    (∀ (email1 email2 : String) (info1 info2 : StudentInfo),
      extractStudentInfo toLowerCase email1 = .valid info1 →
      extractStudentInfo toLowerCase email2 = .valid info2 →
      ((info1.rollNumber.toList.drop 4).take 2).map Char.toLower
        = ((info2.rollNumber.toList.drop 4).take 2).map Char.toLower →
      info1.branchCode = info2.branchCode ∧ info1.branch = info2.branch) ∧
    (∃ info1 info2,
      extractStudentInfo toLowerCase "x_2301MC40@iitp.ac.in" = .valid info1 ∧
      extractStudentInfo toLowerCase "x_2301mc40@iitp.ac.in" = .valid info2 ∧
      info1.branchCode = "mc" ∧ info1.branch = "Mathematics & Computing" ∧
      info2.branchCode = "mc" ∧ info2.branch = "Mathematics & Computing") ∧
    (∃ info, extractStudentInfo toLowerCase "x_2301Zz40@iitp.ac.in" = .valid info ∧
      info.branchCode = "zz" ∧ info.branch = "Unknown Branch (zz)") := by
  have hfields : ∀ (email : String) (info : StudentInfo),
      extractStudentInfo toLowerCase email = .valid info →
      ∃ l1 l2 : Char, (info.rollNumber.toList.drop 4).take 2 = [l1, l2] ∧
        info.branchCode = String.mk [l1.toLower, l2.toLower] ∧
        info.branchCode = toLowerCase (String.mk [l1, l2]) ∧
        info.branch = lookupOr BRANCH_CODES info.branchCode
          ("Unknown Branch (" ++ info.branchCode ++ ")") := by
    intro email info h
    obtain ⟨_, _, hr, hinfo⟩ := extractStudentInfo_valid_inv toLowerCase email info h
    obtain ⟨c1, c2, c3, c4, l1, l2, rest, hseg, _, _, _, _, hl1, hl2, _⟩ :=
      isRollCode_shape _ hr
    refine ⟨l1, l2, ?_, ?_, ?_, ?_⟩
    · rw [hinfo, hseg]; rfl
    · rw [hinfo, hseg]
      exact branchCode_of_shape toLowerCase hascii l1 l2 hl1 hl2
    · rw [hinfo, hseg]; rfl
    · rw [hinfo]; rfl
  have hex : ∀ (email : String) (l1 l2 : Char) (roll : List Char),
      isValidIITPEmail email = true → '_' ∈ localPartOf email →
      isRollCode (afterLast '_' (localPartOf email)) = true →
      afterLast '_' (localPartOf email) = roll →
      (roll.drop 4).take 2 = [l1, l2] →
      ∃ info, extractStudentInfo toLowerCase email = .valid info ∧
        info.branchCode = String.mk [l1.toLower, l2.toLower] ∧
        info.branch = lookupOr BRANCH_CODES (String.mk [l1.toLower, l2.toLower])
          ("Unknown Branch (" ++ String.mk [l1.toLower, l2.toLower] ++ ")") := by
    intro email l1 l2 roll hv hu hr hroll htake
    have hacc : extractStudentInfo toLowerCase email = .valid
        (studentInfoFrom toLowerCase email (beforeLast '_' (localPartOf email))
          (afterLast '_' (localPartOf email))) := by
      rw [extractStudentInfo_eq, if_neg (by simp [hv]), if_neg (by simpa using hu),
        if_neg (by simp [hr])]
    obtain ⟨m1, m2, hm, hcode, _, hbranch⟩ := hfields email _ hacc
    have hm' : (roll.drop 4).take 2 = [m1, m2] := by
      rw [← hroll]; exact hm
    rw [htake] at hm'
    obtain ⟨e1, e2⟩ := List.cons.inj hm'
    have e2' := (List.cons.inj e2).1
    refine ⟨_, hacc, ?_, ?_⟩
    · rw [hcode, e1, e2']
    · rw [hbranch, hcode, e1, e2']
  refine ⟨rfl, ?_, ?_, ?_, ?_⟩
  · intro email info h
    obtain ⟨l1, l2, htake, hcode, hcode2, hbranch⟩ := hfields email info h
    refine ⟨by rw [htake]; exact hcode2, by rw [htake, hcode]; rfl, ?_, ?_⟩
    · intro label hmem
      rw [hbranch]
      exact lookupOr_present _ _ _ _ (by decide) hmem
    · intro habs
      rw [hbranch]
      exact lookupOr_absent _ _ _ habs
  · intro email1 email2 info1 info2 h1 h2 hsame
    obtain ⟨a1, a2, ha, hcodea, _, hbrancha⟩ := hfields email1 info1 h1
    obtain ⟨b1, b2, hb, hcodeb, _, hbranchb⟩ := hfields email2 info2 h2
    rw [ha, hb] at hsame
    have hcode : info1.branchCode = info2.branchCode := by
      rw [hcodea, hcodeb]
      exact congrArg String.mk hsame
    exact ⟨hcode, by rw [hbrancha, hbranchb, hcode]⟩
  · obtain ⟨i1, hi1, hc1, hb1⟩ := hex "x_2301MC40@iitp.ac.in" 'M' 'C' "2301MC40".toList
      (by decide) (by decide) (by decide) (by decide) (by decide)
    obtain ⟨i2, hi2, hc2, hb2⟩ := hex "x_2301mc40@iitp.ac.in" 'm' 'c' "2301mc40".toList
      (by decide) (by decide) (by decide) (by decide) (by decide)
    exact ⟨i1, i2, hi1, hi2, hc1, hb1, hc2, hb2⟩
  · obtain ⟨i1, hi1, hc1, hb1⟩ := hex "x_2301Zz40@iitp.ac.in" 'Z' 'z' "2301Zz40".toList
      (by decide) (by decide) (by decide) (by decide) (by decide)
    exact ⟨i1, hi1, hc1, hb1⟩

theorem extractStudentInfo_branch_witness :
    BRANCH_CODES.length = 10 ∧
    (∀ (email : String) (info : StudentInfo),
      extractStudentInfo asciiLower email = .valid info →
        info.branchCode = asciiLower (String.mk ((info.rollNumber.toList.drop 4).take 2)) ∧
        info.branchCode.toList
          = ((info.rollNumber.toList.drop 4).take 2).map Char.toLower ∧
        (∀ label, (info.branchCode, label) ∈ BRANCH_CODES → info.branch = label) ∧
        ((∀ label, (info.branchCode, label) ∉ BRANCH_CODES) →
          info.branch = "Unknown Branch (" ++ info.branchCode ++ ")")) ∧
    (∀ (email1 email2 : String) (info1 info2 : StudentInfo),
      extractStudentInfo asciiLower email1 = .valid info1 →
      extractStudentInfo asciiLower email2 = .valid info2 →
      ((info1.rollNumber.toList.drop 4).take 2).map Char.toLower
        = ((info2.rollNumber.toList.drop 4).take 2).map Char.toLower →
      info1.branchCode = info2.branchCode ∧ info1.branch = info2.branch) ∧
    (∃ info1 info2,
      extractStudentInfo asciiLower "x_2301MC40@iitp.ac.in" = .valid info1 ∧
      extractStudentInfo asciiLower "x_2301mc40@iitp.ac.in" = .valid info2 ∧
      info1.branchCode = "mc" ∧ info1.branch = "Mathematics & Computing" ∧
      info2.branchCode = "mc" ∧ info2.branch = "Mathematics & Computing") ∧
    (∃ info, extractStudentInfo asciiLower "x_2301Zz40@iitp.ac.in" = .valid info ∧
      info.branchCode = "zz" ∧ info.branch = "Unknown Branch (zz)") :=
  extractStudentInfo_branch asciiLower (fun _ _ => rfl)

/-! ## Tokens: contents, issuance, validation -/

theorem objGet_objSet_same (o : JsObj) (key : String) (v : JsVal) :
    objGet (objSet o key v) key = v := by
  induction o with
  | nil => simp [objSet, objGet]
  | cons kv rest ih =>
    obtain ⟨k, v0⟩ := kv
    by_cases h : k = key
    · simp [objSet, objGet, h]
    · simp [objSet, objGet, h, ih]

theorem objGet_objSet_other (o : JsObj) (key k2 : String) (v : JsVal) (h2 : k2 ≠ key) :
    objGet (objSet o key v) k2 = objGet o k2 := by
  induction o with
  | nil =>
    have : ¬ key = k2 := fun h => h2 h.symm
    simp [objSet, objGet, this]
  | cons kv rest ih =>
    obtain ⟨k, v0⟩ := kv
    have hkey : ¬ key = k2 := fun h => h2 h.symm
    by_cases h : k = key
    · subst h
      simp only [objSet, objGet, if_true, if_neg hkey]
    · by_cases hk : k = k2
      · subst hk
        simp only [objSet, objGet, if_neg h, if_true]
      · simp only [objSet, objGet, if_neg h, if_neg hk, ih]

/-- With a configured secret, `createVerificationToken` returns what `jwt.sign` returns for
the payload and throws what it throws. -/
theorem createVerificationToken_configured (L : Libs) (secret : String) (userData : JsObj)
    (verifiedNow signNow : Nat) (hsecret : secret ≠ "") :
    createVerificationToken L (some secret) userData verifiedNow signNow
      = match L.jwtSignError (assertionPayload userData verifiedNow) secret "1h" with
        | some error => .error error
        | none => .ok (L.jwtSign (assertionPayload userData verifiedNow) secret "1h" signNow)
        := by
  simp only [createVerificationToken, configuredSecret_some secret hsecret]

/-- C17. OTP token contents.  With a configured secret, `createOTPToken(email, otp)` signs,
with `expiresIn: '5m'`, the payload `{ email, hashedOTP, createdAt, expiresAt }` whose
`email` is the email lower-cased, whose `hashedOTP` is `bcrypt.hash(otp, 10)` (so not the
plaintext OTP, a hash being different from its input), whose `createdAt` is the first
reading of the clock and whose `expiresAt` is the second reading plus 300000 ms; for one
time `now` of both readings these are `now` and `now + 300000`. -/
theorem createOTPToken_contents (toLowerCase : String → String) (L : Libs)
    (secret email otp salt : String) (createdNow expiresNow signNow : Nat)
    (hsecret : secret ≠ "") :
    createOTPToken toLowerCase L (some secret) email otp salt createdNow expiresNow signNow
      = .ok (L.jwtSign (otpPayload toLowerCase L email otp salt createdNow expiresNow)
          secret "5m" signNow) ∧
    otpPayload toLowerCase L email otp salt createdNow expiresNow
      = [("email", .str (toLowerCase email)),
         ("hashedOTP", .str (L.bcryptHash otp 10 salt)),
         ("createdAt", .num createdNow),
         ("expiresAt", .num ((expiresNow : Int) + 300000))] ∧
    (L.bcryptHash otp 10 salt ≠ otp →
      objGet (otpPayload toLowerCase L email otp salt createdNow expiresNow) "hashedOTP"
        ≠ .str otp) ∧
    (∀ now : Nat,
      objGet (otpPayload toLowerCase L email otp salt now now) "createdAt" = .num now ∧
      objGet (otpPayload toLowerCase L email otp salt now now) "expiresAt"
        = .num ((now + 300000 : Nat) : Int)) := by
  refine ⟨createOTPToken_configured toLowerCase L secret email otp salt createdNow expiresNow
    signNow hsecret, rfl, ?_, ?_⟩
  · intro hne h
    simp only [otpPayload, objGet] at h
    have h2 : L.bcryptHash otp 10 salt = otp := by simpa using h
    exact hne h2
  · intro now
    refine ⟨rfl, ?_⟩
    simp only [otpPayload, objGet, OTP_EXPIRY_MINUTES]
    simp

theorem createOTPToken_contents_witness :
    createOTPToken asciiLower toyLibs (some "s3cret") "Anish_2301mc40@iitp.ac.in" "123456"
        "salt" 1700000000000 1700000000000 1700000000000
      = .ok (toyLibs.jwtSign
          (otpPayload asciiLower toyLibs "Anish_2301mc40@iitp.ac.in" "123456" "salt"
            1700000000000 1700000000000) "s3cret" "5m" 1700000000000) ∧
    otpPayload asciiLower toyLibs "Anish_2301mc40@iitp.ac.in" "123456" "salt"
        1700000000000 1700000000000
      = [("email", .str (asciiLower "Anish_2301mc40@iitp.ac.in")),
         ("hashedOTP", .str (toyLibs.bcryptHash "123456" 10 "salt")),
         ("createdAt", .num (1700000000000 : Nat)),
         ("expiresAt", .num (((1700000000000 : Nat) : Int) + 300000))] ∧
    (toyLibs.bcryptHash "123456" 10 "salt" ≠ "123456" →
      objGet (otpPayload asciiLower toyLibs "Anish_2301mc40@iitp.ac.in" "123456" "salt"
        1700000000000 1700000000000) "hashedOTP" ≠ .str "123456") ∧
    (∀ now : Nat,
      objGet (otpPayload asciiLower toyLibs "Anish_2301mc40@iitp.ac.in" "123456" "salt"
        now now) "createdAt" = .num now ∧
      objGet (otpPayload asciiLower toyLibs "Anish_2301mc40@iitp.ac.in" "123456" "salt"
        now now) "expiresAt" = .num ((now + 300000 : Nat) : Int)) :=
  createOTPToken_contents asciiLower toyLibs "s3cret" "Anish_2301mc40@iitp.ac.in" "123456"
    "salt" 1700000000000 1700000000000 1700000000000 (by decide)

/-- What `verifyVerificationToken` decides on: with a configured secret it returns
`valid: true` exactly when `jwt.verify` accepts the token, with the decoded payload as
`data`. -/
theorem verifyVerificationToken_valid_iff (L : Libs) (secret token : String) (jwtNow : Nat)
    (decoded : JsObj) (hsecret : secret ≠ "") :
    verifyVerificationToken L (some secret) token jwtNow = .valid decoded ↔
      L.jwtVerify token secret jwtNow = .ok decoded := by
  simp only [verifyVerificationToken, configuredSecret_some secret hsecret]
  cases hv : L.jwtVerify token secret jwtNow with
  | error e => simp
  | ok d => simp

/-- C18, at the failing input.  The OTP challenge token that `createOTPToken` mints for
`Anish_2301mc40@iitp.ac.in` carries neither `iss` nor `verified`; `verifyVerificationToken`
under the same secret returns `valid: true` for it, where the consumer-side
`verifyAuthToken` of the integration examples rejects it with `Invalid token issuer`. -/
theorem verifyVerificationToken_accepts_otp_token :
    ∃ token decoded,
      createOTPToken asciiLower toyLibs (some "s3cret") "Anish_2301mc40@iitp.ac.in" "123456"
        "salt" 1700000000000 1700000000001 1700000000002 = .ok token ∧
      verifyVerificationToken toyLibs (some "s3cret") token 1700000200000 = .valid decoded ∧
      objGet decoded "email" = .str "anish_2301mc40@iitp.ac.in" ∧
      objGet decoded "iss" = .undefined ∧
      objGet decoded "verified" = .undefined ∧
      verifyAuthToken toyLibs token "s3cret" 1700000200000 = .invalid "Invalid token issuer" :=
  ⟨_, _, rfl, rfl, rfl, rfl, rfl, rfl⟩

/-- C19, the claim as stated fails: for a `userData` without a `verified` field the payload
that `createVerificationToken` signs carries no `verified` field, and for a `userData` with
`verified: false` it carries `verified: false`. -/
theorem createVerificationToken_verified_not_set :
    createVerificationToken toyLibs (some "s3cret") [("email", .str "a@iitp.ac.in")]
        1700000200001 1700000200002
      = .ok (toyLibs.jwtSign (assertionPayload [("email", .str "a@iitp.ac.in")] 1700000200001)
          "s3cret" "1h" 1700000200002) ∧
    objGet (assertionPayload [("email", .str "a@iitp.ac.in")] 1700000200001) "verified"
      = .undefined ∧
    objGet (assertionPayload [("email", .str "a@iitp.ac.in"), ("verified", .bool false)]
      1700000200001) "verified" = .bool false ∧
    toyLibs.jwtVerify (toyLibs.jwtSign
        (assertionPayload [("email", .str "a@iitp.ac.in")] 1700000200001)
        "s3cret" "1h" 1700000200002) "s3cret" 1700000200003
      = .ok [("email", .str "a@iitp.ac.in"), ("verifiedAt", .num 1700000200001),
          ("iss", .str "iitp-auth-gateway"), ("exp", .num 1700003800)] :=
  ⟨rfl, rfl, rfl, rfl⟩

/-- C19, amended.  With a configured secret, for every `userData`,
`createVerificationToken(userData)` builds the payload
`{ ...userData, verifiedAt, iss }`, which carries `verifiedAt` = the current time and
`iss = 'iitp-auth-gateway'` (whatever `iss` or `verifiedAt` the `userData` itself contains)
and every other field of `userData` unchanged, so it carries `verified = true` when
`userData` does, as the `userData` of the verify-otp handler does; and it passes that payload
to `jwt.sign` with `expiresIn: '1h'`: it returns the token when `jwt.sign` returns one, and
throws the library's exception when `jwt.sign` refuses the payload (a `userData` that
carries `exp`, or an `iat` or `nbf` that is not a number), returning no token then. -/
theorem createVerificationToken_contents (L : Libs) (secret : String) (userData : JsObj)
    (verifiedNow signNow : Nat) (hsecret : secret ≠ "") :
    (L.jwtSignError (assertionPayload userData verifiedNow) secret "1h" = none →
      createVerificationToken L (some secret) userData verifiedNow signNow
        = .ok (L.jwtSign (assertionPayload userData verifiedNow) secret "1h" signNow)) ∧
    (∀ error, L.jwtSignError (assertionPayload userData verifiedNow) secret "1h" = some error →
      createVerificationToken L (some secret) userData verifiedNow signNow = .error error ∧
      ∀ token, createVerificationToken L (some secret) userData verifiedNow signNow
        ≠ .ok token) ∧
    objGet (assertionPayload userData verifiedNow) "verifiedAt" = .num verifiedNow ∧
    objGet (assertionPayload userData verifiedNow) "iss" = .str "iitp-auth-gateway" ∧
    (∀ key, key ≠ "verifiedAt" → key ≠ "iss" →
      objGet (assertionPayload userData verifiedNow) key = objGet userData key) ∧
    (objGet userData "verified" = .bool true →
      objGet (assertionPayload userData verifiedNow) "verified" = .bool true) ∧
    (∀ studentInfo : StudentInfo,
      objGet (assertionPayload (userDataOf studentInfo) verifiedNow) "verified"
        = .bool true) := by
  have hother : ∀ key, key ≠ "verifiedAt" → key ≠ "iss" →
      objGet (assertionPayload userData verifiedNow) key = objGet userData key := by
    intro key h1 h2
    unfold assertionPayload
    rw [objGet_objSet_other _ _ _ _ h2, objGet_objSet_other _ _ _ _ h1]
  have hconf := createVerificationToken_configured L secret userData verifiedNow signNow
    hsecret
  refine ⟨?_, ?_, ?_, ?_, hother, ?_, ?_⟩
  · intro hsign
    rw [hconf, hsign]
  · intro error hsign
    rw [hconf, hsign]
    exact ⟨rfl, fun token h => by cases h⟩
  · unfold assertionPayload
    rw [objGet_objSet_other _ _ _ _ (by decide), objGet_objSet_same]
  · unfold assertionPayload
    rw [objGet_objSet_same]
  · intro hv
    rw [hother "verified" (by decide) (by decide), hv]
  · intro studentInfo
    unfold assertionPayload
    rw [objGet_objSet_other _ _ _ _ (by decide), objGet_objSet_other _ _ _ _ (by decide)]
    rfl

theorem createVerificationToken_contents_witness :
    createVerificationToken toyLibs (some "s3cret")
        [("email", .str "a@iitp.ac.in"), ("iss", .str "elsewhere"), ("verified", .bool true)]
        1700000200001 1700000200002
      = .ok (toyLibs.jwtSign (assertionPayload
          [("email", .str "a@iitp.ac.in"), ("iss", .str "elsewhere"), ("verified", .bool true)]
          1700000200001) "s3cret" "1h" 1700000200002) ∧
    objGet (assertionPayload
        [("email", .str "a@iitp.ac.in"), ("iss", .str "elsewhere"), ("verified", .bool true)]
        1700000200001) "verifiedAt" = .num (1700000200001 : Nat) ∧
    objGet (assertionPayload
        [("email", .str "a@iitp.ac.in"), ("iss", .str "elsewhere"), ("verified", .bool true)]
        1700000200001) "iss" = .str "iitp-auth-gateway" ∧
    objGet (assertionPayload
        [("email", .str "a@iitp.ac.in"), ("iss", .str "elsewhere"), ("verified", .bool true)]
        1700000200001) "verified" = .bool true ∧
    createVerificationToken toyLibs (some "s3cret")
        [("email", .str "a@iitp.ac.in"), ("exp", .num 1700003800), ("verified", .bool true)]
        1700000200001 1700000200002
      = .error ⟨"Error",
          "Bad \"options.expiresIn\" option the payload already has an \"exp\" property."⟩ :=
  ⟨(createVerificationToken_contents toyLibs "s3cret"
      [("email", .str "a@iitp.ac.in"), ("iss", .str "elsewhere"), ("verified", .bool true)]
      1700000200001 1700000200002 (by decide)).1 rfl,
    (createVerificationToken_contents toyLibs "s3cret"
      [("email", .str "a@iitp.ac.in"), ("iss", .str "elsewhere"), ("verified", .bool true)]
      1700000200001 1700000200002 (by decide)).2.2.1,
    (createVerificationToken_contents toyLibs "s3cret"
      [("email", .str "a@iitp.ac.in"), ("iss", .str "elsewhere"), ("verified", .bool true)]
      1700000200001 1700000200002 (by decide)).2.2.2.1,
    (createVerificationToken_contents toyLibs "s3cret"
      [("email", .str "a@iitp.ac.in"), ("iss", .str "elsewhere"), ("verified", .bool true)]
      1700000200001 1700000200002 (by decide)).2.2.2.2.2.1 rfl,
    ((createVerificationToken_contents toyLibs "s3cret"
      [("email", .str "a@iitp.ac.in"), ("exp", .num 1700003800), ("verified", .bool true)]
      1700000200001 1700000200002 (by decide)).2.1 _ rfl).1⟩

/-! ## The verify-otp handler -/

theorem fieldMissing_false (x : Option String) (h : fieldMissing x = false) :
    ∃ v, x = some v ∧ v ≠ "" := by
  cases x with
  | none => simp [fieldMissing] at h
  | some v => exact ⟨v, rfl, by simpa [fieldMissing] using h⟩

/-- A success response of the handler comes from a POST request with its three fields, an
email that passes the domain check once trimmed and lower-cased, a six-digit OTP, a token
that `verifyOTPToken` accepts for that email and an address that `extractStudentInfo`
accepts; the assertion is signed from the `userData` of the response. -/
theorem verifyOtpHandler_success_inv (toLowerCase : String → String) (L : Libs)
    (JWT_SECRET : Option String) (req : VerifyOtpRequest)
    (jwtNow now verifiedNow signNow : Nat)
    (message verificationToken : String) (userData : JsObj) (redirect : JsVal)
    (h : verifyOtpHandler toLowerCase L JWT_SECRET req jwtNow now verifiedNow signNow
      = .success message verificationToken userData redirect) :
    ∃ (email otp token secret : String) (studentInfo : StudentInfo) (e : JsVal) (m : String),
      req.method = "POST" ∧ req.email = some email ∧ req.otp = some otp ∧
      req.token = some token ∧
      configuredSecret JWT_SECRET = some secret ∧
      isValidIITPEmail (toLowerCase (jsTrim email)) = true ∧
      otpFormatRegex.test otp = true ∧
      verifyOTPToken toLowerCase L JWT_SECRET token otp (toLowerCase (jsTrim email))
        jwtNow now = .valid e m ∧
      extractStudentInfo toLowerCase (toLowerCase (jsTrim email)) = .valid studentInfo ∧
      userData = userDataOf studentInfo ∧
      verificationToken
        = L.jwtSign (assertionPayload userData verifiedNow) secret "1h" signNow ∧
      message = "OTP verified successfully" := by
  unfold verifyOtpHandler at h
  by_cases hm : req.method ≠ "POST"
  · rw [if_pos hm] at h; cases h
  · rw [if_neg hm] at h
    by_cases hf : (fieldMissing req.email || fieldMissing req.otp
        || fieldMissing req.token) = true
    · rw [if_pos hf] at h; cases h
    · rw [if_neg hf] at h
      simp only [Bool.or_eq_true, not_or, Bool.not_eq_true] at hf
      obtain ⟨⟨he, ho⟩, ht⟩ := hf
      obtain ⟨email, hemail, _⟩ := fieldMissing_false _ he
      obtain ⟨otp, hotp, _⟩ := fieldMissing_false _ ho
      obtain ⟨token, htoken, _⟩ := fieldMissing_false _ ht
      rw [hemail, hotp, htoken] at h
      simp only [Option.getD_some] at h
      by_cases hv : isValidIITPEmail (toLowerCase (jsTrim email)) = true
      · by_cases hfmt : otpFormatRegex.test otp = true
        · simp only [hv, hfmt, Bool.not_true, Bool.false_eq_true, if_false] at h
          cases hver : verifyOTPToken toLowerCase L JWT_SECRET token otp
              (toLowerCase (jsTrim email)) jwtNow now with
          | invalid err => rw [hver] at h; cases h
          | valid e m =>
            rw [hver] at h
            cases hex : extractStudentInfo toLowerCase (toLowerCase (jsTrim email)) with
            | invalid err => rw [hex] at h; cases h
            | valid studentInfo =>
              rw [hex] at h
              simp only [createVerificationToken] at h
              cases hsec : configuredSecret JWT_SECRET with
              | none => rw [hsec] at h; cases h
              | some secret =>
                rw [hsec] at h
                cases hsign : L.jwtSignError (assertionPayload (userDataOf studentInfo)
                    verifiedNow) secret "1h" with
                | some error => simp only [hsign] at h; cases h
                | none =>
                  simp only [hsign, VerifyOtpResponse.success.injEq] at h
                  obtain ⟨hmsg, htok, hud, _⟩ := h
                  refine ⟨email, otp, token, secret, studentInfo, e, m, by simpa using hm,
                    hemail, hotp, htoken, rfl, hv, hfmt, hver, hex, hud.symm, ?_, hmsg.symm⟩
                  rw [← htok, ← hud]
        · have hfmt2 : otpFormatRegex.test otp = false := by simpa using hfmt
          simp only [hv, hfmt2, Bool.not_true, Bool.not_false, Bool.false_eq_true, if_false,
            if_true] at h
          cases h
      · have hv2 : isValidIITPEmail (toLowerCase (jsTrim email)) = false := by simpa using hv
        simp only [hv2, Bool.not_false, if_true] at h
        cases h

theorem admissionYear_of_valid (toLowerCase : String → String) (email : String)
    (info : StudentInfo) (h : extractStudentInfo toLowerCase email = .valid info) :
    info.admissionYear
      = some ((2000 + decimalValue (info.rollNumber.toList.take 2) : Nat) : Int) := by
  obtain ⟨_, _, hr, hinfo⟩ := extractStudentInfo_valid_inv toLowerCase email info h
  obtain ⟨c1, c2, c3, c4, l1, l2, rest, hseg, h1, h2, _⟩ := isRollCode_shape _ hr
  rw [hinfo, hseg]
  simp only [studentInfoFrom, String.toList, substring, List.take, List.drop]
  rw [parseInt_two_digits c1 c2 h1 h2]
  simp only [Option.map_some', Option.some.injEq]
  push_cast
  rfl

/-- C20, at the failing input.  A successful verify-otp request for
`anish_2301mc40@iitp.ac.in`, for which `extractStudentInfo` derives `serialNumber: '40'`,
yields an assertion whose payload has no `serialNumber` field, where the `data` object that
the extract-info handler builds from the same `studentInfo` carries `serialNumber: '40'`. -/
theorem verifyOtpHandler_assertion_lacks_serialNumber :
    ∃ token verificationToken userData info decoded,
      createOTPToken asciiLower toyLibs (some "s3cret") "anish_2301mc40@iitp.ac.in" "123456"
        "salt" 1700000000000 1700000000000 1700000000000 = .ok token ∧
      verifyOtpHandler asciiLower toyLibs (some "s3cret")
        ⟨"POST", some "anish_2301mc40@iitp.ac.in", some "123456", some token, none⟩
        1700000200000 1700000200000 1700000200001 1700000200002
        = .success "OTP verified successfully" verificationToken userData .null ∧
      extractStudentInfo asciiLower "anish_2301mc40@iitp.ac.in" = .valid info ∧
      info.serialNumber = "40" ∧
      toyLibs.jwtVerify verificationToken "s3cret" 1700000200003 = .ok decoded ∧
      objGet decoded "rollNumber" = .str "2301mc40" ∧
      objGet decoded "serialNumber" = .undefined ∧
      objGet (assertionPayload userData 1700000200001) "serialNumber" = .undefined ∧
      objGet (extractInfoData info) "serialNumber" = .str "40" :=
  ⟨_, _, _, _, _, rfl, rfl, rfl, rfl, rfl, rfl, rfl, rfl, rfl⟩

/-- What the assertion of every successful verify-otp request carries: the fields `email`,
`name`, `rollNumber`, `admissionYear`, `degree`, `degreeCode`, `branch` and `branchCode`,
each with the value `extractStudentInfo` returned for the trimmed, lower-cased email,
together with `verified: true`, `verifiedAt` and `iss`.  The `serialNumber` that
`extractStudentInfo` derived is missing from it on every request, not only on one. -/
theorem verifyOtpHandler_assertion_fields (toLowerCase : String → String) (L : Libs)
    (JWT_SECRET : Option String) (req : VerifyOtpRequest)
    (jwtNow now verifiedNow signNow : Nat)
    (message verificationToken : String) (userData : JsObj) (redirect : JsVal)
    (h : verifyOtpHandler toLowerCase L JWT_SECRET req jwtNow now verifiedNow signNow
      = .success message verificationToken userData redirect) :
    ∃ (email secret : String) (info : StudentInfo) (year : Int),
      req.email = some email ∧ configuredSecret JWT_SECRET = some secret ∧
      extractStudentInfo toLowerCase (toLowerCase (jsTrim email)) = .valid info ∧
      verificationToken
        = L.jwtSign (assertionPayload userData verifiedNow) secret "1h" signNow ∧
      objGet (assertionPayload userData verifiedNow) "email" = .str info.email ∧
      objGet (assertionPayload userData verifiedNow) "name" = .str info.name ∧
      objGet (assertionPayload userData verifiedNow) "rollNumber" = .str info.rollNumber ∧
      info.admissionYear = some year ∧
      objGet (assertionPayload userData verifiedNow) "admissionYear" = .num year ∧
      objGet (assertionPayload userData verifiedNow) "degree" = .str info.degree ∧
      objGet (assertionPayload userData verifiedNow) "degreeCode" = .str info.degreeCode ∧
      objGet (assertionPayload userData verifiedNow) "branch" = .str info.branch ∧
      objGet (assertionPayload userData verifiedNow) "branchCode" = .str info.branchCode ∧
      objGet (assertionPayload userData verifiedNow) "verified" = .bool true ∧
      objGet (assertionPayload userData verifiedNow) "verifiedAt" = .num verifiedNow ∧
      objGet (assertionPayload userData verifiedNow) "iss" = .str "iitp-auth-gateway" ∧
      objGet (assertionPayload userData verifiedNow) "serialNumber" = .undefined := by
  obtain ⟨email, otp, token, secret, info, e, m, _, hemail, _, _, hsec, _, _, _, hex, hud,
    htok, _⟩ := verifyOtpHandler_success_inv toLowerCase L JWT_SECRET req jwtNow now
      verifiedNow signNow message verificationToken userData redirect h
  have hyear := admissionYear_of_valid toLowerCase _ info hex
  have hother : ∀ key, key ≠ "verifiedAt" → key ≠ "iss" →
      objGet (assertionPayload userData verifiedNow) key = objGet userData key := by
    intro key h1 h2
    unfold assertionPayload
    rw [objGet_objSet_other _ _ _ _ h2, objGet_objSet_other _ _ _ _ h1]
  refine ⟨email, secret, info, _, hemail, hsec, hex, htok, ?_, ?_, ?_, hyear, ?_, ?_, ?_, ?_,
    ?_, ?_, ?_, ?_, ?_⟩
  · rw [hother _ (by decide) (by decide), hud]; rfl
  · rw [hother _ (by decide) (by decide), hud]; rfl
  · rw [hother _ (by decide) (by decide), hud]; rfl
  · rw [hother _ (by decide) (by decide), hud]
    simp only [userDataOf, objGet, hyear]
    rfl
  · rw [hother _ (by decide) (by decide), hud]; rfl
  · rw [hother _ (by decide) (by decide), hud]; rfl
  · rw [hother _ (by decide) (by decide), hud]; rfl
  · rw [hother _ (by decide) (by decide), hud]; rfl
  · rw [hother _ (by decide) (by decide), hud]; rfl
  · unfold assertionPayload
    rw [objGet_objSet_other _ _ _ _ (by decide), objGet_objSet_same]
  · unfold assertionPayload
    rw [objGet_objSet_same]
  · rw [hother _ (by decide) (by decide), hud]; rfl

/-- The handler answers `sampleRequest` with success. -/
theorem sampleRequest_success :
    verifyOtpHandler asciiLower toyLibs (some "s3cret") sampleRequest
        1700000200000 1700000200000 1700000200001 1700000200002
      = .success "OTP verified successfully"
          (toyJwtSign (assertionPayload sampleUserData 1700000200001) "s3cret" "1h"
            1700000200002)
          sampleUserData (.str "https://client.example/callback") := by
  rfl

theorem verifyOtpHandler_assertion_fields_witness :
    ∃ (email secret : String) (info : StudentInfo) (year : Int),
      sampleRequest.email = some email ∧ configuredSecret (some "s3cret") = some secret ∧
      extractStudentInfo asciiLower (asciiLower (jsTrim email)) = .valid info ∧
      toyJwtSign (assertionPayload sampleUserData 1700000200001) "s3cret" "1h" 1700000200002
        = toyLibs.jwtSign (assertionPayload sampleUserData 1700000200001) secret "1h"
            1700000200002 ∧
      objGet (assertionPayload sampleUserData 1700000200001) "email" = .str info.email ∧
      objGet (assertionPayload sampleUserData 1700000200001) "name" = .str info.name ∧
      objGet (assertionPayload sampleUserData 1700000200001) "rollNumber"
        = .str info.rollNumber ∧
      info.admissionYear = some year ∧
      objGet (assertionPayload sampleUserData 1700000200001) "admissionYear" = .num year ∧
      objGet (assertionPayload sampleUserData 1700000200001) "degree" = .str info.degree ∧
      objGet (assertionPayload sampleUserData 1700000200001) "degreeCode"
        = .str info.degreeCode ∧
      objGet (assertionPayload sampleUserData 1700000200001) "branch" = .str info.branch ∧
      objGet (assertionPayload sampleUserData 1700000200001) "branchCode"
        = .str info.branchCode ∧
      objGet (assertionPayload sampleUserData 1700000200001) "verified" = .bool true ∧
      objGet (assertionPayload sampleUserData 1700000200001) "verifiedAt"
        = .num (1700000200001 : Nat) ∧
      objGet (assertionPayload sampleUserData 1700000200001) "iss"
        = .str "iitp-auth-gateway" ∧
      objGet (assertionPayload sampleUserData 1700000200001) "serialNumber" = .undefined :=
  verifyOtpHandler_assertion_fields asciiLower toyLibs (some "s3cret") sampleRequest
    1700000200000 1700000200000 1700000200001 1700000200002 "OTP verified successfully"
    (toyJwtSign (assertionPayload sampleUserData 1700000200001) "s3cret" "1h" 1700000200002)
    sampleUserData (.str "https://client.example/callback") sampleRequest_success

/-! ## Double arithmetic and `generateOTP` -/

theorem roundHalfEven_le (q : ℚ) (N : ℤ) (h : q ≤ N) : roundHalfEven q ≤ N := by
  have hf : (⌊q⌋ : ℚ) ≤ q := Int.floor_le q
  have hfN : ⌊q⌋ ≤ N := by exact_mod_cast hf.trans h
  unfold roundHalfEven
  simp only
  split_ifs with h1 h2 h3
  · exact hfN
  · have : (⌊q⌋ : ℚ) + 1 / 2 < N := by linarith
    have h5 : ((⌊q⌋ : ℤ) : ℚ) < (N : ℚ) := by linarith
    have h6 : ⌊q⌋ < N := by exact_mod_cast h5
    omega
  · exact hfN
  · have h4 : (1 : ℚ) / 2 ≤ q - ⌊q⌋ := not_lt.mp h1
    have h5 : ((⌊q⌋ : ℤ) : ℚ) < (N : ℚ) := by linarith
    have h6 : ⌊q⌋ < N := by exact_mod_cast h5
    omega

theorem le_roundHalfEven (q : ℚ) (N : ℤ) (h : (N : ℚ) ≤ q) : N ≤ roundHalfEven q := by
  have hfN : N ≤ ⌊q⌋ := Int.le_floor.mpr h
  unfold roundHalfEven
  simp only
  split_ifs <;> omega

theorem roundHalfEven_lt_half (q : ℚ) (N : ℤ) (h : q < (N : ℚ) - 1 / 2) :
    roundHalfEven q ≤ N - 1 := by
  have hf : (⌊q⌋ : ℚ) ≤ q := Int.floor_le q
  have h5 : ((⌊q⌋ : ℤ) : ℚ) < (N : ℚ) := by linarith
  have h6 : ⌊q⌋ < N := by exact_mod_cast h5
  unfold roundHalfEven
  simp only
  split_ifs with h1 h2 h3
  · omega
  · have h7 : ((⌊q⌋ : ℤ) : ℚ) + 1 < (N : ℚ) := by linarith
    have h8 : ⌊q⌋ + 1 < N := by exact_mod_cast h7
    omega
  · omega
  · have h4 : (1 : ℚ) / 2 ≤ q - ⌊q⌋ := not_lt.mp h1
    have h7 : ((⌊q⌋ : ℤ) : ℚ) + 1 < (N : ℚ) := by linarith
    have h8 : ⌊q⌋ + 1 < N := by exact_mod_cast h7
    omega

theorem roundHalfEven_int (N : ℤ) : roundHalfEven (N : ℚ) = N := by
  unfold roundHalfEven
  simp

theorem roundDouble_pos (x : ℚ) (hx : 0 < x) :
    roundDouble x = roundHalfEven (x / (2 : ℚ) ^ (max (Int.log 2 x - 52) (-1074)))
      * (2 : ℚ) ^ (max (Int.log 2 x - 52) (-1074)) := by
  unfold roundDouble
  rw [if_neg (ne_of_gt hx), abs_of_pos hx]

/-- The spacing exponent of a positive `x` below `2 ^ (a + 53)` is at most `a`. -/
theorem spacing_le (x : ℚ) (hx : 0 < x) (a : ℤ) (ha : -1074 ≤ a)
    (hlt : x < (2 : ℚ) ^ (a + 53)) : max (Int.log 2 x - 52) (-1074) ≤ a := by
  have h2 : x < ((2 : ℕ) : ℚ) ^ (a + 53) := by exact_mod_cast hlt
  have hlog : Int.log 2 x < a + 53 := (Int.lt_zpow_iff_log_lt (by norm_num) hx).mp h2
  exact max_le (by omega) ha

/-- The spacing exponent of an `x` with `2 ^ (a + 52) ≤ x < 2 ^ (a + 53)` is `a`. -/
theorem spacing_eq (x : ℚ) (hx : 0 < x) (a : ℤ) (ha : -1074 ≤ a)
    (hge : (2 : ℚ) ^ (a + 52) ≤ x) (hlt : x < (2 : ℚ) ^ (a + 53)) :
    max (Int.log 2 x - 52) (-1074) = a := by
  have h1 : ((2 : ℕ) : ℚ) ^ (a + 52) ≤ x := by exact_mod_cast hge
  have h2 : x < ((2 : ℕ) : ℚ) ^ (a + 53) := by exact_mod_cast hlt
  have hlog1 : a + 52 ≤ Int.log 2 x := (Int.zpow_le_iff_le_log (by norm_num) hx).mp h1
  have hlog2 : Int.log 2 x < a + 53 := (Int.lt_zpow_iff_log_lt (by norm_num) hx).mp h2
  have : Int.log 2 x - 52 = a := by omega
  rw [this]
  exact max_eq_left ha

/-- A multiple of `2 ^ a` is a multiple of `2 ^ g` for `g ≤ a`. -/
theorem multiple_of_finer (k a g : ℤ) (hga : g ≤ a) :
    ∃ M : ℤ, (k : ℚ) * (2 : ℚ) ^ a = (M : ℚ) * (2 : ℚ) ^ g := by
  refine ⟨k * 2 ^ (a - g).toNat, ?_⟩
  have h2 : (2 : ℚ) ≠ 0 := by norm_num
  have hsplit : (2 : ℚ) ^ a = (2 : ℚ) ^ ((a - g).toNat : ℤ) * (2 : ℚ) ^ g := by
    rw [← zpow_add₀ h2]
    congr 1
    omega
  rw [hsplit]
  push_cast
  rw [zpow_natCast]
  ring

/-- Rounding does not cross a double of the same or a coarser spacing, from below. -/
theorem roundDouble_le (x : ℚ) (hx : 0 < x) (a : ℤ) (ha : -1074 ≤ a)
    (hlt : x < (2 : ℚ) ^ (a + 53)) (k : ℤ) (h : x ≤ (k : ℚ) * (2 : ℚ) ^ a) :
    roundDouble x ≤ (k : ℚ) * (2 : ℚ) ^ a := by
  have hg := spacing_le x hx a ha hlt
  obtain ⟨M, hM⟩ := multiple_of_finer k a _ hg
  have hpos : (0 : ℚ) < (2 : ℚ) ^ (max (Int.log 2 x - 52) (-1074)) := zpow_pos (by norm_num) _
  rw [roundDouble_pos x hx, hM]
  rw [hM] at h
  have hq : x / (2 : ℚ) ^ (max (Int.log 2 x - 52) (-1074)) ≤ (M : ℚ) :=
    (div_le_iff₀ hpos).mpr h
  have hr := roundHalfEven_le _ M hq
  have hr2 : (roundHalfEven (x / (2 : ℚ) ^ (max (Int.log 2 x - 52) (-1074))) : ℚ) ≤ (M : ℚ) := by
    exact_mod_cast hr
  exact mul_le_mul_of_nonneg_right hr2 hpos.le

/-- Rounding does not cross a double of the same or a coarser spacing, from above. -/
theorem le_roundDouble (x : ℚ) (hx : 0 < x) (a : ℤ) (ha : -1074 ≤ a)
    (hlt : x < (2 : ℚ) ^ (a + 53)) (k : ℤ) (h : (k : ℚ) * (2 : ℚ) ^ a ≤ x) :
    (k : ℚ) * (2 : ℚ) ^ a ≤ roundDouble x := by
  have hg := spacing_le x hx a ha hlt
  obtain ⟨M, hM⟩ := multiple_of_finer k a _ hg
  have hpos : (0 : ℚ) < (2 : ℚ) ^ (max (Int.log 2 x - 52) (-1074)) := zpow_pos (by norm_num) _
  rw [roundDouble_pos x hx, hM]
  rw [hM] at h
  have hq : (M : ℚ) ≤ x / (2 : ℚ) ^ (max (Int.log 2 x - 52) (-1074)) :=
    (le_div_iff₀ hpos).mpr h
  have hr := le_roundHalfEven _ M hq
  have hr2 : (M : ℚ) ≤ (roundHalfEven (x / (2 : ℚ) ^ (max (Int.log 2 x - 52) (-1074))) : ℚ) := by
    exact_mod_cast hr
  exact mul_le_mul_of_nonneg_right hr2 hpos.le

/-- A positive multiple of `2 ^ a` below `2 ^ (a + 53)` is a double. -/
theorem roundDouble_exact (x : ℚ) (hx : 0 < x) (a : ℤ) (ha : -1074 ≤ a)
    (hlt : x < (2 : ℚ) ^ (a + 53)) (k : ℤ) (h : x = (k : ℚ) * (2 : ℚ) ^ a) :
    roundDouble x = x := by
  apply le_antisymm
  · have := roundDouble_le x hx a ha hlt k (le_of_eq h)
    rw [← h] at this; exact this
  · have := le_roundDouble x hx a ha hlt k (le_of_eq h.symm)
    rw [← h] at this; exact this

/-- In the binade of spacing `2 ^ a`, an `x` more than half a step below the double
`N * 2 ^ a` rounds to at most the double before it. -/
theorem roundDouble_lt_half (x : ℚ) (hx : 0 < x) (a : ℤ) (ha : -1074 ≤ a)
    (hge : (2 : ℚ) ^ (a + 52) ≤ x) (hlt : x < (2 : ℚ) ^ (a + 53)) (N : ℤ)
    (h : x < ((N : ℚ) - 1 / 2) * (2 : ℚ) ^ a) :
    roundDouble x ≤ ((N : ℚ) - 1) * (2 : ℚ) ^ a := by
  have hg := spacing_eq x hx a ha hge hlt
  have hpos : (0 : ℚ) < (2 : ℚ) ^ a := zpow_pos (by norm_num) _
  rw [roundDouble_pos x hx, hg]
  have hq : x / (2 : ℚ) ^ a < (N : ℚ) - 1 / 2 := (div_lt_iff₀ hpos).mpr h
  have hr := roundHalfEven_lt_half _ N hq
  have hr2 : (roundHalfEven (x / (2 : ℚ) ^ a) : ℚ) ≤ (N : ℚ) - 1 := by
    exact_mod_cast hr
  exact mul_le_mul_of_nonneg_right hr2 hpos.le

/-- The largest double below 1 is `1 - 2 ^ (-53)`. -/
theorem double_lt_one (r : ℚ) (hd : roundDouble r = r) (h1 : r < 1) :
    r ≤ 1 - 1 / 2 ^ 53 := by
  by_cases hhalf : r < 1 / 2
  · have : (1 : ℚ) / 2 ≤ 1 - 1 / 2 ^ 53 := by norm_num
    linarith
  · have hge : (1 : ℚ) / 2 ≤ r := not_lt.mp hhalf
    have hpos : 0 < r := by linarith
    have hg := spacing_eq r hpos (-53) (by norm_num) (by norm_num; linarith)
      (by norm_num; exact h1)
    have hr := roundDouble_pos r hpos
    rw [hg, hd] at hr
    generalize roundHalfEven (r / (2 : ℚ) ^ (-53 : ℤ)) = n at hr
    have h3 : (n : ℚ) = r * 2 ^ 53 := by
      rw [hr]
      norm_num
      ring
    have hn : (n : ℚ) < ((2 ^ 53 : ℤ) : ℚ) := by
      rw [h3]
      push_cast
      linarith
    have hn2 : n < 2 ^ 53 := by exact_mod_cast hn
    have hn3 : n ≤ 2 ^ 53 - 1 := by omega
    have hn4 : (n : ℚ) ≤ 2 ^ 53 - 1 := by exact_mod_cast hn3
    have h4 : r * 2 ^ 53 ≤ 2 ^ 53 - 1 := by rw [← h3]; exact hn4
    have h5 : r * 2 ^ 53 / 2 ^ 53 ≤ ((2 : ℚ) ^ 53 - 1) / 2 ^ 53 :=
      div_le_div_of_nonneg_right h4 (by norm_num)
    have h6 : r * 2 ^ 53 / 2 ^ 53 = r := by field_simp
    rw [h6] at h5
    exact le_trans h5 (by norm_num)

/-- The rounded product `r * 900000` for a double `r` of `[0, 1)` is at most the double
before 900000. -/
theorem product_bounds (r : ℚ) (hd : roundDouble r = r) (h0 : 0 ≤ r) (h1 : r < 1) :
    0 ≤ roundDouble (r * 900000) ∧ roundDouble (r * 900000) ≤ 900000 - 1 / 2 ^ 33 := by
  have hr := double_lt_one r hd h1
  have hx : r * 900000 ≤ 900000 - 900000 / 2 ^ 53 := by linarith
  by_cases hzero : r * 900000 = 0
  · rw [hzero]
    have : roundDouble 0 = 0 := by simp [roundDouble]
    rw [this]
    norm_num
  · have hpos : 0 < r * 900000 := lt_of_le_of_ne (by positivity) (Ne.symm hzero)
    have hlt : r * 900000 < (2 : ℚ) ^ ((-33 : ℤ) + 53) := by norm_num; linarith
    constructor
    · have := le_roundDouble (r * 900000) hpos (-33) (by norm_num) hlt 0 (by simp; linarith)
      simpa using this
    · by_cases hsmall : r * 900000 < 2 ^ 19
      · have := roundDouble_le (r * 900000) hpos (-33) (by norm_num) hlt (2 ^ 52)
          (by norm_num; linarith)
        exact le_trans this (by norm_num)
      · have hge : (2 : ℚ) ^ ((-33 : ℤ) + 52) ≤ r * 900000 := by
          norm_num; linarith [not_lt.mp hsmall]
        have := roundDouble_lt_half (r * 900000) hpos (-33) (by norm_num) hge hlt
          (900000 * 2 ^ 33) (by norm_num; linarith)
        exact le_trans this (by norm_num)

/-- The rounded sum of 100000 and a `y` of `[0, 900000)` at most the double before 900000
lies between 100000 and the double before 1000000. -/
theorem sum_bounds (y : ℚ) (h0 : 0 ≤ y) (h1 : y ≤ 900000 - 1 / 2 ^ 33) :
    100000 ≤ roundDouble (100000 + y) ∧ roundDouble (100000 + y) ≤ 1000000 - 1 / 2 ^ 33 := by
  have hpos : 0 < 100000 + y := by linarith
  have hlt : 100000 + y < (2 : ℚ) ^ ((-33 : ℤ) + 53) := by norm_num; linarith
  constructor
  · have := le_roundDouble (100000 + y) hpos (-33) (by norm_num) hlt (100000 * 2 ^ 33)
      (by norm_num; linarith)
    exact le_trans (by norm_num) this
  · have := roundDouble_le (100000 + y) hpos (-33) (by norm_num) hlt (1000000 * 2 ^ 33 - 1)
      (by norm_num; linarith)
    exact le_trans this (by norm_num)

/-- The integer `generateOTP` writes lies in `[100000, 999999]`. -/
theorem otp_value_bounds (r : ℚ) (hd : roundDouble r = r) (h0 : 0 ≤ r) (h1 : r < 1) :
    100000 ≤ ⌊roundDouble (100000 + roundDouble (r * 900000))⌋ ∧
    ⌊roundDouble (100000 + roundDouble (r * 900000))⌋ ≤ 999999 := by
  obtain ⟨hp0, hp1⟩ := product_bounds r hd h0 h1
  obtain ⟨hs0, hs1⟩ := sum_bounds _ hp0 hp1
  constructor
  · exact Int.le_floor.mpr (by exact_mod_cast hs0)
  · have hlt : roundDouble (100000 + roundDouble (r * 900000)) < ((999999 + 1 : ℤ) : ℚ) := by
      norm_num
      have : (0 : ℚ) < 1 / 2 ^ 33 := by norm_num
      linarith
    have := Int.floor_lt.mpr hlt
    omega

theorem grid33_int (m : ℤ) : ((m * 2 ^ 33 : ℤ) : ℚ) * (2 : ℚ) ^ (-33 : ℤ) = (m : ℚ) := by
  push_cast
  norm_num
  ring

theorem grid33_half (m : ℤ) :
    (((2 * m + 1) * 2 ^ 32 : ℤ) : ℚ) * (2 : ℚ) ^ (-33 : ℤ) = (m : ℚ) + 1 / 2 := by
  push_cast
  norm_num
  ring

/-- An `x` of `[m, m + 1/2]` below `2 ^ 20` rounds into `[m, m + 1/2]`. -/
theorem roundDouble_near_int (x : ℚ) (m : ℤ) (h0 : 0 ≤ m) (hlo : (m : ℚ) ≤ x)
    (hhi : x ≤ (m : ℚ) + 1 / 2) (hlt : x < 2 ^ 20) :
    (m : ℚ) ≤ roundDouble x ∧ roundDouble x ≤ (m : ℚ) + 1 / 2 := by
  by_cases hzero : x = 0
  · rw [hzero] at hlo
    have hm : (m : ℚ) = 0 := le_antisymm hlo (by exact_mod_cast h0)
    have : roundDouble 0 = 0 := by simp [roundDouble]
    rw [hzero, this, hm]
    norm_num
  · have hm0 : (0 : ℚ) ≤ (m : ℚ) := by exact_mod_cast h0
    have hpos : 0 < x := lt_of_le_of_ne (le_trans hm0 hlo) (Ne.symm hzero)
    have hlt2 : x < (2 : ℚ) ^ ((-33 : ℤ) + 53) := by norm_num; linarith
    constructor
    · have := le_roundDouble x hpos (-33) (by norm_num) hlt2 (m * 2 ^ 33)
        (by rw [grid33_int]; exact hlo)
      rw [grid33_int] at this
      exact this
    · have := roundDouble_le x hpos (-33) (by norm_num) hlt2 ((2 * m + 1) * 2 ^ 32)
        (by rw [grid33_half]; exact hhi)
      rw [grid33_half] at this
      exact this

/-- Every integer of `[100000, 999999]` is the value `generateOTP` writes for some double of
`[0, 1)`. -/
theorem otp_value_onto (n : ℕ) (h0 : 100000 ≤ n) (h1 : n ≤ 999999) :
    ∃ r : ℚ, roundDouble r = r ∧ 0 ≤ r ∧ r < 1 ∧
      ⌊roundDouble (100000 + roundDouble (r * 900000))⌋ = (n : ℤ) := by
  have hn0 : (100000 : ℚ) ≤ (n : ℚ) := by exact_mod_cast h0
  have hn1 : (n : ℚ) ≤ 999999 := by exact_mod_cast h1
  have hk0 : (0 : ℤ) ≤ (n : ℤ) - 100000 := by omega
  have hkq : (((n : ℤ) - 100000 : ℤ) : ℚ) = (n : ℚ) - 100000 := by push_cast; ring
  have hj1 : (((n : ℚ) - 100000) * 2 ^ 53) / 900000
      ≤ (⌈(((n : ℚ) - 100000) * 2 ^ 53) / 900000⌉ : ℚ) := Int.le_ceil _
  have hj2 : (⌈(((n : ℚ) - 100000) * 2 ^ 53) / 900000⌉ : ℚ)
      < (((n : ℚ) - 100000) * 2 ^ 53) / 900000 + 1 := Int.ceil_lt_add_one _
  have hj0 : 0 ≤ ⌈(((n : ℚ) - 100000) * 2 ^ 53) / 900000⌉ :=
    Int.ceil_nonneg (by apply div_nonneg; nlinarith; norm_num)
  generalize ⌈(((n : ℚ) - 100000) * 2 ^ 53) / 900000⌉ = j at hj0 hj1 hj2
  have hj0q : (0 : ℚ) ≤ (j : ℚ) := by exact_mod_cast hj0
  have hr1 : (j : ℚ) / 2 ^ 53 < 1 := by
    rw [div_lt_iff₀ (by norm_num)]
    have : (((n : ℚ) - 100000) * 2 ^ 53) / 900000 + 1 ≤ 1 * 2 ^ 53 := by
      rw [div_add_one (by norm_num), div_le_iff₀ (by norm_num)]
      nlinarith
    linarith
  have hx0 : (n : ℚ) - 100000 ≤ (j : ℚ) / 2 ^ 53 * 900000 := by
    rw [div_le_iff₀ (by norm_num)] at hj1
    rw [div_mul_eq_mul_div, le_div_iff₀ (by norm_num)]
    linarith
  have hx1 : (j : ℚ) / 2 ^ 53 * 900000 ≤ (n : ℚ) - 100000 + 1 / 2 := by
    have h3 : (j : ℚ) * 900000 < ((n : ℚ) - 100000) * 2 ^ 53 + 900000 := by
      have := mul_lt_mul_of_pos_right hj2 (by norm_num : (0 : ℚ) < 900000)
      rw [add_mul, div_mul_cancel₀ _ (by norm_num : (900000 : ℚ) ≠ 0)] at this
      linarith
    rw [div_mul_eq_mul_div, div_le_iff₀ (by norm_num)]
    nlinarith
  refine ⟨(j : ℚ) / 2 ^ 53, ?_, by positivity, hr1, ?_⟩
  · by_cases hjz : j = 0
    · rw [hjz]; simp [roundDouble]
    · have hjpos : (0 : ℚ) < (j : ℚ) := by
        have : 0 < j := lt_of_le_of_ne hj0 (Ne.symm hjz)
        exact_mod_cast this
      exact roundDouble_exact _ (by positivity) (-53) (by norm_num) (by norm_num; exact hr1) j
        (by norm_num; ring)
  · obtain ⟨hp0, hp1⟩ := roundDouble_near_int ((j : ℚ) / 2 ^ 53 * 900000) ((n : ℤ) - 100000)
      hk0 (by rw [hkq]; exact hx0) (by rw [hkq]; exact hx1) (by norm_num; linarith)
    rw [hkq] at hp0 hp1
    obtain ⟨hs0, hs1⟩ := roundDouble_near_int
      (100000 + roundDouble ((j : ℚ) / 2 ^ 53 * 900000)) (n : ℤ) (by omega)
      (by push_cast; linarith) (by push_cast; linarith) (by norm_num; linarith)
    rw [Int.floor_eq_iff]
    constructor
    · exact hs0
    · have : ((n : ℤ) : ℚ) + 1 / 2 < ((n : ℤ) : ℚ) + 1 := by norm_num
      linarith

theorem six_digit_digits (n f : ℕ) (h0 : 100000 ≤ n) (h1 : n ≤ 999999) :
    Nat.toDigitsCore 10 (f + 6) n [] =
      [Nat.digitChar (n / 100000), Nat.digitChar (n / 10000 % 10),
        Nat.digitChar (n / 1000 % 10), Nat.digitChar (n / 100 % 10),
        Nat.digitChar (n / 10 % 10), Nat.digitChar (n % 10)] := by
  have e1 : n / 10 ≠ 0 := by omega
  have e2 : n / 10 / 10 ≠ 0 := by omega
  have e3 : n / 10 / 10 / 10 ≠ 0 := by omega
  have e4 : n / 10 / 10 / 10 / 10 ≠ 0 := by omega
  have e5 : n / 10 / 10 / 10 / 10 / 10 ≠ 0 := by omega
  have e6 : n / 10 / 10 / 10 / 10 / 10 / 10 = 0 := by omega
  have d1 : n / 10 / 10 = n / 100 := by omega
  have d2 : n / 10 / 10 / 10 = n / 1000 := by omega
  have d3 : n / 10 / 10 / 10 / 10 = n / 10000 := by omega
  have d4 : n / 10 / 10 / 10 / 10 / 10 = n / 100000 := by omega
  have d5 : n / 100000 % 10 = n / 100000 := by omega
  simp only [Nat.toDigitsCore, e1, e2, e3, e4, e5, e6, if_false, if_true]
  rw [d4, d3, d2, d1, d5]

/-- The decimal notation of an integer of `[100000, 999999]`: its six digits. -/
theorem six_digit_repr (n : ℕ) (h0 : 100000 ≤ n) (h1 : n ≤ 999999) :
    toString n = String.mk
      [Nat.digitChar (n / 100000), Nat.digitChar (n / 10000 % 10),
        Nat.digitChar (n / 1000 % 10), Nat.digitChar (n / 100 % 10),
        Nat.digitChar (n / 10 % 10), Nat.digitChar (n % 10)] := by
  have hf : n + 1 = (n - 5) + 6 := by omega
  show (Nat.toDigits 10 n).asString = _
  unfold Nat.toDigits
  rw [hf, six_digit_digits n (n - 5) h0 h1]
  rfl

theorem digitChar_isDigit (d : ℕ) (h : d < 10) : (Nat.digitChar d).isDigit = true := by
  interval_cases d <;> rfl

theorem digitChar_ne_zero (d : ℕ) (h0 : 1 ≤ d) (h : d < 10) : Nat.digitChar d ≠ '0' := by
  interval_cases d <;> decide

/-- Without flag `i`, the class `\d` holds exactly the decimal digits. -/
theorem classTest_digit_exact (c : Char) :
    classTest false [.digit] c = true ↔ c.isDigit = true := by
  rw [char_isDigit_iff]
  simp only [classTest, List.any_cons, List.any_nil, Bool.or_false, ClassItem.members,
    List.any_eq_true, List.mem_range', beq_iff_eq, canonicalize, Bool.false_and,
    Bool.false_eq_true, if_false]
  constructor
  · rintro ⟨a, ⟨i, hi, rfl⟩, h⟩
    omega
  · intro h
    exact ⟨c.toNat, ⟨c.toNat - 48, by omega, by omega⟩, rfl⟩

/-- The verify-otp format check accepts every string of six decimal digits. -/
theorem otpFormatRegex_six_digits (c1 c2 c3 c4 c5 c6 : Char)
    (h1 : c1.isDigit = true) (h2 : c2.isDigit = true) (h3 : c3.isDigit = true)
    (h4 : c4.isDigit = true) (h5 : c5.isDigit = true) (h6 : c6.isDigit = true) :
    otpFormatRegex.test (String.mk [c1, c2, c3, c4, c5, c6]) = true := by
  simp only [Regex.test, otpFormatRegex, matchPieces, matchN, String.toList,
    (classTest_digit_exact c1).mpr h1, (classTest_digit_exact c2).mpr h2,
    (classTest_digit_exact c3).mpr h3, (classTest_digit_exact c4).mpr h4,
    (classTest_digit_exact c5).mpr h5, (classTest_digit_exact c6).mpr h6,
    Bool.and_self, List.isEmpty_nil, Bool.true_and]

/-- The OTP written for an integer of `[100000, 999999]`: six decimal digits, the first not
`0`, accepted by the format check. -/
theorem six_digit_string (n : ℕ) (h0 : 100000 ≤ n) (h1 : n ≤ 999999) :
    (toString n).toList.length = 6 ∧
    (∀ c ∈ (toString n).toList, c.isDigit = true) ∧
    (toString n).toList.head? ≠ some '0' ∧
    otpFormatRegex.test (toString n) = true := by
  rw [six_digit_repr n h0 h1]
  have g1 := digitChar_isDigit (n / 100000) (by omega)
  have g2 := digitChar_isDigit (n / 10000 % 10) (by omega)
  have g3 := digitChar_isDigit (n / 1000 % 10) (by omega)
  have g4 := digitChar_isDigit (n / 100 % 10) (by omega)
  have g5 := digitChar_isDigit (n / 10 % 10) (by omega)
  have g6 := digitChar_isDigit (n % 10) (by omega)
  refine ⟨rfl, ?_, ?_, otpFormatRegex_six_digits _ _ _ _ _ _ g1 g2 g3 g4 g5 g6⟩
  · intro c hc
    simp only [String.toList, List.mem_cons, List.mem_singleton, List.not_mem_nil,
      or_false] at hc
    rcases hc with h | h | h | h | h | h <;> rw [h] <;> assumption
  · simp only [String.toList, List.head?_cons, ne_eq, Option.some.injEq]
    exact digitChar_ne_zero (n / 100000) (by omega) (by omega)

theorem toString_natCast (n : ℕ) : toString ((n : ℕ) : ℤ) = toString n := rfl

theorem generateOTP_eq (r : ℚ) :
    generateOTP r = toString ⌊roundDouble (100000 + roundDouble (r * 900000))⌋ := rfl

/-- The OTP for a product that is zero and a first summand `y` that is a double. -/
theorem generateOTP_of_zero (x y : ℚ) (n : ℕ) (hy : roundDouble y = y) (hf : ⌊y⌋ = (n : ℤ))
    (hx : x = 0)
    (h : generateOTP x = toString ⌊roundDouble (y + roundDouble (x * 900000))⌋) :
    generateOTP x = toString n := by
  have hzero : roundDouble 0 = 0 := by simp [roundDouble]
  rw [h, hx, zero_mul, hzero, add_zero, hy, hf]
  exact toString_natCast n

/-- C16. OTP generation.  For every double `r` with `0 ≤ r < 1` returned by the random
source, `generateOTP` returns the decimal string of `floor(100000 + r * 900000)`, computed
as the program computes it, in double arithmetic; this is an integer from 100000 to 999999
inclusive, hence a string of exactly six decimal digits whose first digit is not `0` and
which the verify-otp format check accepts.  Every integer of that range is returned for some
double `r` of `[0, 1)`; `r = 0` gives `100000`. -/
theorem generateOTP_spec :
    (∀ r : ℚ, isDouble r = true → 0 ≤ r → r < 1 →
      ∃ n : ℕ, 100000 ≤ n ∧ n ≤ 999999 ∧
        ⌊roundDouble (100000 + roundDouble (r * 900000))⌋ = (n : ℤ) ∧
        generateOTP r = toString n ∧
        (generateOTP r).toList.length = 6 ∧
        (∀ c ∈ (generateOTP r).toList, c.isDigit = true) ∧
        (generateOTP r).toList.head? ≠ some '0' ∧
        otpFormatRegex.test (generateOTP r) = true) ∧
    (∀ n : ℕ, 100000 ≤ n → n ≤ 999999 →
      ∃ r : ℚ, isDouble r = true ∧ 0 ≤ r ∧ r < 1 ∧ generateOTP r = toString n) ∧
    (isDouble 0 = true ∧ generateOTP 0 = "100000") := by
  have hzero : roundDouble 0 = 0 := by simp [roundDouble]
  refine ⟨?_, ?_, ?_, ?_⟩
  · intro r hd h0 h1
    have hd2 : roundDouble r = r := by simpa [isDouble] using hd
    obtain ⟨hlo, hhi⟩ := otp_value_bounds r hd2 h0 h1
    obtain ⟨n, hn⟩ := Int.eq_ofNat_of_zero_le (le_trans (by norm_num) hlo)
    have hgen : generateOTP r = toString n := by
      unfold generateOTP
      rw [hn]
      exact toString_natCast n
    rw [hn] at hlo hhi
    have hn0 : 100000 ≤ n := by exact_mod_cast hlo
    have hn1 : n ≤ 999999 := by exact_mod_cast hhi
    obtain ⟨s1, s2, s3, s4⟩ := six_digit_string n hn0 hn1
    rw [hgen]
    exact ⟨n, hn0, hn1, hn, rfl, s1, s2, s3, s4⟩
  · intro n h0 h1
    obtain ⟨r, hd, hr0, hr1, hfloor⟩ := otp_value_onto n h0 h1
    refine ⟨r, by simp [isDouble, hd], hr0, hr1, ?_⟩
    unfold generateOTP
    rw [hfloor]
    exact toString_natCast n
  · simp [isDouble, hzero]
  · have h100 : roundDouble 100000 = 100000 := by
      have := roundDouble_exact 100000 (by norm_num) (-33) (by norm_num) (by norm_num)
        (100000 * 2 ^ 33) (by rw [grid33_int]; norm_num)
      exact this
    have hfloor : ⌊(100000 : ℚ)⌋ = ((100000 : ℕ) : ℤ) := by
      have := Int.floor_intCast (α := ℚ) 100000
      simp
    have hgen : generateOTP 0 = toString (100000 : ℕ) :=
      generateOTP_of_zero 0 100000 100000 h100 hfloor rfl (generateOTP_eq 0)
    rw [hgen, six_digit_repr 100000 (by norm_num) (by norm_num)]
    decide

/-! ## A missing signing secret -/

theorem configuredSecret_none_iff (JWT_SECRET : Option String) :
    configuredSecret JWT_SECRET = none ↔ JWT_SECRET = none ∨ JWT_SECRET = some "" := by
  cases JWT_SECRET with
  | none => simp [configuredSecret]
  | some s =>
    by_cases h : s = ""
    · simp [configuredSecret, h]
    · simp [configuredSecret, h]

/-- C21. Missing signing secret.  When `JWT_SECRET` is not configured (`undefined` or the
empty string, the values for which `!JWT_SECRET` holds), then for all arguments, all
libraries and all clock readings `createOTPToken` and `createVerificationToken` throw an
`Error` with message `JWT_SECRET is not configured`, and `verifyOTPToken` and
`verifyVerificationToken` return `valid: false` with that error; so no call returns a token
and no call returns `valid: true`. -/
theorem missing_secret_fails (toLowerCase : String → String) (L : Libs)
    (JWT_SECRET : Option String) (hmissing : JWT_SECRET = none ∨ JWT_SECRET = some "") :
    (∀ (email otp salt : String) (createdNow expiresNow signNow : Nat),
      createOTPToken toLowerCase L JWT_SECRET email otp salt createdNow expiresNow signNow
        = .error ⟨"Error", "JWT_SECRET is not configured"⟩) ∧
    (∀ (userData : JsObj) (verifiedNow signNow : Nat),
      createVerificationToken L JWT_SECRET userData verifiedNow signNow
        = .error ⟨"Error", "JWT_SECRET is not configured"⟩) ∧
    (∀ (token otp email : String) (jwtNow now : Nat),
      verifyOTPToken toLowerCase L JWT_SECRET token otp email jwtNow now
        = .invalid "JWT_SECRET is not configured") ∧
    (∀ (token : String) (jwtNow : Nat),
      verifyVerificationToken L JWT_SECRET token jwtNow
        = .invalid "JWT_SECRET is not configured") ∧
    (∀ (email otp salt token : String) (createdNow expiresNow signNow : Nat),
      createOTPToken toLowerCase L JWT_SECRET email otp salt createdNow expiresNow signNow
        ≠ .ok token) ∧
    (∀ (userData : JsObj) (token : String) (verifiedNow signNow : Nat),
      createVerificationToken L JWT_SECRET userData verifiedNow signNow ≠ .ok token) ∧
    (∀ (token otp email : String) (jwtNow now : Nat) (e : JsVal) (m : String),
      verifyOTPToken toLowerCase L JWT_SECRET token otp email jwtNow now ≠ .valid e m) ∧
    (∀ (token : String) (jwtNow : Nat) (data : JsObj),
      verifyVerificationToken L JWT_SECRET token jwtNow ≠ .valid data) := by
  have hnone : configuredSecret JWT_SECRET = none :=
    (configuredSecret_none_iff JWT_SECRET).2 hmissing
  have h1 : ∀ (email otp salt : String) (createdNow expiresNow signNow : Nat),
      createOTPToken toLowerCase L JWT_SECRET email otp salt createdNow expiresNow signNow
        = .error ⟨"Error", "JWT_SECRET is not configured"⟩ := by
    intros; simp only [createOTPToken, hnone]
  have h2 : ∀ (userData : JsObj) (verifiedNow signNow : Nat),
      createVerificationToken L JWT_SECRET userData verifiedNow signNow
        = .error ⟨"Error", "JWT_SECRET is not configured"⟩ := by
    intros; simp only [createVerificationToken, hnone]
  have h3 : ∀ (token otp email : String) (jwtNow now : Nat),
      verifyOTPToken toLowerCase L JWT_SECRET token otp email jwtNow now
        = .invalid "JWT_SECRET is not configured" := by
    intros; simp only [verifyOTPToken, hnone]
  have h4 : ∀ (token : String) (jwtNow : Nat),
      verifyVerificationToken L JWT_SECRET token jwtNow
        = .invalid "JWT_SECRET is not configured" := by
    intros; simp only [verifyVerificationToken, hnone]
  refine ⟨h1, h2, h3, h4, ?_, ?_, ?_, ?_⟩
  · intro email otp salt token c e s h
    rw [h1] at h; cases h
  · intro userData token v s h
    rw [h2] at h; cases h
  · intro token otp email j n e m h
    rw [h3] at h; cases h
  · intro token j data h
    rw [h4] at h; cases h

theorem missing_secret_fails_witness :
    createOTPToken asciiLower toyLibs (some "") "anish_2301mc40@iitp.ac.in" "123456" "salt"
        1700000000000 1700000000000 1700000000000
      = .error ⟨"Error", "JWT_SECRET is not configured"⟩ ∧
    verifyOTPToken asciiLower toyLibs (some "") sampleOtpToken "123456"
        "anish_2301mc40@iitp.ac.in" 1700000200000 1700000200000
      = .invalid "JWT_SECRET is not configured" :=
  ⟨(missing_secret_fails asciiLower toyLibs (some "") (Or.inr rfl)).1 _ _ _ _ _ _,
    (missing_secret_fails asciiLower toyLibs (some "") (Or.inr rfl)).2.2.1 _ _ _ _ _⟩

/-! ## Replay, and the order of the checks of `verifyOTPToken` -/

/-- What `verifyOTPToken` computes once the secret is configured and `jwt.verify` has
returned a payload whose `email` is a string: the email test, then the `expiresAt` test, then
the OTP test. -/
theorem verifyOTPToken_decoded (toLowerCase : String → String) (L : Libs)
    (JWT_SECRET : Option String) (secret token otp email decodedEmail : String)
    (jwtNow now : Nat) (decoded : JsObj)
    (hsecret : configuredSecret JWT_SECRET = some secret)
    (hverify : L.jwtVerify token secret jwtNow = .ok decoded)
    (hemail : objGet decoded "email" = .str decodedEmail) :
    verifyOTPToken toLowerCase L JWT_SECRET token otp email jwtNow now =
      if toLowerCase decodedEmail ≠ toLowerCase email then
        .invalid "Email does not match"
      else if numberGreater L now (objGet decoded "expiresAt") = true then
        .invalid "OTP has expired"
      else
        match L.bcryptCompare otp (objGet decoded "hashedOTP") with
        | .error e => verifyOTPTokenCatch e
        | .ok isMatch =>
          if isMatch then .valid (.str decodedEmail) "OTP verified successfully"
          else .invalid "Invalid OTP" := by
  simp only [verifyOTPToken, hsecret, verifyOTPTokenTry, hverify, hemail]
  by_cases h1 : toLowerCase decodedEmail ≠ toLowerCase email
  · rw [if_pos h1, if_pos h1]
  · rw [if_neg h1, if_neg h1]
    by_cases h2 : numberGreater L now (objGet decoded "expiresAt") = true
    · rw [if_pos h2, if_pos h2]
    · rw [if_neg h2, if_neg h2]
      cases hc : L.bcryptCompare otp (objGet decoded "hashedOTP") with
      | error e => rfl
      | ok isMatch => cases isMatch <;> rfl

theorem verifyOTPTokenCatch_invalid (error : JsError) :
    ∃ msg, verifyOTPTokenCatch error = .invalid msg := by
  unfold verifyOTPTokenCatch
  split_ifs <;> exact ⟨_, rfl⟩

/-- An accepted verification passed every check. -/
theorem verifyOTPToken_valid_inv (toLowerCase : String → String) (L : Libs)
    (JWT_SECRET : Option String) (token otp email : String) (jwtNow now : Nat)
    (e : JsVal) (m : String)
    (h : verifyOTPToken toLowerCase L JWT_SECRET token otp email jwtNow now = .valid e m) :
    ∃ (secret : String) (decoded : JsObj) (decodedEmail : String),
      configuredSecret JWT_SECRET = some secret ∧
      L.jwtVerify token secret jwtNow = .ok decoded ∧
      objGet decoded "email" = .str decodedEmail ∧
      toLowerCase decodedEmail = toLowerCase email ∧
      numberGreater L now (objGet decoded "expiresAt") = false ∧
      L.bcryptCompare otp (objGet decoded "hashedOTP") = .ok true ∧
      e = .str decodedEmail ∧ m = "OTP verified successfully" := by
  cases hsec : configuredSecret JWT_SECRET with
  | none => simp only [verifyOTPToken, hsec] at h; cases h
  | some secret =>
    cases hv : L.jwtVerify token secret jwtNow with
    | error err =>
      simp only [verifyOTPToken, hsec, verifyOTPTokenTry, hv] at h
      obtain ⟨msg, hmsg⟩ := verifyOTPTokenCatch_invalid err
      rw [hmsg] at h; cases h
    | ok decoded =>
      cases hem : objGet decoded "email" with
      | str decodedEmail =>
        rw [verifyOTPToken_decoded toLowerCase L JWT_SECRET secret token otp email
          decodedEmail jwtNow now decoded hsec hv hem] at h
        by_cases h1 : toLowerCase decodedEmail ≠ toLowerCase email
        · rw [if_pos h1] at h; cases h
        · rw [if_neg h1] at h
          by_cases h2 : numberGreater L now (objGet decoded "expiresAt") = true
          · rw [if_pos h2] at h; cases h
          · rw [if_neg h2] at h
            cases hc : L.bcryptCompare otp (objGet decoded "hashedOTP") with
            | error err =>
              rw [hc] at h
              obtain ⟨msg, hmsg⟩ := verifyOTPTokenCatch_invalid err
              simp only [hmsg] at h; cases h
            | ok isMatch =>
              rw [hc] at h
              cases isMatch with
              | false => simp at h
              | true =>
                simp only [if_true, VerifyResult.valid.injEq] at h
                exact ⟨secret, decoded, decodedEmail, rfl, hv, hem, by simpa using h1,
                  by simpa using h2, hc, h.1.symm, h.2.symm⟩
      | undefined =>
        simp only [verifyOTPToken, hsec, verifyOTPTokenTry, hv, hem] at h
        obtain ⟨msg, hmsg⟩ := verifyOTPTokenCatch_invalid ⟨"TypeError", L.typeErrorMessage .undefined⟩
        rw [hmsg] at h; cases h
      | null =>
        simp only [verifyOTPToken, hsec, verifyOTPTokenTry, hv, hem] at h
        obtain ⟨msg, hmsg⟩ := verifyOTPTokenCatch_invalid ⟨"TypeError", L.typeErrorMessage .null⟩
        rw [hmsg] at h; cases h
      | bool b =>
        simp only [verifyOTPToken, hsec, verifyOTPTokenTry, hv, hem] at h
        obtain ⟨msg, hmsg⟩ := verifyOTPTokenCatch_invalid ⟨"TypeError", L.typeErrorMessage (.bool b)⟩
        rw [hmsg] at h; cases h
      | num n =>
        simp only [verifyOTPToken, hsec, verifyOTPTokenTry, hv, hem] at h
        obtain ⟨msg, hmsg⟩ := verifyOTPTokenCatch_invalid ⟨"TypeError", L.typeErrorMessage (.num n)⟩
        rw [hmsg] at h; cases h


/-- The toy libraries recover the payload of a second token, minted later for the same
address with another OTP. -/
theorem toyLibs_recovers_newer :
    JwtRecovers toyLibs
      (otpPayload asciiLower toyLibs "anish_2301mc40@iitp.ac.in" "654321" "pepper"
        1700000100000 1700000100000)
      "s3cret" "5m" 1700000100000 1700000200000 :=
  ⟨[("email", .str "anish_2301mc40@iitp.ac.in"), ("hashedOTP", .str "pepper$654321"),
      ("createdAt", .num 1700000100000), ("expiresAt", .num 1700000400000),
      ("exp", .num 1700000400)], rfl, by decide⟩

/-- The toy libraries recover the payload of `sampleOtpToken` at two later times. -/
theorem toyLibs_recovers_sample (verifyNow : Nat)
    (h : verifyNow = 1700000050000 ∨ verifyNow = 1700000200000) :
    JwtRecovers toyLibs
      (otpPayload asciiLower toyLibs "anish_2301mc40@iitp.ac.in" "123456" "salt"
        1700000000000 1700000000000)
      "s3cret" "5m" 1700000000000 verifyNow := by
  rcases h with h | h <;> subst h <;>
  exact ⟨[("email", .str "anish_2301mc40@iitp.ac.in"), ("hashedOTP", .str "salt$123456"),
      ("createdAt", .num 1700000000000), ("expiresAt", .num 1700000300000),
      ("exp", .num 1700000300)], rfl, by decide⟩

/-- C22. No used-state.  `verifyOTPToken` reads its arguments, the constant `JWT_SECRET`,
the libraries and the clock, and nothing that an earlier call wrote (the embedded function
has no state argument because the module has no binding that a call assigns).  So
(1) a token, OTP and email that verified once verify again, with the same result, at every
later time at which `jwt.verify` still returns what it returned the first time and the
embedded `expiresAt` has not passed; and (2) for two tokens minted for the same address, an
older one (OTP `otp1`) and a newer one (OTP `otp2`), the older one verifies with its OTP
before the newer is minted (at `jwtNow`, `now`) and again after (at `jwtNow2`, `now2`), and
the newer one verifies with its own OTP, as long as each is within its own window;
`jwt.verify` is taken to recover a signed payload and `bcrypt.compare(otp, hash(otp))` to be
true, `toLowerCase` idempotent. -/
theorem verifyOTPToken_no_used_state (toLowerCase : String → String) (L : Libs) :
    (∀ (JWT_SECRET : Option String) (token otp email : String)
        (jwtNow now jwtNow2 now2 : Nat) (e : JsVal) (m : String),
      verifyOTPToken toLowerCase L JWT_SECRET token otp email jwtNow now = .valid e m →
      (∀ secret, L.jwtVerify token secret jwtNow2 = L.jwtVerify token secret jwtNow) →
      (∀ secret decoded, L.jwtVerify token secret jwtNow = .ok decoded →
        numberGreater L now2 (objGet decoded "expiresAt") = false) →
      verifyOTPToken toLowerCase L JWT_SECRET token otp email jwtNow2 now2 = .valid e m) ∧
    (∀ (secret email otp1 salt1 otp2 salt2 : String)
        (createdNow1 expiresNow1 signNow1 createdNow2 expiresNow2 signNow2 : Nat)
        (jwtNow now jwtNow2 now2 : Nat),
      secret ≠ "" →
      (∀ s, toLowerCase (toLowerCase s) = toLowerCase s) →
      JwtRecovers L (otpPayload toLowerCase L email otp1 salt1 createdNow1 expiresNow1)
        secret "5m" signNow1 jwtNow →
      JwtRecovers L (otpPayload toLowerCase L email otp1 salt1 createdNow1 expiresNow1)
        secret "5m" signNow1 jwtNow2 →
      JwtRecovers L (otpPayload toLowerCase L email otp2 salt2 createdNow2 expiresNow2)
        secret "5m" signNow2 jwtNow2 →
      L.bcryptCompare otp1 (.str (L.bcryptHash otp1 10 salt1)) = .ok true →
      L.bcryptCompare otp2 (.str (L.bcryptHash otp2 10 salt2)) = .ok true →
      now ≤ expiresNow1 + 300000 → now2 ≤ expiresNow1 + 300000 →
      now2 ≤ expiresNow2 + 300000 →
      ∃ older newer,
        createOTPToken toLowerCase L (some secret) email otp1 salt1 createdNow1 expiresNow1
          signNow1 = .ok older ∧
        createOTPToken toLowerCase L (some secret) email otp2 salt2 createdNow2 expiresNow2
          signNow2 = .ok newer ∧
        verifyOTPToken toLowerCase L (some secret) older otp1 email jwtNow now
          = .valid (.str (toLowerCase email)) "OTP verified successfully" ∧
        verifyOTPToken toLowerCase L (some secret) older otp1 email jwtNow2 now2
          = .valid (.str (toLowerCase email)) "OTP verified successfully" ∧
        verifyOTPToken toLowerCase L (some secret) newer otp2 email jwtNow2 now2
          = .valid (.str (toLowerCase email)) "OTP verified successfully") := by
  constructor
  · intro JWT_SECRET token otp email jwtNow now jwtNow2 now2 e m hfirst hjwt hexp
    obtain ⟨secret, decoded, decodedEmail, hsec, hv, hem, hlow, _, hb, he, hm⟩ :=
      verifyOTPToken_valid_inv toLowerCase L JWT_SECRET token otp email jwtNow now e m hfirst
    have hv2 : L.jwtVerify token secret jwtNow2 = .ok decoded := by rw [hjwt, hv]
    have hx := hexp secret decoded hv
    rw [verifyOTPToken_decoded toLowerCase L JWT_SECRET secret token otp email decodedEmail
      jwtNow2 now2 decoded hsec hv2 hem, hb, he, hm]
    have h1 : ¬ toLowerCase decodedEmail ≠ toLowerCase email := by simp [hlow]
    have h2 : ¬ numberGreater L now2 (objGet decoded "expiresAt") = true := by simp [hx]
    rw [if_neg h1, if_neg h2]
    rfl
  · intro secret email otp1 salt1 otp2 salt2 createdNow1 expiresNow1 signNow1 createdNow2
      expiresNow2 signNow2 jwtNow now jwtNow2 now2 hsecret hidem hr1 hr1b hr2 hb1 hb2 hw1 hw1b
      hw2
    have key : ∀ (otp salt : String) (createdNow expiresNow signNow j n : Nat),
        JwtRecovers L (otpPayload toLowerCase L email otp salt createdNow expiresNow)
          secret "5m" signNow j →
        L.bcryptCompare otp (.str (L.bcryptHash otp 10 salt)) = .ok true →
        n ≤ expiresNow + 300000 →
        verifyOTPToken toLowerCase L (some secret)
            (L.jwtSign (otpPayload toLowerCase L email otp salt createdNow expiresNow)
              secret "5m" signNow) otp email j n
          = .valid (.str (toLowerCase email)) "OTP verified successfully" := by
      intro otp salt createdNow expiresNow signNow j n hr hb hw
      rw [verifyOTPToken_minted toLowerCase L secret email otp salt otp email createdNow
        expiresNow signNow j n hsecret hr, hb]
      have h1 : ¬ toLowerCase (toLowerCase email) ≠ toLowerCase email := by
        rw [hidem]; simp
      have h2 : ¬ expiresNow + 300000 < n := by omega
      rw [if_neg h1, if_neg h2]
      rfl
    exact ⟨_, _, createOTPToken_configured toLowerCase L secret email otp1 salt1 createdNow1
        expiresNow1 signNow1 hsecret,
      createOTPToken_configured toLowerCase L secret email otp2 salt2 createdNow2
        expiresNow2 signNow2 hsecret,
      key otp1 salt1 createdNow1 expiresNow1 signNow1 jwtNow now hr1 hb1 hw1,
      key otp1 salt1 createdNow1 expiresNow1 signNow1 jwtNow2 now2 hr1b hb1 hw1b,
      key otp2 salt2 createdNow2 expiresNow2 signNow2 jwtNow2 now2 hr2 hb2 hw2⟩

theorem verifyOTPToken_no_used_state_witness :
    ∃ older newer,
      createOTPToken asciiLower toyLibs (some "s3cret") "anish_2301mc40@iitp.ac.in" "123456"
        "salt" 1700000000000 1700000000000 1700000000000 = .ok older ∧
      createOTPToken asciiLower toyLibs (some "s3cret") "anish_2301mc40@iitp.ac.in" "654321"
        "pepper" 1700000100000 1700000100000 1700000100000 = .ok newer ∧
      verifyOTPToken asciiLower toyLibs (some "s3cret") older "123456"
          "anish_2301mc40@iitp.ac.in" 1700000050000 1700000050000
        = .valid (.str (asciiLower "anish_2301mc40@iitp.ac.in")) "OTP verified successfully" ∧
      verifyOTPToken asciiLower toyLibs (some "s3cret") older "123456"
          "anish_2301mc40@iitp.ac.in" 1700000200000 1700000200000
        = .valid (.str (asciiLower "anish_2301mc40@iitp.ac.in")) "OTP verified successfully" ∧
      verifyOTPToken asciiLower toyLibs (some "s3cret") newer "654321"
          "anish_2301mc40@iitp.ac.in" 1700000200000 1700000200000
        = .valid (.str (asciiLower "anish_2301mc40@iitp.ac.in")) "OTP verified successfully" :=
  (verifyOTPToken_no_used_state asciiLower toyLibs).2 "s3cret" "anish_2301mc40@iitp.ac.in"
    "123456" "salt" "654321" "pepper" 1700000000000 1700000000000 1700000000000
    1700000100000 1700000100000 1700000100000 1700000050000 1700000050000 1700000200000
    1700000200000 (by decide) asciiLower_idem
    (toyLibs_recovers_sample _ (Or.inl rfl)) (toyLibs_recovers_sample _ (Or.inr rfl))
    toyLibs_recovers_newer rfl rfl (by decide) (by decide) (by decide)

/-- What `verifyOTPToken` returns when `jwt.verify` throws: the `catch` clause alone
decides. -/
theorem verifyOTPToken_thrown (toLowerCase : String → String) (L : Libs)
    (JWT_SECRET : Option String) (secret token otp email : String) (jwtNow now : Nat)
    (error : JsError)
    (hsecret : configuredSecret JWT_SECRET = some secret)
    (hverify : L.jwtVerify token secret jwtNow = .error error) :
    verifyOTPToken toLowerCase L JWT_SECRET token otp email jwtNow now
      = verifyOTPTokenCatch error := by
  simp only [verifyOTPToken, hsecret, verifyOTPTokenTry, hverify]

/-- C25. Order of the checks.  With a configured secret, `verifyOTPToken` reports the first
failing check in this order.  (1) `jwt.verify`: when it throws a `JsonWebTokenError`
(signature or structure) the result is `Invalid token`, when it throws a
`TokenExpiredError` (the token's own expiry) the result is `OTP has expired`, in both cases
whatever OTP and email are supplied and whatever the clock of the later check reads.
When `jwt.verify` returns a payload whose `email` is a string: (2) an email that differs
ignoring case gives `Email does not match`, whatever the OTP and the embedded `expiresAt`;
(3) else a time after the embedded `expiresAt` gives `OTP has expired`, whatever the OTP;
(4) else an OTP that `bcrypt.compare` does not match gives `Invalid OTP`; (5) else the result
is `valid: true`. -/
theorem verifyOTPToken_check_order (toLowerCase : String → String) (L : Libs)
    (JWT_SECRET : Option String) (secret token : String) (jwtNow : Nat)
    (hsecret : configuredSecret JWT_SECRET = some secret) :
    (∀ error, L.jwtVerify token secret jwtNow = .error error →
      ∀ (otp email : String) (now : Nat),
        (error.name = "JsonWebTokenError" →
          verifyOTPToken toLowerCase L JWT_SECRET token otp email jwtNow now
            = .invalid "Invalid token") ∧
        (error.name = "TokenExpiredError" →
          verifyOTPToken toLowerCase L JWT_SECRET token otp email jwtNow now
            = .invalid "OTP has expired")) ∧
    (∀ decoded decodedEmail, L.jwtVerify token secret jwtNow = .ok decoded →
      objGet decoded "email" = .str decodedEmail →
      ∀ (otp email : String) (now : Nat),
        (toLowerCase decodedEmail ≠ toLowerCase email →
          verifyOTPToken toLowerCase L JWT_SECRET token otp email jwtNow now
            = .invalid "Email does not match") ∧
        (toLowerCase decodedEmail = toLowerCase email →
          numberGreater L now (objGet decoded "expiresAt") = true →
          verifyOTPToken toLowerCase L JWT_SECRET token otp email jwtNow now
            = .invalid "OTP has expired") ∧
        (toLowerCase decodedEmail = toLowerCase email →
          numberGreater L now (objGet decoded "expiresAt") = false →
          L.bcryptCompare otp (objGet decoded "hashedOTP") = .ok false →
          verifyOTPToken toLowerCase L JWT_SECRET token otp email jwtNow now
            = .invalid "Invalid OTP") ∧
        (toLowerCase decodedEmail = toLowerCase email →
          numberGreater L now (objGet decoded "expiresAt") = false →
          L.bcryptCompare otp (objGet decoded "hashedOTP") = .ok true →
          verifyOTPToken toLowerCase L JWT_SECRET token otp email jwtNow now
            = .valid (.str decodedEmail) "OTP verified successfully")) := by
  constructor
  · intro error hv otp email now
    rw [verifyOTPToken_thrown toLowerCase L JWT_SECRET secret token otp email jwtNow now error
      hsecret hv]
    constructor
    · intro hn
      simp [verifyOTPTokenCatch, hn]
    · intro hn
      simp [verifyOTPTokenCatch, hn]
  · intro decoded decodedEmail hv hem otp email now
    rw [verifyOTPToken_decoded toLowerCase L JWT_SECRET secret token otp email decodedEmail
      jwtNow now decoded hsecret hv hem]
    refine ⟨?_, ?_, ?_, ?_⟩
    · intro h1
      rw [if_pos h1]
    · intro h1 h2
      rw [if_neg (by simp [h1]), if_pos h2]
    · intro h1 h2 h3
      rw [if_neg (by simp [h1]), if_neg (by simp [h2]), h3]
      rfl
    · intro h1 h2 h3
      rw [if_neg (by simp [h1]), if_neg (by simp [h2]), h3]
      rfl

/-- What the toy `jwt.verify` returns for `sampleOtpToken` inside its window. -/
theorem sampleOtpToken_decoded :
    toyLibs.jwtVerify sampleOtpToken "s3cret" 1700000200000
      = .ok [("email", .str "anish_2301mc40@iitp.ac.in"), ("hashedOTP", .str "salt$123456"),
          ("createdAt", .num 1700000000000), ("expiresAt", .num 1700000300000),
          ("exp", .num 1700000300)] := by
  rfl

theorem verifyOTPToken_check_order_witness :
    (verifyOTPToken asciiLower toyLibs (some "s3cret") sampleOtpToken "000000"
        "bob_2301cs01@iitp.ac.in" 1700000200000 1700000200000
      = .invalid "Email does not match") ∧
    (∀ (otp email : String) (now : Nat),
      verifyOTPToken asciiLower toyLibs (some "s3cret") sampleOtpToken otp email
        1700000300000 now = .invalid "OTP has expired") :=
  ⟨((verifyOTPToken_check_order asciiLower toyLibs (some "s3cret") "s3cret" sampleOtpToken
      1700000200000 rfl).2 _ "anish_2301mc40@iitp.ac.in" sampleOtpToken_decoded rfl
      "000000" "bob_2301cs01@iitp.ac.in" 1700000200000).1 (by decide),
    fun otp email now =>
      ((verifyOTPToken_check_order asciiLower toyLibs (some "s3cret") "s3cret" sampleOtpToken
        1700000300000 rfl).1 ⟨"TokenExpiredError", "jwt expired"⟩ rfl otp email now).2 rfl⟩

/-! ## The two expiry checks -/

/-- C26, the claim as stated fails: the clock readings of the program are separate readings,
and the embedded-expiry test does reject tokens that `jwt.verify` accepted.  (1) The
token minted at `t0 = 1700000000000` (`expiresAt = t0 + 300000`,
`exp = floor(t0 / 1000) + 300`): `jwt.verify` reading the clock at `t0 + 299999` accepts it,
the `Date.now()` of the embedded test reading `t0 + 300001` answers `OTP has expired`, where
one reading `t0 + 299999` for both gives `valid: true`.  (2) A token whose `expiresAt`
comes from the reading `1699999999998` and whose `jwt.sign` reads the clock 2 ms later, at
`1700000000000`: at the one time `1700000299999` `jwt.verify` accepts it
(`1700000299 < exp = 1700000300`) and the embedded test, `1700000299999 > 1700000299998`,
answers `OTP has expired`. -/
theorem expiresAt_check_separate_readings :
    (∃ token decoded,
      createOTPToken asciiLower toyLibs (some "s3cret") "anish_2301mc40@iitp.ac.in" "123456"
        "salt" 1700000000000 1700000000000 1700000000000 = .ok token ∧
      toyLibs.jwtVerify token "s3cret" 1700000299999 = .ok decoded ∧
      objGet decoded "expiresAt" = .num 1700000300000 ∧
      verifyOTPToken asciiLower toyLibs (some "s3cret") token "123456"
          "anish_2301mc40@iitp.ac.in" 1700000299999 1700000300001
        = .invalid "OTP has expired" ∧
      verifyOTPToken asciiLower toyLibs (some "s3cret") token "123456"
          "anish_2301mc40@iitp.ac.in" 1700000299999 1700000299999
        = .valid (.str "anish_2301mc40@iitp.ac.in") "OTP verified successfully") ∧
    (∃ token decoded,
      createOTPToken asciiLower toyLibs (some "s3cret") "anish_2301mc40@iitp.ac.in" "123456"
        "salt" 1699999999998 1699999999998 1700000000000 = .ok token ∧
      toyLibs.jwtVerify token "s3cret" 1700000299999 = .ok decoded ∧
      objGet decoded "expiresAt" = .num 1700000299998 ∧
      objGet decoded "exp" = .num 1700000300 ∧
      verifyOTPToken asciiLower toyLibs (some "s3cret") token "123456"
          "anish_2301mc40@iitp.ac.in" 1700000299999 1700000299999
        = .invalid "OTP has expired") :=
  ⟨⟨_, _, rfl, rfl, rfl, rfl, rfl⟩, ⟨_, _, rfl, rfl, rfl, rfl, rfl⟩⟩

/-- C26, amended.  For a token minted by `createOTPToken`, let `expiresNow` be the
`Date.now()` behind `expiresAt = expiresNow + 300000`, `signNow` the clock reading of
`jwt.sign` (which stamps `exp = floor(signNow / 1000) + 300`), `jwtNow` the clock reading of
`jwt.verify` (which accepts only while `floor(jwtNow / 1000) < exp`, `JwtHonoursExpiry`) and
`now` the `Date.now()` of the embedded-expiry test.  Whenever the readings are as close as
`now + 1000 * floor(signNow / 1000) ≤ jwtNow + expiresNow + 1`, a token that `jwt.verify`
accepts is not rejected by the embedded test: `now ≤ expiresAt`, the test
`Date.now() > decoded.expiresAt` is false, and `verifyOTPToken` returns what it would return
without the test.  This is so in particular when minting reads the clock once, as `t0`, and
verification once, as `t`: every time `t2` after `t0 + 300000` has
`floor(t2 / 1000) ≥ floor(t0 / 1000) + 300`. -/
theorem expiresAt_check_redundant (toLowerCase : String → String) (L : Libs)
    (secret email otp salt : String) (createdNow expiresNow signNow jwtNow now : Nat)
    (hsecret : secret ≠ "")
    (hrecovers : JwtRecovers L (otpPayload toLowerCase L email otp salt createdNow expiresNow)
      secret "5m" signNow jwtNow)
    (hrule : JwtHonoursExpiry L (otpPayload toLowerCase L email otp salt createdNow expiresNow)
      secret "5m" 300 signNow jwtNow)
    (hreadings : now + signNow / 1000 * 1000 ≤ jwtNow + expiresNow + 1) :
    objGet (otpPayload toLowerCase L email otp salt createdNow expiresNow) "expiresAt"
      = .num ((expiresNow + 300000 : Nat) : Int) ∧
    (∀ t0 t2 : Nat, t0 + 300000 < t2 → t0 / 1000 + 300 ≤ t2 / 1000) ∧
    (∀ t0 t : Nat, t + t0 / 1000 * 1000 ≤ t + t0 + 1) ∧
    ∃ token decoded,
      createOTPToken toLowerCase L (some secret) email otp salt createdNow expiresNow signNow
        = .ok token ∧
      L.jwtVerify token secret jwtNow = .ok decoded ∧
      objGet decoded "expiresAt" = .num ((expiresNow + 300000 : Nat) : Int) ∧
      now ≤ expiresNow + 300000 ∧
      numberGreater L now (objGet decoded "expiresAt") = false ∧
      ∀ otp2 email2 : String,
        verifyOTPToken toLowerCase L (some secret) token otp2 email2 jwtNow now =
          if toLowerCase (toLowerCase email) ≠ toLowerCase email2 then
            .invalid "Email does not match"
          else
            match L.bcryptCompare otp2 (.str (L.bcryptHash otp 10 salt)) with
            | .error e => verifyOTPTokenCatch e
            | .ok isMatch =>
              if isMatch then .valid (.str (toLowerCase email)) "OTP verified successfully"
              else .invalid "Invalid OTP" := by
  have hpayload : objGet (otpPayload toLowerCase L email otp salt createdNow expiresNow)
      "expiresAt" = .num ((expiresNow + 300000 : Nat) : Int) := by
    simp only [otpPayload, objGet, OTP_EXPIRY_MINUTES]
    simp
  have harith : ∀ t0 t2 : Nat, t0 + 300000 < t2 → t0 / 1000 + 300 ≤ t2 / 1000 := by
    intro t0 t2 h
    omega
  have hone : ∀ t0 t : Nat, t + t0 / 1000 * 1000 ≤ t + t0 + 1 := by
    intro t0 t
    omega
  obtain ⟨decoded, hverify, hclaims⟩ := hrecovers
  have hnot := hrule decoded hverify
  have hle : now ≤ expiresNow + 300000 := by omega
  have hexp : objGet decoded "expiresAt" = .num ((expiresNow + 300000 : Nat) : Int) := by
    rw [← hpayload]
    exact hclaims ("expiresAt", _) (by simp [otpPayload])
  have hgt : numberGreater L now (objGet decoded "expiresAt") = false := by
    rw [hexp]
    simp only [numberGreater, toNumber]
    simp only [decide_eq_false_iff_not, not_lt]
    exact_mod_cast hle
  refine ⟨hpayload, harith, hone, _, decoded, createOTPToken_configured toLowerCase L secret
    email otp salt createdNow expiresNow signNow hsecret, hverify, hexp, hle, hgt, ?_⟩
  intro otp2 email2
  rw [verifyOTPToken_minted toLowerCase L secret email otp salt otp2 email2 createdNow
    expiresNow signNow jwtNow now hsecret ⟨decoded, hverify, hclaims⟩]
  have h2 : ¬ expiresNow + 300000 < now := by omega
  rw [if_neg h2]

theorem expiresAt_check_redundant_witness :
    (1700000200000 : Nat) ≤ 1700000000000 + 300000 ∧
    ∀ otp2 email2 : String,
      verifyOTPToken asciiLower toyLibs (some "s3cret")
          (toyLibs.jwtSign (otpPayload asciiLower toyLibs "anish_2301mc40@iitp.ac.in"
            "123456" "salt" 1700000000000 1700000000000) "s3cret" "5m" 1700000000000)
          otp2 email2 1700000200000 1700000200000 =
        if asciiLower (asciiLower "anish_2301mc40@iitp.ac.in") ≠ asciiLower email2 then
          .invalid "Email does not match"
        else
          match toyLibs.bcryptCompare otp2 (.str (toyLibs.bcryptHash "123456" 10 "salt")) with
          | .error e => verifyOTPTokenCatch e
          | .ok isMatch =>
            if isMatch then
              .valid (.str (asciiLower "anish_2301mc40@iitp.ac.in")) "OTP verified successfully"
            else .invalid "Invalid OTP" := by
  obtain ⟨_, _, _, token, decoded, hmint, _, _, hle, _, hall⟩ :=
    expiresAt_check_redundant asciiLower toyLibs "s3cret" "anish_2301mc40@iitp.ac.in"
      "123456" "salt" 1700000000000 1700000000000 1700000000000 1700000200000 1700000200000
      (by decide) (toyLibs_recovers_sample _ (Or.inr rfl)) (fun _ _ => by decide) (by decide)
  rw [createOTPToken_configured asciiLower toyLibs "s3cret" "anish_2301mc40@iitp.ac.in"
    "123456" "salt" 1700000000000 1700000000000 1700000000000 (by decide)] at hmint
  cases hmint
  exact ⟨hle, hall⟩

/-! ## The address of the assertion -/

/-- C30. The assertion is bound to the token's address.  Whenever the verify-otp handler
answers with success, the `email` of `userData` and of the payload of the signed assertion
is the trimmed, lower-cased email of the request, and its lower-cased form is the lower-cased
form of the `email` that `jwt.verify` read from the OTP token of the request.  So a token
whose embedded email is the lower-cased `issued` (as `createOTPToken(issued, otp)` embeds
it) yields an assertion for the lower-cased `issued` and for no other address.
`toLowerCase` is taken idempotent. -/
theorem verifyOtpHandler_email_binding (toLowerCase : String → String) (L : Libs)
    (JWT_SECRET : Option String) (req : VerifyOtpRequest)
    (jwtNow now verifiedNow signNow : Nat)
    (message verificationToken : String) (userData : JsObj) (redirect : JsVal)
    (hidem : ∀ s, toLowerCase (toLowerCase s) = toLowerCase s)
    (h : verifyOtpHandler toLowerCase L JWT_SECRET req jwtNow now verifiedNow signNow
      = .success message verificationToken userData redirect) :
    ∃ (email token secret decodedEmail : String) (decoded : JsObj),
      req.email = some email ∧ req.token = some token ∧
      configuredSecret JWT_SECRET = some secret ∧
      L.jwtVerify token secret jwtNow = .ok decoded ∧
      objGet decoded "email" = .str decodedEmail ∧
      objGet userData "email" = .str (toLowerCase (jsTrim email)) ∧
      verificationToken
        = L.jwtSign (assertionPayload userData verifiedNow) secret "1h" signNow ∧
      objGet (assertionPayload userData verifiedNow) "email"
        = .str (toLowerCase (jsTrim email)) ∧
      toLowerCase decodedEmail = toLowerCase (jsTrim email) ∧
      (∀ issued : String, decodedEmail = toLowerCase issued →
        objGet userData "email" = .str (toLowerCase issued) ∧
        objGet (assertionPayload userData verifiedNow) "email"
          = .str (toLowerCase issued)) := by
  obtain ⟨email, otp, token, secret, info, e, m, _, hemail, _, htoken, hsec, _, _, hver, hex,
    hud, htok, _⟩ := verifyOtpHandler_success_inv toLowerCase L JWT_SECRET req jwtNow now
      verifiedNow signNow message verificationToken userData redirect h
  obtain ⟨secret2, decoded, decodedEmail, hsec2, hv, hem, hlow, _, _, _, _⟩ :=
    verifyOTPToken_valid_inv toLowerCase L JWT_SECRET token otp _ jwtNow now e m hver
  have hs : secret2 = secret := by
    rw [hsec] at hsec2; exact (Option.some.inj hsec2).symm
  subst hs
  obtain ⟨_, _, _, hinfo⟩ := extractStudentInfo_valid_inv toLowerCase _ info hex
  have hie : info.email = toLowerCase (jsTrim email) := by
    rw [hinfo]
    simp only [studentInfoFrom]
    exact hidem _
  have hue : objGet userData "email" = .str (toLowerCase (jsTrim email)) := by
    rw [hud, ← hie]; rfl
  have hae : objGet (assertionPayload userData verifiedNow) "email"
      = .str (toLowerCase (jsTrim email)) := by
    unfold assertionPayload
    rw [objGet_objSet_other _ _ _ _ (by decide), objGet_objSet_other _ _ _ _ (by decide), hue]
  have hlow2 : toLowerCase decodedEmail = toLowerCase (jsTrim email) := by
    rw [hlow, hidem]
  refine ⟨email, token, secret2, decodedEmail, decoded, hemail, htoken, hsec, hv, hem, hue,
    htok, hae, hlow2, ?_⟩
  intro issued hiss
  have : toLowerCase (jsTrim email) = toLowerCase issued := by
    rw [← hlow2, hiss, hidem]
  rw [hue, hae, this]
  exact ⟨rfl, rfl⟩

theorem verifyOtpHandler_email_binding_witness :
    ∃ (email token secret decodedEmail : String) (decoded : JsObj),
      sampleRequest.email = some email ∧ sampleRequest.token = some token ∧
      configuredSecret (some "s3cret") = some secret ∧
      toyLibs.jwtVerify token secret 1700000200000 = .ok decoded ∧
      objGet decoded "email" = .str decodedEmail ∧
      objGet sampleUserData "email" = .str (asciiLower (jsTrim email)) ∧
      toyJwtSign (assertionPayload sampleUserData 1700000200001) "s3cret" "1h" 1700000200002
        = toyLibs.jwtSign (assertionPayload sampleUserData 1700000200001) secret "1h"
            1700000200002 ∧
      objGet (assertionPayload sampleUserData 1700000200001) "email"
        = .str (asciiLower (jsTrim email)) ∧
      asciiLower decodedEmail = asciiLower (jsTrim email) ∧
      (∀ issued : String, decodedEmail = asciiLower issued →
        objGet sampleUserData "email" = .str (asciiLower issued) ∧
        objGet (assertionPayload sampleUserData 1700000200001) "email"
          = .str (asciiLower issued)) :=
  verifyOtpHandler_email_binding asciiLower toyLibs (some "s3cret") sampleRequest
    1700000200000 1700000200000 1700000200001 1700000200002 "OTP verified successfully"
    (toyJwtSign (assertionPayload sampleUserData 1700000200001) "s3cret" "1h" 1700000200002)
    sampleUserData (.str "https://client.example/callback") asciiLower_idem
    sampleRequest_success

/-! ## The rate limiter: denial, sweep, sequences of calls -/

/-- A denied call leaves the swept store in place, and found a live entry there. -/
theorem checkRateLimit_denied_store (toLowerCase : String → String) (store : RateLimitStore)
    (rnd : ℚ) (sweepNow now : Nat) (identifier : String)
    (hdenied : (checkRateLimit toLowerCase store rnd sweepNow now identifier).1.allowed
      = false) :
    (checkRateLimit toLowerCase store rnd sweepNow now identifier).2
      = sweptStore store rnd sweepNow ∧
    ∃ data, sweptStore store rnd sweepNow (toLowerCase identifier) = some data ∧
      now ≤ data.expiresAt ∧ 1 ≤ data.count := by
  cases h : sweptStore store rnd sweepNow (toLowerCase identifier) with
  | none => rw [checkRateLimit_fresh _ _ _ _ _ _ h] at hdenied; cases hdenied
  | some data =>
    by_cases hd : now > data.expiresAt
    · rw [checkRateLimit_expired _ _ _ _ _ _ data h hd] at hdenied; cases hdenied
    · by_cases hc : data.count ≥ 1
      · rw [checkRateLimit_denied _ _ _ _ _ _ data h hd hc]
        exact ⟨rfl, data, rfl, by omega, hc⟩
      · rw [checkRateLimit_increment _ _ _ _ _ _ data h hd hc] at hdenied; cases hdenied

/-- A key other than the key of the call holds after the call what the swept store holds. -/
theorem checkRateLimit_other_key (toLowerCase : String → String) (store : RateLimitStore)
    (rnd : ℚ) (sweepNow now : Nat) (identifier k : String)
    (hk : k ≠ toLowerCase identifier) :
    (checkRateLimit toLowerCase store rnd sweepNow now identifier).2 k
      = sweptStore store rnd sweepNow k := by
  rcases checkRateLimit_store toLowerCase store rnd sweepNow now identifier with h | ⟨v, h⟩
  · rw [h]
  · rw [h, storeSet_other _ _ _ _ hk]

/-- When every stored entry has used up the capacity, a granted call is a fresh grant: it
returns `resetAt = now + 60000` and stores `{count: 1, expiresAt: now + 60000,
firstRequestAt: now}`. -/
theorem checkRateLimit_granted (toLowerCase : String → String) (store : RateLimitStore)
    (rnd : ℚ) (sweepNow now : Nat) (identifier : String)
    (hinv : ∀ k data, store k = some data → 1 ≤ data.count)
    (hgranted : (checkRateLimit toLowerCase store rnd sweepNow now identifier).1.allowed
      = true) :
    checkRateLimit toLowerCase store rnd sweepNow now identifier =
      (⟨true, 0, now + 60000, none, none⟩,
        storeSet (sweptStore store rnd sweepNow) (toLowerCase identifier)
          ⟨1, now + 60000, now⟩) := by
  cases h : sweptStore store rnd sweepNow (toLowerCase identifier) with
  | none => exact checkRateLimit_fresh _ _ _ _ _ _ h
  | some data =>
    by_cases hd : now > data.expiresAt
    · exact checkRateLimit_expired _ _ _ _ _ _ data h hd
    · have hc : data.count ≥ 1 := hinv _ data (sweptStore_eq_some _ _ _ _ _ h)
      rw [checkRateLimit_denied _ _ _ _ _ _ data h hd hc] at hgranted
      cases hgranted

/-- The invariant of the store: every entry has `count = 1` and a window of 60000 ms. -/
theorem checkRateLimit_invariant (toLowerCase : String → String) (store : RateLimitStore)
    (rnd : ℚ) (sweepNow now : Nat) (identifier : String)
    (hinv : ∀ k data, store k = some data →
      data.count = 1 ∧ data.expiresAt = data.firstRequestAt + 60000) :
    ∀ k data, (checkRateLimit toLowerCase store rnd sweepNow now identifier).2 k = some data →
      data.count = 1 ∧ data.expiresAt = data.firstRequestAt + 60000 := by
  intro k data hk
  have hswept : ∀ k data, sweptStore store rnd sweepNow k = some data →
      data.count = 1 ∧ data.expiresAt = data.firstRequestAt + 60000 :=
    fun k data h => hinv k data (sweptStore_eq_some _ _ _ _ _ h)
  cases hall : (checkRateLimit toLowerCase store rnd sweepNow now identifier).1.allowed with
  | false =>
    rw [(checkRateLimit_denied_store toLowerCase store rnd sweepNow now identifier hall).1]
      at hk
    exact hswept k data hk
  | true =>
    rw [checkRateLimit_granted toLowerCase store rnd sweepNow now identifier
      (fun k data h => by rw [(hinv k data h).1]) hall] at hk
    dsimp only at hk
    by_cases hkk : k = toLowerCase identifier
    · rw [hkk, storeSet_same] at hk
      cases hk
      exact ⟨rfl, rfl⟩
    · rw [storeSet_other _ _ _ _ hkk] at hk
      exact hswept k data hk

theorem checkRateLimitSeq_cons (toLowerCase : String → String) (store : RateLimitStore)
    (c : RateLimitCall) (cs : List RateLimitCall) :
    checkRateLimitSeq toLowerCase store (c :: cs) =
      ((checkRateLimit toLowerCase store c.rnd c.sweepNow c.now c.identifier).1 ::
        (checkRateLimitSeq toLowerCase
          (checkRateLimit toLowerCase store c.rnd c.sweepNow c.now c.identifier).2 cs).1,
        (checkRateLimitSeq toLowerCase
          (checkRateLimit toLowerCase store c.rnd c.sweepNow c.now c.identifier).2 cs).2) := by
  rfl

theorem clockOrdered_cons (t : Nat) (c : RateLimitCall) (cs : List RateLimitCall) :
    clockOrdered t (c :: cs) = true ↔
      t ≤ c.sweepNow ∧ c.sweepNow ≤ c.now ∧ clockOrdered c.now cs = true := by
  simp [clockOrdered, and_assoc]

theorem clockOrdered_mono (t t2 : Nat) (cs : List RateLimitCall) (h : t2 ≤ t)
    (hc : clockOrdered t cs = true) : clockOrdered t2 cs = true := by
  cases cs with
  | nil => rfl
  | cons c cs =>
    rw [clockOrdered_cons] at hc ⊢
    exact ⟨by omega, hc.2.1, hc.2.2⟩

/-- The invariant along a sequence of calls. -/
theorem checkRateLimitSeq_invariant (toLowerCase : String → String)
    (cs : List RateLimitCall) (store : RateLimitStore)
    (hinv : ∀ k data, store k = some data →
      data.count = 1 ∧ data.expiresAt = data.firstRequestAt + 60000) :
    ∀ k data, (checkRateLimitSeq toLowerCase store cs).2 k = some data →
      data.count = 1 ∧ data.expiresAt = data.firstRequestAt + 60000 := by
  induction cs generalizing store with
  | nil => exact hinv
  | cons c cs ih =>
    rw [checkRateLimitSeq_cons]
    exact ih _ (checkRateLimit_invariant toLowerCase store c.rnd c.sweepNow c.now
      c.identifier hinv)

/-- While a key is blocked until `t + 60000`, no call for it is granted before that time has
passed.  The key is blocked when the store holds an entry for it with the capacity used up
and `expiresAt = t + 60000`; once the clock is past `t + 60000` nothing is left to prove. -/
theorem checkRateLimitSeq_blocked (toLowerCase : String → String)
    (cs : List RateLimitCall) (store : RateLimitStore) (T t : Nat) (k : String)
    (hclock : clockOrdered T cs = true)
    (hblocked : t + 60000 < T ∨
      ∃ data, store k = some data ∧ 1 ≤ data.count ∧ data.expiresAt = t + 60000) :
    ∀ p ∈ cs.zip (checkRateLimitSeq toLowerCase store cs).1,
      toLowerCase p.1.identifier = k → p.2.allowed = true → t + 60000 < p.1.now := by
  induction cs generalizing store T with
  | nil => intro p hp; simp at hp
  | cons c cs ih =>
    rw [clockOrdered_cons] at hclock
    obtain ⟨hT, hsw, hrest⟩ := hclock
    rw [checkRateLimitSeq_cons]
    intro p hp
    simp only [List.zip_cons_cons, List.mem_cons] at hp
    by_cases hlate : t + 60000 < c.now
    · rcases hp with hp | hp
      · rw [hp]; intro _ _; exact hlate
      · exact ih _ c.now hrest (Or.inl hlate) p hp
    · have hdata : ∃ data, store k = some data ∧ 1 ≤ data.count ∧
          data.expiresAt = t + 60000 := by
        rcases hblocked with h | h
        · omega
        · exact h
      obtain ⟨data, hk, hcount, hexp⟩ := hdata
      have hpost : (checkRateLimit toLowerCase store c.rnd c.sweepNow c.now c.identifier).2 k
          = some data := by
        by_cases hkey : k = toLowerCase c.identifier
        · rw [hkey] at hk ⊢
          exact (checkRateLimit_live_denied toLowerCase store c.rnd c.sweepNow c.now
            c.identifier data hk (by omega) (by omega) hcount).2
        · rw [checkRateLimit_other_key _ _ _ _ _ _ _ hkey]
          rcases sweptStore_some store c.rnd c.sweepNow k data hk with h1 | ⟨_, h2⟩
          · exact h1
          · omega
      rcases hp with hp | hp
      · rw [hp]
        intro hkey hall
        exfalso
        rw [← hkey] at hk
        have := (checkRateLimit_live_denied toLowerCase store c.rnd c.sweepNow c.now
          c.identifier data hk (by omega) (by omega) hcount).1
        simp only at hall
        rw [this] at hall
        cases hall
      · exact ih _ c.now hrest (Or.inr ⟨data, hpost, hcount, hexp⟩) p hp

/-- Any two grants for one key along a sequence of calls are more than 60000 ms apart. -/
theorem checkRateLimitSeq_pairwise (toLowerCase : String → String)
    (cs : List RateLimitCall) (store : RateLimitStore) (T : Nat)
    (hclock : clockOrdered T cs = true)
    (hinv : ∀ k data, store k = some data →
      data.count = 1 ∧ data.expiresAt = data.firstRequestAt + 60000) :
    List.Pairwise
      (fun p q : RateLimitCall × RateLimitResult =>
        toLowerCase p.1.identifier = toLowerCase q.1.identifier →
        p.2.allowed = true → q.2.allowed = true → p.1.now + 60000 < q.1.now)
      (cs.zip (checkRateLimitSeq toLowerCase store cs).1) := by
  induction cs generalizing store T with
  | nil => simp
  | cons c cs ih =>
    rw [clockOrdered_cons] at hclock
    obtain ⟨hT, hsw, hrest⟩ := hclock
    rw [checkRateLimitSeq_cons]
    simp only [List.zip_cons_cons, List.pairwise_cons]
    refine ⟨?_, ih _ c.now hrest (checkRateLimit_invariant toLowerCase store c.rnd c.sweepNow
      c.now c.identifier hinv)⟩
    intro q hq hkey hp hqa
    have hg := checkRateLimit_granted toLowerCase store c.rnd c.sweepNow c.now c.identifier
      (fun k data h => by rw [(hinv k data h).1]) hp
    exact checkRateLimitSeq_blocked toLowerCase cs _ c.now c.now (toLowerCase c.identifier)
      hrest (Or.inr ⟨⟨1, c.now + 60000, c.now⟩, by rw [hg]; exact storeSet_same _ _ _,
        by simp, rfl⟩) q hq hkey.symm hqa


/-- Along a sequence of calls every grant is a fresh grant. -/
theorem checkRateLimitSeq_grants_fresh (toLowerCase : String → String)
    (cs : List RateLimitCall) (store : RateLimitStore)
    (hinv : ∀ k data, store k = some data →
      data.count = 1 ∧ data.expiresAt = data.firstRequestAt + 60000) :
    ∀ p ∈ cs.zip (checkRateLimitSeq toLowerCase store cs).1, p.2.allowed = true →
      p.2 = ⟨true, 0, p.1.now + 60000, none, none⟩ := by
  induction cs generalizing store with
  | nil => intro p hp; simp at hp
  | cons c cs ih =>
    rw [checkRateLimitSeq_cons]
    intro p hp
    simp only [List.zip_cons_cons, List.mem_cons] at hp
    rcases hp with hp | hp
    · rw [hp]
      intro hall
      dsimp only at hall ⊢
      rw [checkRateLimit_granted toLowerCase store c.rnd c.sweepNow c.now c.identifier
        (fun k data h => by rw [(hinv k data h).1]) hall]
    · exact ih _ (checkRateLimit_invariant toLowerCase store c.rnd c.sweepNow c.now
        c.identifier hinv) p hp

/-- C28. At most one grant per window.  For every sequence of `checkRateLimit` calls served
from the empty table under a clock that does not run backwards: (1) any two calls that
return `allowed: true` for identifiers with the same lower-cased form are more than 60000 ms
apart; (2) after every prefix of the sequence every stored entry has `count = 1` and
`expiresAt = firstRequestAt + 60000`; (3) whatever entry a call finds for its key after the
optional sweep passes the test `data.count >= MAX_REQUESTS_PER_WINDOW`, so the
count-increment code after that test is never reached; (4) every grant is a fresh grant,
`{allowed: true, remaining: 0, resetAt: now + 60000}`. -/
theorem checkRateLimit_one_grant_per_window (toLowerCase : String → String)
    (cs : List RateLimitCall) (hclock : clockOrdered 0 cs = true) :
    List.Pairwise
      (fun p q : RateLimitCall × RateLimitResult =>
        toLowerCase p.1.identifier = toLowerCase q.1.identifier →
        p.2.allowed = true → q.2.allowed = true → p.1.now + RATE_LIMIT_WINDOW < q.1.now)
      (cs.zip (checkRateLimitSeq toLowerCase emptyStore cs).1) ∧
    (∀ (n : Nat) (k : String) (data : RateLimitEntry),
      (checkRateLimitSeq toLowerCase emptyStore (cs.take n)).2 k = some data →
        data.count = 1 ∧ data.expiresAt = data.firstRequestAt + RATE_LIMIT_WINDOW) ∧
    (∀ (n : Nat) (rnd : ℚ) (sweepNow : Nat) (k : String) (data : RateLimitEntry),
      sweptStore (checkRateLimitSeq toLowerCase emptyStore (cs.take n)).2 rnd sweepNow k
        = some data → data.count ≥ MAX_REQUESTS_PER_WINDOW) ∧
    (∀ p ∈ cs.zip (checkRateLimitSeq toLowerCase emptyStore cs).1, p.2.allowed = true →
      p.2 = ⟨true, 0, p.1.now + RATE_LIMIT_WINDOW, none, none⟩) := by
  have hempty : ∀ k data, emptyStore k = some data →
      data.count = 1 ∧ data.expiresAt = data.firstRequestAt + 60000 := by
    intro k data h; cases h
  have hstores : ∀ (n : Nat) (k : String) (data : RateLimitEntry),
      (checkRateLimitSeq toLowerCase emptyStore (cs.take n)).2 k = some data →
        data.count = 1 ∧ data.expiresAt = data.firstRequestAt + 60000 :=
    fun n => checkRateLimitSeq_invariant toLowerCase (cs.take n) emptyStore hempty
  refine ⟨checkRateLimitSeq_pairwise toLowerCase cs emptyStore 0 hclock hempty, hstores, ?_,
    checkRateLimitSeq_grants_fresh toLowerCase cs emptyStore hempty⟩
  intro n rnd sweepNow k data h
  have := (hstores n k data (sweptStore_eq_some _ _ _ _ _ h)).1
  unfold MAX_REQUESTS_PER_WINDOW
  omega

theorem checkRateLimit_one_grant_per_window_witness :
    List.Pairwise
      (fun p q : RateLimitCall × RateLimitResult =>
        asciiLower p.1.identifier = asciiLower q.1.identifier →
        p.2.allowed = true → q.2.allowed = true → p.1.now + RATE_LIMIT_WINDOW < q.1.now)
      ([⟨0, 1000, 1000, "A@iitp.ac.in"⟩, ⟨1 / 2, 2000, 2000, "a@iitp.ac.in"⟩,
        ⟨0, 61001, 61001, "a@IITP.ac.in"⟩].zip
        (checkRateLimitSeq asciiLower emptyStore
          [⟨0, 1000, 1000, "A@iitp.ac.in"⟩, ⟨1 / 2, 2000, 2000, "a@iitp.ac.in"⟩,
            ⟨0, 61001, 61001, "a@IITP.ac.in"⟩]).1) :=
  (checkRateLimit_one_grant_per_window asciiLower
    [⟨0, 1000, 1000, "A@iitp.ac.in"⟩, ⟨1 / 2, 2000, 2000, "a@iitp.ac.in"⟩,
      ⟨0, 61001, 61001, "a@IITP.ac.in"⟩] (by decide)).1


/-! ## The sweep -/

theorem cleanup_eq_some_iff (store : RateLimitStore) (now : Nat) (k : String)
    (data : RateLimitEntry) :
    cleanupExpiredEntries store now k = some data ↔
      store k = some data ∧ ¬ now > data.expiresAt := by
  unfold cleanupExpiredEntries
  cases h : store k with
  | none => simp
  | some d =>
    by_cases hd : now > d.expiresAt
    · simp only [hd, if_true]
      constructor
      · intro hh; cases hh
      · rintro ⟨h1, h2⟩
        cases h1
        exact absurd hd h2
    · simp only [hd, if_false]
      constructor
      · intro hh; cases hh; exact ⟨rfl, hd⟩
      · rintro ⟨h1, _⟩; exact h1

theorem cleanup_eq_none_iff (store : RateLimitStore) (now : Nat) (k : String) :
    cleanupExpiredEntries store now k = none ↔
      ∀ data, store k = some data → now > data.expiresAt := by
  unfold cleanupExpiredEntries
  cases h : store k with
  | none => simp
  | some d =>
    by_cases hd : now > d.expiresAt
    · simp [hd]
    · simp [hd]

/-- Two stores with the same unexpired entries at `t` have the same unexpired entries at
every later time. -/
theorem cleanup_mono (s1 s2 : RateLimitStore) (t t2 : Nat) (ht : t ≤ t2)
    (h : cleanupExpiredEntries s1 t = cleanupExpiredEntries s2 t) :
    cleanupExpiredEntries s1 t2 = cleanupExpiredEntries s2 t2 := by
  have key : ∀ (a b : RateLimitStore),
      cleanupExpiredEntries a t = cleanupExpiredEntries b t →
      ∀ k data, cleanupExpiredEntries a t2 k = some data →
        cleanupExpiredEntries b t2 k = some data := by
    intro a b hab k data hk
    rw [cleanup_eq_some_iff] at hk ⊢
    obtain ⟨hk1, hk2⟩ := hk
    have ha : cleanupExpiredEntries a t k = some data :=
      (cleanup_eq_some_iff a t k data).2 ⟨hk1, by omega⟩
    rw [hab] at ha
    exact ⟨((cleanup_eq_some_iff b t k data).1 ha).1, hk2⟩
  funext k
  cases h1 : cleanupExpiredEntries s1 t2 k with
  | some d => exact (key s1 s2 h k d h1).symm
  | none =>
    cases h2 : cleanupExpiredEntries s2 t2 k with
    | none => rfl
    | some d =>
      have := key s2 s1 h.symm k d h2
      rw [h1] at this
      cases this

/-- The sweep removes nothing that is unexpired at the time of the call. -/
theorem cleanup_swept (store : RateLimitStore) (rnd : ℚ) (sweepNow now : Nat)
    (h : sweepNow ≤ now) :
    cleanupExpiredEntries (sweptStore store rnd sweepNow) now
      = cleanupExpiredEntries store now := by
  have key : ∀ k data, cleanupExpiredEntries store now k = some data →
      cleanupExpiredEntries (sweptStore store rnd sweepNow) now k = some data := by
    intro k data hk
    rw [cleanup_eq_some_iff] at hk ⊢
    obtain ⟨hk1, hk2⟩ := hk
    rcases sweptStore_some store rnd sweepNow k data hk1 with h1 | ⟨_, h2⟩
    · exact ⟨h1, hk2⟩
    · omega
  funext k
  cases h1 : cleanupExpiredEntries store now k with
  | some d => exact key k d h1
  | none =>
    cases h2 : cleanupExpiredEntries (sweptStore store rnd sweepNow) now k with
    | none => rfl
    | some d =>
      rw [cleanup_eq_some_iff] at h2
      have := (cleanup_eq_some_iff store now k d).2
        ⟨sweptStore_eq_some _ _ _ _ _ h2.1, h2.2⟩
      rw [h1] at this
      cases this

theorem cleanup_storeSet (s1 s2 : RateLimitStore) (now : Nat) (key : String)
    (v : RateLimitEntry)
    (h : cleanupExpiredEntries s1 now = cleanupExpiredEntries s2 now) :
    cleanupExpiredEntries (storeSet s1 key v) now
      = cleanupExpiredEntries (storeSet s2 key v) now := by
  funext k
  have hk := congrFun h k
  by_cases hkk : k = key
  · simp only [cleanupExpiredEntries, storeSet, if_pos hkk]
  · simp only [cleanupExpiredEntries, storeSet, if_neg hkk] at hk ⊢
    exact hk

/-- The outcome of a call in terms of the unexpired entry of its key: with none, the call is
a fresh grant. -/
theorem checkRateLimit_not_live (toLowerCase : String → String) (store : RateLimitStore)
    (rnd : ℚ) (sweepNow now : Nat) (identifier : String)
    (h : cleanupExpiredEntries (sweptStore store rnd sweepNow) now (toLowerCase identifier)
      = none) :
    checkRateLimit toLowerCase store rnd sweepNow now identifier =
      (⟨true, 0, now + 60000, none, none⟩,
        storeSet (sweptStore store rnd sweepNow) (toLowerCase identifier)
          ⟨1, now + 60000, now⟩) := by
  rw [cleanup_eq_none_iff] at h
  cases hs : sweptStore store rnd sweepNow (toLowerCase identifier) with
  | none => exact checkRateLimit_fresh _ _ _ _ _ _ hs
  | some data => exact checkRateLimit_expired _ _ _ _ _ _ data hs (h data hs)

/-- Two calls that differ in the store and in the draw of `Math.random()`, on stores with
the same unexpired entries at the time of the sweep, return the same result and leave stores
with the same unexpired entries at the time of the call. -/
theorem checkRateLimit_live_congr (toLowerCase : String → String) (s1 s2 : RateLimitStore)
    (rnd1 rnd2 : ℚ) (sweepNow now : Nat) (identifier : String) (hsw : sweepNow ≤ now)
    (h : cleanupExpiredEntries s1 sweepNow = cleanupExpiredEntries s2 sweepNow) :
    (checkRateLimit toLowerCase s1 rnd1 sweepNow now identifier).1
      = (checkRateLimit toLowerCase s2 rnd2 sweepNow now identifier).1 ∧
    cleanupExpiredEntries (checkRateLimit toLowerCase s1 rnd1 sweepNow now identifier).2 now
      = cleanupExpiredEntries (checkRateLimit toLowerCase s2 rnd2 sweepNow now identifier).2
          now := by
  have hAB : cleanupExpiredEntries (sweptStore s1 rnd1 sweepNow) now
      = cleanupExpiredEntries (sweptStore s2 rnd2 sweepNow) now := by
    rw [cleanup_swept s1 rnd1 sweepNow now hsw, cleanup_swept s2 rnd2 sweepNow now hsw]
    exact cleanup_mono s1 s2 sweepNow now hsw h
  have hkey := congrFun hAB (toLowerCase identifier)
  cases hl : cleanupExpiredEntries (sweptStore s1 rnd1 sweepNow) now (toLowerCase identifier)
    with
  | none =>
    have hl2 := hl
    rw [hkey] at hl2
    rw [checkRateLimit_not_live toLowerCase s1 rnd1 sweepNow now identifier hl,
      checkRateLimit_not_live toLowerCase s2 rnd2 sweepNow now identifier hl2]
    exact ⟨rfl, cleanup_storeSet _ _ now _ _ hAB⟩
  | some data =>
    have hl2 := hl
    rw [hkey] at hl2
    rw [cleanup_eq_some_iff] at hl hl2
    by_cases hc : data.count ≥ 1
    · rw [checkRateLimit_denied _ _ _ _ _ _ data hl.1 hl.2 hc,
        checkRateLimit_denied _ _ _ _ _ _ data hl2.1 hl2.2 hc]
      exact ⟨rfl, hAB⟩
    · rw [checkRateLimit_increment _ _ _ _ _ _ data hl.1 hl.2 hc,
        checkRateLimit_increment _ _ _ _ _ _ data hl2.1 hl2.2 hc]
      exact ⟨rfl, cleanup_storeSet _ _ now _ _ hAB⟩

/-- Two sequences of the same requests, with any draws of `Math.random()`, served on stores
with the same unexpired entries, return the same results. -/
theorem checkRateLimitSeq_live_congr (toLowerCase : String → String)
    (cs1 cs2 : List RateLimitCall) (s1 s2 : RateLimitStore) (T : Nat)
    (hreq : cs1.map RateLimitCall.request = cs2.map RateLimitCall.request)
    (hclock : clockOrdered T cs1 = true)
    (h : cleanupExpiredEntries s1 T = cleanupExpiredEntries s2 T) :
    (checkRateLimitSeq toLowerCase s1 cs1).1 = (checkRateLimitSeq toLowerCase s2 cs2).1 := by
  induction cs1 generalizing cs2 s1 s2 T with
  | nil =>
    cases cs2 with
    | nil => rfl
    | cons c cs => simp at hreq
  | cons c cs ih =>
    cases cs2 with
    | nil => simp at hreq
    | cons c2 cs2 =>
      simp only [List.map_cons, List.cons.injEq, RateLimitCall.request, Prod.mk.injEq] at hreq
      obtain ⟨⟨hs, hn, hi⟩, hrest⟩ := hreq
      rw [clockOrdered_cons] at hclock
      obtain ⟨hT, hsw, hc⟩ := hclock
      rw [checkRateLimitSeq_cons, checkRateLimitSeq_cons, ← hs, ← hn, ← hi]
      have hstep := checkRateLimit_live_congr toLowerCase s1 s2 c.rnd c2.rnd c.sweepNow c.now
        c.identifier hsw (cleanup_mono s1 s2 T c.sweepNow hT h)
      dsimp only
      rw [hstep.1, ih cs2 _ _ c.now hrest hc hstep.2]


/-- A call that finds an expired entry for its key, or none, is a fresh grant. -/
theorem checkRateLimit_no_live_entry (toLowerCase : String → String) (store : RateLimitStore)
    (rnd : ℚ) (sweepNow now : Nat) (identifier : String)
    (h : ∀ data, store (toLowerCase identifier) = some data → now > data.expiresAt) :
    checkRateLimit toLowerCase store rnd sweepNow now identifier =
      (⟨true, 0, now + 60000, none, none⟩,
        storeSet (sweptStore store rnd sweepNow) (toLowerCase identifier)
          ⟨1, now + 60000, now⟩) := by
  apply checkRateLimit_not_live
  rw [cleanup_eq_none_iff]
  intro data hd
  exact h data (sweptStore_eq_some _ _ _ _ _ hd)

/-- C27. The sweep does not affect results.  (1) For every table, identifier and time
`now`, and any two draws `rnd1`, `rnd2` of `Math.random()` (so with the sweep running in one
call and not in the other), `checkRateLimit` returns the same result, and the two resulting
tables hold the same entries among those not expired at `now`; the sweep reads the clock no
later than the call.  (2) The sweep deletes only entries with `now > expiresAt`.  (3) A
lookup treats such an entry exactly as an absent one: the call returns the same result, and
stores the same entry for the key, on the table and on the table with the entry deleted.
(4) So two sequences of the same calls, under a clock that does not run backwards, return the
same results whatever the draws that decide which calls sweep. -/
theorem checkRateLimit_sweep_irrelevant (toLowerCase : String → String) :
    (∀ (store : RateLimitStore) (rnd1 rnd2 : ℚ) (sweepNow now : Nat) (identifier : String),
      sweepNow ≤ now →
      (checkRateLimit toLowerCase store rnd1 sweepNow now identifier).1
        = (checkRateLimit toLowerCase store rnd2 sweepNow now identifier).1 ∧
      ∀ (k : String) (data : RateLimitEntry), ¬ now > data.expiresAt →
        ((checkRateLimit toLowerCase store rnd1 sweepNow now identifier).2 k = some data ↔
          (checkRateLimit toLowerCase store rnd2 sweepNow now identifier).2 k = some data)) ∧
    (∀ (store : RateLimitStore) (now : Nat) (k : String),
      cleanupExpiredEntries store now k = store k ∨
      ∃ data, store k = some data ∧ now > data.expiresAt ∧
        cleanupExpiredEntries store now k = none) ∧
    (∀ (store : RateLimitStore) (rnd : ℚ) (sweepNow now : Nat) (identifier : String)
        (data : RateLimitEntry),
      store (toLowerCase identifier) = some data → now > data.expiresAt →
      (checkRateLimit toLowerCase store rnd sweepNow now identifier).1
        = (checkRateLimit toLowerCase (storeDelete store (toLowerCase identifier))
            rnd sweepNow now identifier).1 ∧
      (checkRateLimit toLowerCase store rnd sweepNow now identifier).2
          (toLowerCase identifier)
        = (checkRateLimit toLowerCase (storeDelete store (toLowerCase identifier))
            rnd sweepNow now identifier).2 (toLowerCase identifier)) ∧
    (∀ (cs1 cs2 : List RateLimitCall) (store : RateLimitStore),
      cs1.map RateLimitCall.request = cs2.map RateLimitCall.request →
      clockOrdered 0 cs1 = true →
      (checkRateLimitSeq toLowerCase store cs1).1
        = (checkRateLimitSeq toLowerCase store cs2).1) := by
  refine ⟨?_, ?_, ?_, ?_⟩
  · intro store rnd1 rnd2 sweepNow now identifier hsw
    obtain ⟨h1, h2⟩ := checkRateLimit_live_congr toLowerCase store store rnd1 rnd2 sweepNow
      now identifier hsw rfl
    refine ⟨h1, ?_⟩
    intro k data hlive
    have hk := congrFun h2 k
    constructor
    · intro hh
      have := (cleanup_eq_some_iff _ now k data).2 ⟨hh, hlive⟩
      rw [hk] at this
      exact ((cleanup_eq_some_iff _ now k data).1 this).1
    · intro hh
      have := (cleanup_eq_some_iff _ now k data).2 ⟨hh, hlive⟩
      rw [← hk] at this
      exact ((cleanup_eq_some_iff _ now k data).1 this).1
  · intro store now k
    cases h : store k with
    | none => exact Or.inl (cleanup_none store now k h)
    | some data =>
      by_cases hd : now > data.expiresAt
      · exact Or.inr ⟨data, rfl, hd, cleanup_expired store now k data h hd⟩
      · exact Or.inl (cleanup_live store now k data h hd)
  · intro store rnd sweepNow now identifier data hk hd
    have h1 := checkRateLimit_no_live_entry toLowerCase store rnd sweepNow now identifier
      (fun d hdd => by rw [hk] at hdd; cases hdd; exact hd)
    have h2 := checkRateLimit_no_live_entry toLowerCase
      (storeDelete store (toLowerCase identifier)) rnd sweepNow now identifier
      (fun d hdd => by simp [storeDelete] at hdd)
    rw [h1, h2]
    exact ⟨rfl, by dsimp only; rw [storeSet_same, storeSet_same]⟩
  · intro cs1 cs2 store hreq hclock
    exact checkRateLimitSeq_live_congr toLowerCase cs1 cs2 store store 0 hreq hclock rfl

theorem checkRateLimit_sweep_irrelevant_witness :
    (checkRateLimitSeq asciiLower emptyStore
      [⟨0, 1000, 1000, "A@iitp.ac.in"⟩, ⟨0, 2000, 2000, "b@iitp.ac.in"⟩,
        ⟨0, 61001, 61001, "a@IITP.ac.in"⟩]).1
    = (checkRateLimitSeq asciiLower emptyStore
      [⟨1 / 2, 1000, 1000, "A@iitp.ac.in"⟩, ⟨1 / 2, 2000, 2000, "b@iitp.ac.in"⟩,
        ⟨1 / 2, 61001, 61001, "a@IITP.ac.in"⟩]).1 :=
  (checkRateLimit_sweep_irrelevant asciiLower).2.2.2 _ _ emptyStore (by decide) (by decide)

/-- A denied call leaves the entry of its key as it was. -/
theorem checkRateLimit_denied_key (toLowerCase : String → String) (store : RateLimitStore)
    (rnd : ℚ) (sweepNow now : Nat) (identifier : String)
    (hdenied : (checkRateLimit toLowerCase store rnd sweepNow now identifier).1.allowed
      = false) :
    (checkRateLimit toLowerCase store rnd sweepNow now identifier).2 (toLowerCase identifier)
      = store (toLowerCase identifier) := by
  obtain ⟨hpost, data, hdata, _, _⟩ :=
    checkRateLimit_denied_store toLowerCase store rnd sweepNow now identifier hdenied
  rw [hpost, hdata, sweptStore_eq_some _ _ _ _ _ hdata]

/-- Denied attempts for one key, however many, leave the entry of the key as it was. -/
theorem checkRateLimitSeq_denied_key (toLowerCase : String → String)
    (cs : List RateLimitCall) (store : RateLimitStore) (key : String)
    (hkeys : ∀ c ∈ cs, toLowerCase c.identifier = key)
    (hdenied : ∀ r ∈ (checkRateLimitSeq toLowerCase store cs).1, r.allowed = false) :
    (checkRateLimitSeq toLowerCase store cs).2 key = store key := by
  induction cs generalizing store with
  | nil => rfl
  | cons c cs ih =>
    rw [checkRateLimitSeq_cons] at hdenied ⊢
    dsimp only at hdenied ⊢
    have hc := hkeys c (List.mem_cons_self _ _)
    have h1 := hdenied _ (List.mem_cons_self _ _)
    rw [ih _ (fun c2 h2 => hkeys c2 (List.mem_cons_of_mem _ h2))
      (fun r hr => hdenied r (List.mem_cons_of_mem _ hr)), ← hc]
    exact checkRateLimit_denied_key toLowerCase store c.rnd c.sweepNow c.now c.identifier h1

/-- C29. A denied request does not extend the window.  When `checkRateLimit` returns
`allowed: false`, (1) the entry stored for the key of the call is after the call what it was
before; (2) every entry that is unexpired at the time of the call is unchanged, for every
key, and (3) the call adds no entry; the sweep reads the clock no later than the call.
(4) The denial came from an entry `data` of the key that is unexpired, and its `resetAt` is
`data.expiresAt`: after the denied call, and after any number of further denied attempts
for the key, the entry is still `data`, and a call at any time after `data.expiresAt` is
granted. -/
theorem checkRateLimit_denied_frame (toLowerCase : String → String) (store : RateLimitStore)
    (rnd : ℚ) (sweepNow now : Nat) (identifier : String)
    (hclock : sweepNow ≤ now)
    (hdenied : (checkRateLimit toLowerCase store rnd sweepNow now identifier).1.allowed
      = false) :
    (checkRateLimit toLowerCase store rnd sweepNow now identifier).2 (toLowerCase identifier)
      = store (toLowerCase identifier) ∧
    (∀ k data, store k = some data → ¬ now > data.expiresAt →
      (checkRateLimit toLowerCase store rnd sweepNow now identifier).2 k = some data) ∧
    (∀ k data, (checkRateLimit toLowerCase store rnd sweepNow now identifier).2 k = some data →
      store k = some data) ∧
    ∃ data, store (toLowerCase identifier) = some data ∧ now ≤ data.expiresAt ∧
      (checkRateLimit toLowerCase store rnd sweepNow now identifier).1.resetAt
        = data.expiresAt ∧
      (∀ cs : List RateLimitCall,
        (∀ c ∈ cs, toLowerCase c.identifier = toLowerCase identifier) →
        (∀ r ∈ (checkRateLimitSeq toLowerCase
            (checkRateLimit toLowerCase store rnd sweepNow now identifier).2 cs).1,
          r.allowed = false) →
        (checkRateLimitSeq toLowerCase
          (checkRateLimit toLowerCase store rnd sweepNow now identifier).2 cs).2
            (toLowerCase identifier) = some data ∧
        ∀ (rnd2 : ℚ) (sweepNow2 now2 : Nat), data.expiresAt < now2 →
          (checkRateLimit toLowerCase
            (checkRateLimitSeq toLowerCase
              (checkRateLimit toLowerCase store rnd sweepNow now identifier).2 cs).2
            rnd2 sweepNow2 now2 identifier).1 = ⟨true, 0, now2 + 60000, none, none⟩) := by
  obtain ⟨hpost, _, _, _, _⟩ :=
    checkRateLimit_denied_store toLowerCase store rnd sweepNow now identifier hdenied
  obtain ⟨data, hstore, hlive, hreset, _⟩ :=
    checkRateLimit_denied_inv toLowerCase store rnd sweepNow now identifier hdenied
  have hkey := checkRateLimit_denied_key toLowerCase store rnd sweepNow now identifier hdenied
  refine ⟨hkey, ?_, ?_, data, hstore, hlive, hreset, ?_⟩
  · intro k d hk hl
    rw [hpost]
    rcases sweptStore_some store rnd sweepNow k d hk with h1 | ⟨_, h2⟩
    · exact h1
    · omega
  · intro k d hk
    rw [hpost] at hk
    exact sweptStore_eq_some _ _ _ _ _ hk
  · intro cs hkeys hden
    have hfinal : (checkRateLimitSeq toLowerCase
        (checkRateLimit toLowerCase store rnd sweepNow now identifier).2 cs).2
          (toLowerCase identifier) = some data := by
      rw [checkRateLimitSeq_denied_key toLowerCase cs _ _ hkeys hden, hkey, hstore]
    refine ⟨hfinal, ?_⟩
    intro rnd2 sweepNow2 now2 hlate
    rw [checkRateLimit_no_live_entry toLowerCase _ rnd2 sweepNow2 now2 identifier
      (fun d hd => by rw [hfinal] at hd; cases hd; exact hlate)]

theorem checkRateLimit_denied_frame_witness :
    (checkRateLimit asciiLower (storeSet emptyStore "a@iitp.ac.in" ⟨1, 61000, 1000⟩)
        0 2500 2500 "A@iitp.ac.in").2 (asciiLower "A@iitp.ac.in")
      = storeSet emptyStore "a@iitp.ac.in" ⟨1, 61000, 1000⟩ (asciiLower "A@iitp.ac.in") :=
  (checkRateLimit_denied_frame asciiLower (storeSet emptyStore "a@iitp.ac.in" ⟨1, 61000, 1000⟩)
    0 2500 2500 "A@iitp.ac.in" (Nat.le_refl 2500)
    (congrArg RateLimitResult.allowed
      (checkRateLimit_live_denied asciiLower
        (storeSet emptyStore "a@iitp.ac.in" ⟨1, 61000, 1000⟩) 0 2500 2500 "A@iitp.ac.in"
        ⟨1, 61000, 1000⟩ (by decide) (by decide) (by decide) (by decide)).1)).1

/-- C24. No double grant.  `checkRateLimit` has no `await`: a call runs to completion before
another call starts, so the interleavings of two concurrent calls are the two orders in which
the event loop can serve them.  For two calls whose identifiers `a` and `b` have the same
lower-cased form, starting from a table with no unexpired entry for that key, in either
order the call served first is granted and the call served second is denied, so they are
never both granted; the second call reads the clock (`now2`) within the window that the first
grant opened at `now1`, and its sweep reads the clock no later than the call. -/
theorem checkRateLimit_no_double_grant (toLowerCase : String → String)
    (store : RateLimitStore) (rnd1 rnd2 : ℚ) (sweepNow1 now1 sweepNow2 now2 : Nat)
    (a b : String)
    (hsame : toLowerCase a = toLowerCase b)
    (hnolive : ∀ data, store (toLowerCase a) = some data → now1 > data.expiresAt)
    (hsweep : sweepNow2 ≤ now2) (hwithin : now2 ≤ now1 + RATE_LIMIT_WINDOW) :
    ((checkRateLimit toLowerCase store rnd1 sweepNow1 now1 a).1.allowed = true ∧
      (checkRateLimit toLowerCase
        (checkRateLimit toLowerCase store rnd1 sweepNow1 now1 a).2
        rnd2 sweepNow2 now2 b).1.allowed = false) ∧
    ((checkRateLimit toLowerCase store rnd1 sweepNow1 now1 b).1.allowed = true ∧
      (checkRateLimit toLowerCase
        (checkRateLimit toLowerCase store rnd1 sweepNow1 now1 b).2
        rnd2 sweepNow2 now2 a).1.allowed = false) ∧
    ¬ ((checkRateLimit toLowerCase store rnd1 sweepNow1 now1 a).1.allowed = true ∧
      (checkRateLimit toLowerCase
        (checkRateLimit toLowerCase store rnd1 sweepNow1 now1 a).2
        rnd2 sweepNow2 now2 b).1.allowed = true) ∧
    ¬ ((checkRateLimit toLowerCase store rnd1 sweepNow1 now1 b).1.allowed = true ∧
      (checkRateLimit toLowerCase
        (checkRateLimit toLowerCase store rnd1 sweepNow1 now1 b).2
        rnd2 sweepNow2 now2 a).1.allowed = true) := by
  have key : ∀ x y : String, toLowerCase x = toLowerCase y →
      (∀ data, store (toLowerCase x) = some data → now1 > data.expiresAt) →
      (checkRateLimit toLowerCase store rnd1 sweepNow1 now1 x).1.allowed = true ∧
      (checkRateLimit toLowerCase
        (checkRateLimit toLowerCase store rnd1 sweepNow1 now1 x).2
        rnd2 sweepNow2 now2 y).1.allowed = false := by
    intro x y hxy hx
    have h1 := checkRateLimit_no_live_entry toLowerCase store rnd1 sweepNow1 now1 x hx
    have hstored : (checkRateLimit toLowerCase store rnd1 sweepNow1 now1 x).2
        (toLowerCase y) = some ⟨1, now1 + 60000, now1⟩ := by
      rw [h1, ← hxy]; exact storeSet_same _ _ _
    unfold RATE_LIMIT_WINDOW at hwithin
    have h2 := (checkRateLimit_live_denied toLowerCase _ rnd2 sweepNow2 now2 y
      ⟨1, now1 + 60000, now1⟩ hstored (by simp; omega) (by simp; omega) (by simp)).1
    rw [h2]
    exact ⟨by rw [h1], rfl⟩
  have hab := key a b hsame hnolive
  have hba := key b a hsame.symm (by rw [← hsame]; exact hnolive)
  refine ⟨hab, hba, ?_, ?_⟩
  · rintro ⟨_, h⟩
    rw [hab.2] at h; cases h
  · rintro ⟨_, h⟩
    rw [hba.2] at h; cases h

theorem checkRateLimit_no_double_grant_witness :
    ¬ ((checkRateLimit asciiLower emptyStore 0 1000 1000 "Anish@iitp.ac.in").1.allowed = true ∧
      (checkRateLimit asciiLower
        (checkRateLimit asciiLower emptyStore 0 1000 1000 "Anish@iitp.ac.in").2
        (1 / 2) 1000 1000 "anish@IITP.ac.in").1.allowed = true) :=
  (checkRateLimit_no_double_grant asciiLower emptyStore 0 (1 / 2) 1000 1000 1000 1000
    "Anish@iitp.ac.in" "anish@IITP.ac.in" (by decide) (fun _ h => by cases h)
    (Nat.le_refl 1000) (by decide)).2.2.1

/-! ## The send-otp handler -/

theorem sendOTPEmail_throws (transport : String → String → Except JsError String)
    (toEmail otp : String) (error : JsError) (h : transport toEmail otp = .error error) :
    sendOTPEmail transport toEmail otp
      = .error ⟨"Error", "Failed to send OTP email: " ++ error.message⟩ := by
  simp only [sendOTPEmail, h]

/-- The handler on a request that reaches the send: the response is decided by the outcome
of `sendOTPEmail`, and the store is the one `checkRateLimit` left. -/
theorem sendOtpHandler_reached (toLowerCase : String → String) (L : Libs)
    (JWT_SECRET : Option String) (transport : String → String → Except JsError String)
    (store : RateLimitStore) (req : SendOtpRequest) (rnd : ℚ) (sweepNow rateNow : Nat)
    (r : ℚ) (salt : String) (createdNow expiresNow signNow : Nat) (email token : String)
    (hmethod : req.method = "POST") (hemail : req.email = some email) (hne : email ≠ "")
    (hvalid : isValidIITPEmail (toLowerCase (jsTrim email)) = true)
    (hallowed : (checkRateLimit toLowerCase store rnd sweepNow rateNow
      (toLowerCase (jsTrim email))).1.allowed = true)
    (htoken : createOTPToken toLowerCase L JWT_SECRET (toLowerCase (jsTrim email))
      (generateOTP r) salt createdNow expiresNow signNow = .ok token) :
    sendOtpHandler toLowerCase L JWT_SECRET transport store req rnd sweepNow rateNow r salt
        createdNow expiresNow signNow =
      match sendOTPEmail transport (toLowerCase (jsTrim email)) (generateOTP r) with
      | .error _ =>
        (.failure 500 "Failed to send OTP email. Please check your email configuration.",
          (checkRateLimit toLowerCase store rnd sweepNow rateNow
            (toLowerCase (jsTrim email))).2)
      | .ok _ =>
        (.success "OTP sent successfully to your email" token 300 (toLowerCase (jsTrim email))
          (match req.redirect_uri with
            | some uri => if uri = "" then .null else .str uri
            | none => .null),
          (checkRateLimit toLowerCase store rnd sweepNow rateNow
            (toLowerCase (jsTrim email))).2) := by
  have hf : fieldMissing req.email = false := by
    rw [hemail]; simp [fieldMissing, hne]
  unfold sendOtpHandler
  rw [if_neg (by simp [hmethod]), if_neg (by simp [hf])]
  simp only [hemail, Option.getD_some, hvalid, hallowed, Bool.not_true, Bool.false_eq_true,
    if_false, htoken]
  cases sendOTPEmail transport (toLowerCase (jsTrim email)) (generateOTP r) <;> rfl

/-- The store after any request: the store before it, or the store `checkRateLimit` left. -/
theorem sendOtpHandler_store (toLowerCase : String → String) (L : Libs)
    (JWT_SECRET : Option String) (transport : String → String → Except JsError String)
    (store : RateLimitStore) (req : SendOtpRequest) (rnd : ℚ) (sweepNow rateNow : Nat)
    (r : ℚ) (salt : String) (createdNow expiresNow signNow : Nat) :
    (sendOtpHandler toLowerCase L JWT_SECRET transport store req rnd sweepNow rateNow r salt
        createdNow expiresNow signNow).2 = store ∨
    ∃ email, req.email = some email ∧
      (sendOtpHandler toLowerCase L JWT_SECRET transport store req rnd sweepNow rateNow r salt
        createdNow expiresNow signNow).2
        = (checkRateLimit toLowerCase store rnd sweepNow rateNow
            (toLowerCase (jsTrim email))).2 := by
  unfold sendOtpHandler
  by_cases hm : req.method ≠ "POST"
  · rw [if_pos hm]; exact Or.inl rfl
  · rw [if_neg hm]
    by_cases hf : fieldMissing req.email = true
    · rw [if_pos hf]; exact Or.inl rfl
    · rw [if_neg hf]
      obtain ⟨email, hemail, _⟩ := fieldMissing_false _ (by simpa using hf)
      simp only [hemail, Option.getD_some]
      split_ifs
      · exact Or.inl rfl
      · exact Or.inr ⟨email, rfl, rfl⟩
      · refine Or.inr ⟨email, rfl, ?_⟩
        cases createOTPToken toLowerCase L JWT_SECRET (toLowerCase (jsTrim email))
            (generateOTP r) salt createdNow expiresNow signNow with
        | error e => rfl
        | ok token =>
          dsimp only
          cases sendOTPEmail transport (toLowerCase (jsTrim email)) (generateOTP r) <;> rfl

/-- A success response comes from a send that did not throw. -/
theorem sendOtpHandler_success_inv (toLowerCase : String → String) (L : Libs)
    (JWT_SECRET : Option String) (transport : String → String → Except JsError String)
    (store : RateLimitStore) (req : SendOtpRequest) (rnd : ℚ) (sweepNow rateNow : Nat)
    (r : ℚ) (salt : String) (createdNow expiresNow signNow : Nat)
    (message token : String) (expiresIn : Nat) (email2 : String) (redirect : JsVal)
    (h : (sendOtpHandler toLowerCase L JWT_SECRET transport store req rnd sweepNow rateNow r
      salt createdNow expiresNow signNow).1 = .success message token expiresIn email2 redirect) :
    ∃ email messageId, req.email = some email ∧
      transport (toLowerCase (jsTrim email)) (generateOTP r) = .ok messageId := by
  unfold sendOtpHandler at h
  by_cases hm : req.method ≠ "POST"
  · rw [if_pos hm] at h; cases h
  · rw [if_neg hm] at h
    by_cases hf : fieldMissing req.email = true
    · rw [if_pos hf] at h; cases h
    · rw [if_neg hf] at h
      obtain ⟨email, hemail, _⟩ := fieldMissing_false _ (by simpa using hf)
      simp only [hemail, Option.getD_some] at h
      by_cases hv : isValidIITPEmail (toLowerCase (jsTrim email)) = true
      · by_cases ha : (checkRateLimit toLowerCase store rnd sweepNow rateNow
            (toLowerCase (jsTrim email))).1.allowed = true
        · simp only [hv, ha, Bool.not_true, Bool.false_eq_true, if_false] at h
          cases hc : createOTPToken toLowerCase L JWT_SECRET (toLowerCase (jsTrim email))
              (generateOTP r) salt createdNow expiresNow signNow with
          | error e => rw [hc] at h; cases h
          | ok tok =>
            rw [hc] at h
            dsimp only at h
            cases ht : transport (toLowerCase (jsTrim email)) (generateOTP r) with
            | ok messageId => exact ⟨email, messageId, hemail, ht⟩
            | error e =>
              rw [sendOTPEmail_throws transport _ _ e ht] at h
              cases h
        · have ha2 : (checkRateLimit toLowerCase store rnd sweepNow rateNow
              (toLowerCase (jsTrim email))).1.allowed = false := by simpa using ha
          simp only [hv, ha2, Bool.not_true, Bool.not_false, Bool.false_eq_true, if_false,
            if_true] at h
          cases h
      · have hv2 : isValidIITPEmail (toLowerCase (jsTrim email)) = false := by simpa using hv
        simp only [hv2, Bool.not_false, if_true] at h
        cases h


/-- C23. Transport failure leaves state alone.  When the email send throws, (1) the
send-otp handler never answers with success; (2) the rate-limit table after the request is
the table before it (the request was turned away before the rate check) or exactly the table
`checkRateLimit` left before the send; (3) on a request that reaches the send (a POST with an
accepted email, granted by `checkRateLimit`, for which `createOTPToken` returned `token`) the
answer is status 500 with `Failed to send OTP email. Please check your email
configuration.`, the table is the one `checkRateLimit` left, it holds for the email an
unexpired entry with the capacity used up, and the same request repeated while that entry is
unexpired is answered 429; (4) with a send that succeeds, the same request is answered with
that same `token` and leaves that same table. -/
theorem sendOtpHandler_transport_failure (toLowerCase : String → String) (L : Libs)
    (JWT_SECRET : Option String) (transport : String → String → Except JsError String)
    (store : RateLimitStore) (req : SendOtpRequest) (rnd : ℚ) (sweepNow rateNow : Nat)
    (r : ℚ) (salt : String) (createdNow expiresNow signNow : Nat)
    (hthrows : ∀ toEmail otp, ∃ error, transport toEmail otp = .error error) :
    (∀ (message token : String) (expiresIn : Nat) (email : String) (redirect : JsVal),
      (sendOtpHandler toLowerCase L JWT_SECRET transport store req rnd sweepNow rateNow r salt
        createdNow expiresNow signNow).1 ≠ .success message token expiresIn email redirect) ∧
    ((sendOtpHandler toLowerCase L JWT_SECRET transport store req rnd sweepNow rateNow r salt
        createdNow expiresNow signNow).2 = store ∨
      ∃ email, req.email = some email ∧
        (sendOtpHandler toLowerCase L JWT_SECRET transport store req rnd sweepNow rateNow r
          salt createdNow expiresNow signNow).2
          = (checkRateLimit toLowerCase store rnd sweepNow rateNow
              (toLowerCase (jsTrim email))).2) ∧
    (∀ email token : String,
      req.method = "POST" → req.email = some email → email ≠ "" →
      isValidIITPEmail (toLowerCase (jsTrim email)) = true →
      (checkRateLimit toLowerCase store rnd sweepNow rateNow
        (toLowerCase (jsTrim email))).1.allowed = true →
      createOTPToken toLowerCase L JWT_SECRET (toLowerCase (jsTrim email)) (generateOTP r)
        salt createdNow expiresNow signNow = .ok token →
      sendOtpHandler toLowerCase L JWT_SECRET transport store req rnd sweepNow rateNow r salt
          createdNow expiresNow signNow
        = (.failure 500 "Failed to send OTP email. Please check your email configuration.",
            (checkRateLimit toLowerCase store rnd sweepNow rateNow
              (toLowerCase (jsTrim email))).2) ∧
      (∃ data,
        (sendOtpHandler toLowerCase L JWT_SECRET transport store req rnd sweepNow rateNow r
          salt createdNow expiresNow signNow).2 (toLowerCase (toLowerCase (jsTrim email)))
          = some data ∧
        rateNow ≤ data.expiresAt ∧ 1 ≤ data.count ∧
        ∀ (transport2 : String → String → Except JsError String) (rnd2 : ℚ)
            (sweepNow2 rateNow2 : Nat) (r2 : ℚ) (salt2 : String)
            (createdNow2 expiresNow2 signNow2 : Nat),
          sweepNow2 ≤ data.expiresAt → rateNow2 ≤ data.expiresAt →
          (sendOtpHandler toLowerCase L JWT_SECRET transport2
            (sendOtpHandler toLowerCase L JWT_SECRET transport store req rnd sweepNow rateNow
              r salt createdNow expiresNow signNow).2
            req rnd2 sweepNow2 rateNow2 r2 salt2 createdNow2 expiresNow2 signNow2).1
            = .rateLimited
                (some ("Too many requests. Please try again in "
                  ++ toString (ceilDiv1000 ((data.expiresAt : Int) - (rateNow2 : Int)))
                  ++ " seconds."))
                (some (ceilDiv1000 ((data.expiresAt : Int) - (rateNow2 : Int))))) ∧
      (∀ (transport2 : String → String → Except JsError String) (messageId : String),
        transport2 (toLowerCase (jsTrim email)) (generateOTP r) = .ok messageId →
        ∃ redirect,
          sendOtpHandler toLowerCase L JWT_SECRET transport2 store req rnd sweepNow rateNow r
              salt createdNow expiresNow signNow
            = (.success "OTP sent successfully to your email" token 300
                (toLowerCase (jsTrim email)) redirect,
              (sendOtpHandler toLowerCase L JWT_SECRET transport store req rnd sweepNow
                rateNow r salt createdNow expiresNow signNow).2))) := by
  refine ⟨?_, sendOtpHandler_store toLowerCase L JWT_SECRET transport store req rnd sweepNow
    rateNow r salt createdNow expiresNow signNow, ?_⟩
  · intro message token expiresIn email redirect h
    obtain ⟨email1, messageId, _, hok⟩ := sendOtpHandler_success_inv toLowerCase L JWT_SECRET
      transport store req rnd sweepNow rateNow r salt createdNow expiresNow signNow message
      token expiresIn email redirect h
    obtain ⟨error, herr⟩ := hthrows (toLowerCase (jsTrim email1)) (generateOTP r)
    rw [herr] at hok
    cases hok
  · intro email token hmethod hemail hne hvalid hallowed htoken
    obtain ⟨error, herr⟩ := hthrows (toLowerCase (jsTrim email)) (generateOTP r)
    have hreach := sendOtpHandler_reached toLowerCase L JWT_SECRET transport store req rnd
      sweepNow rateNow r salt createdNow expiresNow signNow email token hmethod hemail hne
      hvalid hallowed htoken
    rw [sendOTPEmail_throws transport _ _ error herr] at hreach
    dsimp only at hreach
    refine ⟨hreach, ?_, ?_⟩
    · obtain ⟨data, hdata, hlive, hcount⟩ := checkRateLimit_post toLowerCase store rnd sweepNow
        rateNow (toLowerCase (jsTrim email))
      refine ⟨data, by rw [hreach]; exact hdata, hlive, hcount, ?_⟩
      intro transport2 rnd2 sweepNow2 rateNow2 r2 salt2 createdNow2 expiresNow2 signNow2 hs hn
      rw [hreach]
      dsimp only
      have hden := (checkRateLimit_live_denied toLowerCase _ rnd2 sweepNow2 rateNow2
        (toLowerCase (jsTrim email)) data hdata hs hn hcount).1
      have hf : fieldMissing req.email = false := by
        rw [hemail]; simp [fieldMissing, hne]
      unfold sendOtpHandler
      rw [if_neg (by simp [hmethod]), if_neg (by simp [hf])]
      simp only [hemail, Option.getD_some, hvalid, hden, Bool.not_true, Bool.not_false,
        Bool.false_eq_true, if_false, if_true]
    · intro transport2 messageId hok
      have hreach2 := sendOtpHandler_reached toLowerCase L JWT_SECRET transport2 store req rnd
        sweepNow rateNow r salt createdNow expiresNow signNow email token hmethod hemail hne
        hvalid hallowed htoken
      simp only [sendOTPEmail, hok] at hreach2
      rw [hreach2, hreach]
      exact ⟨_, rfl⟩

theorem sendOtpHandler_transport_failure_witness :
    sendOtpHandler asciiLower toyLibs (some "s3cret") failingTransport emptyStore
        sampleSendRequest 0 1700000000000 1700000000000 0 "salt" 1700000000000 1700000000000
        1700000000000
      = (.failure 500 "Failed to send OTP email. Please check your email configuration.",
          (checkRateLimit asciiLower emptyStore 0 1700000000000 1700000000000
            (asciiLower (jsTrim " Anish_2301mc40@IITP.ac.in "))).2) :=
  ((sendOtpHandler_transport_failure asciiLower toyLibs (some "s3cret") failingTransport
    emptyStore sampleSendRequest 0 1700000000000 1700000000000 0 "salt" 1700000000000
    1700000000000 1700000000000 (fun _ _ => ⟨_, rfl⟩)).2.2
    " Anish_2301mc40@IITP.ac.in " _ rfl rfl (by decide) (by decide)
    (congrArg RateLimitResult.allowed
      (checkRateLimit_post_fresh asciiLower emptyStore 0 1700000000000 1700000000000
        (asciiLower (jsTrim " Anish_2301mc40@IITP.ac.in ")) rfl).1)
    (createOTPToken_configured asciiLower toyLibs "s3cret" _ _ "salt" 1700000000000
      1700000000000 1700000000000 (by decide))).1

end IitpAuth
